import Mathlib

/-!
# pysqlite: cursor execution, transactions and row iteration

A shallow embedding of `src/cursor.c` and `src/connection.c`.  The SQLite engine
is an abstract record of operations over an engine state `σ`; Python objects are
a small inductive type; the interpreter's pending-exception slot, the heap of
`Statement` objects and a ghost trace of engine calls are explicit fields of the
`World`.
-/

namespace Pysqlite

/-! ## Engine result codes (sqlite3.h) -/

def SQLITE_OK : Int := 0
def SQLITE_SCHEMA : Int := 17
def SQLITE_ROW : Int := 100
def SQLITE_DONE : Int := 101

/-- The two limits defined at the top of cursor.c. -/
def INT32_MIN : Int := -2147483647 - 1
def INT32_MAX : Int := 2147483647

/-! ## Data model -/

/-- Statement classification (the enum used by `detect_statement_type`). -/
inductive StatementKind
  | STATEMENT_INVALID
  | STATEMENT_INSERT
  | STATEMENT_DELETE
  | STATEMENT_UPDATE
  | STATEMENT_REPLACE
  | STATEMENT_SELECT
  | STATEMENT_OTHER
  deriving DecidableEq, Repr

open StatementKind

/-- Values held by the engine (bound parameters and result columns).  A double is
kept as its 64-bit pattern. -/
inductive SqlValue
  | null
  | integer (v : Int)
  | float (bits : Nat)
  | text (bytes : List Nat)
  | blob (bytes : List Nat)
  deriving DecidableEq, Repr

/-- Python objects that reach the cursor as parameters or leave it as cells.
`int` is the machine-native integer (a C long), `long` the arbitrary-precision
integer, `str` a byte string, `buffer` a buffer object (with a flag telling whether
`PyObject_AsCharBuffer` succeeds on it), `other` any object of another type. -/
inductive PyObj
  | none
  | int (v : Int)
  | long (v : Int)
  | float (bits : Nat)
  | buffer (bytes : List Nat) (readable : Bool)
  | str (bytes : List Nat)
  | unicode (s : String)
  | other (tag : Nat)
  deriving DecidableEq, Repr

/-- A result tuple: one slot per column; a slot is `none` when the C code stored a
NULL pointer in it. -/
abbrev Row := List (Option PyObj)

/-- One parameter set handed to execute / executemany. -/
inductive Params
  | dict (items : List (String × PyObj))
  | seq (items : List PyObj)
  | not_a_sequence
  deriving DecidableEq, Repr

/-- The pending Python exception, one constructor per raising site. -/
inductive PyErr
  | wrong_thread
  | closed_connection
  | begin_not_allowed
  | executemany_select
  | binding_has_no_name (i : Nat)
  | binding_not_supplied (i : Nat)
  | binding_count (needed : Nat) (supplied : Int)
  | binding_unsupported_named (name : String)
  | binding_unsupported_positional (i : Nat)
  | executemany_row
  | engine_error
  | cannot_decode (column : Nat)
  | blob_not_readable
  | long_overflow
  | list_index
  | callable_raised
  deriving DecidableEq, Repr

/-- Exception classes of the module. -/
inductive PyExcClass
  | ProgrammingError
  | OperationalError
  | InterfaceError
  | ValueError
  | OverflowError
  | IndexError
  | Exception
  deriving DecidableEq, Repr

/-- Class of each exception raised by the C code. -/
def PyErr.cls : PyErr → PyExcClass
  | .wrong_thread => .ProgrammingError
  | .closed_connection => .ProgrammingError
  | .begin_not_allowed => .ProgrammingError
  | .executemany_select => .ProgrammingError
  | .binding_has_no_name _ => .ProgrammingError
  | .binding_not_supplied _ => .ProgrammingError
  | .binding_count _ _ => .ProgrammingError
  | .binding_unsupported_named _ => .InterfaceError
  | .binding_unsupported_positional _ => .InterfaceError
  | .executemany_row => .ProgrammingError
  | .engine_error => .OperationalError
  | .cannot_decode _ => .OperationalError
  | .blob_not_readable => .ValueError
  | .long_overflow => .OverflowError
  | .list_index => .IndexError
  | .callable_raised => .Exception

/-- Code site that issues an engine prepare / step / finalize (ghost tag). -/
inductive Site
  | begin
  | commit
  | rollback
  | execute
  | retry
  | iternext
  | script
  deriving DecidableEq, Repr

/-- Ghost trace entry: one engine call made by the C code, with its result code.
A step entry also records the connection's `inTransaction` flag at the moment of
the call and the engine's affected-row counter right after it. -/
inductive Event
  | prepare (site : Site) (sql : String) (rc : Int)
  | step (site : Site) (st : Nat) (rc : Int) (inTransaction : Bool) (changes : Int)
  | reset (st : Nat) (rc : Int)
  | finalize (site : Site) (st : Nat) (rc : Int)
  | recompile (st : Nat) (rc : Int)
  | bind (st : Nat) (pos : Nat) (v : SqlValue) (rc : Int)
  | create_function (name : String) (narg : Int) (rc : Int)
  deriving DecidableEq, Repr

/-- The engine as a capability record over its own state `σ` (sqlite3 API).
`step` is the step driven through `_sqlite_step_with_busyhandler` (util.c), which
returns the engine's final result code and raises nothing itself; `recompile` is
the prepare performed by `statement_recompile` (statement.c); `create_function` is
`sqlite3_create_function` for a name and an argument count; `complete` is
`sqlite3_complete`, and `tail` gives the rest of a text behind its first statement,
where `sqlite3_prepare` leaves its tail pointer. -/
structure Engine (σ : Type) where
  prepare : σ → String → σ × Int × Nat
  step : σ → Nat → σ × Int
  reset : σ → Nat → σ × Int
  finalize : σ → Nat → σ × Int
  recompile : σ → Nat → σ × Int × Nat
  bind : σ → Nat → Nat → SqlValue → σ × Int
  bind_parameter_count : σ → Nat → Nat
  bind_parameter_name : σ → Nat → Nat → Option String
  column_count : σ → Nat → Nat
  column_name : σ → Nat → Nat → String
  column_decltype : σ → Nat → Nat → Option String
  data_count : σ → Nat → Nat
  column_value : σ → Nat → Nat → SqlValue
  column_text : σ → Nat → Nat → Option (List Nat)
  changes : σ → Int
  last_insert_rowid : σ → Int
  create_function : σ → String → Int → σ × Int
  complete : String → Bool
  tail : String → String

/-- A registered converter: called on the column text, `none` when it raises. -/
abbrev Converter := List Nat → Option PyObj

/-- The connection's text policy (`text_factory`). -/
inductive TextFactory
  | unicode_type
  | optimized_unicode
  | string_type
  | callable (f : List Nat → Option PyObj)

/-- Fields of the `Connection` object used by the cursor and the transaction
functions.  `db` is true while the engine handle is non-NULL; the statement cache
maps SQL text to the heap address of its `Statement`, most recently used first. -/
structure Connection where
  db : Bool
  inTransaction : Bool
  begin_statement : Bool
  no_implicit_begin : Bool
  check_same_thread : Bool
  thread_ident : Nat
  detect_types : Nat
  text_factory : TextFactory
  statement_cache : List (String × Nat)

/-- The `Statement` object of statement.h. -/
structure Statement where
  st : Nat
  in_use : Bool
  deriving DecidableEq, Repr, Inhabited

/-- Platform and module constants, and the Python-side callables the C code calls
into: the width of a C long, the two detect-types bits (module.h), the capacity of
the statement cache, `microprotocols_adapt` (`none` when it fails), the UTF-8
decoder, and the bytes read through a `type_start` pointer left over from an
earlier column name (build_row_cast_map). -/
structure Env where
  LONG_BIT : Nat
  PARSE_DECLTYPES : Nat
  PARSE_COLNAMES : Nat
  cache_capacity : Nat
  adapt : PyObj → Option PyObj
  decode_utf8 : List Nat → Option String
  stale_key : Nat → Nat → Nat → Nat → String

/-- Everything outside the cursor: engine state, the connection, the heap of
statement objects (by address, with the next free address), the module-level
converter registry, the running thread, the pending exception, a flag set when the C
code dereferences a NULL pointer (a missing statement, or the missing result of the
row factory in `Py_DECREF`), and the ghost trace. -/
structure World (σ : Type) where
  eng : σ
  conn : Connection
  heap : Nat → Statement
  heap_next : Nat
  converters : List (String × Converter)
  thread : Nat
  err : Option PyErr
  fault : Bool
  log : List Event

/-- The `Cursor` object. -/
structure Cursor where
  statement : Option Nat
  next_row : Option Row
  row_cast_map : List (Option Converter)
  description : Option (List String)
  lastrowid : Option Int
  arraysize : Int
  rowcount : Int
  row_factory : Option (Row → Option PyObj)

/-- What `cursor_iternext` hands back: the row tuple, or the row factory's result. -/
inductive NextResult
  | row (r : Row)
  | object (o : PyObj)
  deriving DecidableEq, Repr

/-! ## detect_statement_type -/

/-- The characters of a C string: everything before the first NUL. -/
def c_chars (s : String) : List Char :=
  s.toList.takeWhile (fun c => c != Char.ofNat 0)

/-- Bytes of a C string: everything before the first NUL. -/
def c_str (bytes : List Nat) : List Nat :=
  bytes.takeWhile (fun b => b != 0)

def is_space (c : Char) : Bool :=
  c == '\r' || c == '\n' || c == ' ' || c == '\t'

/-- The first loop of detect_statement_type: skip over whitespace. -/
def skip_whitespace : List Char → List Char
  | [] => []
  | c :: cs => if is_space c then skip_whitespace cs else c :: cs

/-- The copy loop of detect_statement_type: lower-cased letters while the buffer
has room (`dst - buf < sizeof(buf) - 2`, that is at most 18 characters). -/
def copy_keyword : Nat → List Char → List Char
  | 0, _ => []
  | _ + 1, [] => []
  | n + 1, c :: cs => if c.isAlpha then c.toLower :: copy_keyword n cs else []

def detect_statement_type (statement : String) : StatementKind :=
  match skip_whitespace (c_chars statement) with
  | [] => STATEMENT_INVALID
  | src =>
    let buf := String.mk (copy_keyword 18 src)
    if buf = "select" then STATEMENT_SELECT
    else if buf = "insert" then STATEMENT_INSERT
    else if buf = "update" then STATEMENT_UPDATE
    else if buf = "delete" then STATEMENT_DELETE
    else if buf = "replace" then STATEMENT_REPLACE
    else STATEMENT_OTHER

/-! ## World primitives -/

variable {σ : Type}

/-- Set the pending exception (PyErr_SetString / PyErr_Format). -/
def World.raise (w : World σ) (e : PyErr) : World σ :=
  { w with err := some e }

/-- Drop the pending exception (PyErr_Clear). -/
def World.clear_err (w : World σ) : World σ :=
  { w with err := none }

/-- The statement object at a heap address. -/
def World.stmt (w : World σ) (id : Nat) : Statement :=
  w.heap id

/-- The heap with the object at address `id` replaced. -/
def heap_set (heap : Nat → Statement) (id : Nat) (s : Statement) : Nat → Statement :=
  fun j => if j = id then s else heap j

def eng_prepare (E : Engine σ) (site : Site) (w : World σ) (sql : String) :
    World σ × Int × Nat :=
  let r := E.prepare w.eng sql
  ({ w with eng := r.1, log := w.log ++ [Event.prepare site sql r.2.1] }, r.2.1, r.2.2)

def eng_step (E : Engine σ) (site : Site) (w : World σ) (st : Nat) : World σ × Int :=
  let r := E.step w.eng st
  ({ w with eng := r.1, log := w.log ++ [Event.step site st r.2 w.conn.inTransaction (E.changes r.1)] }, r.2)

def eng_reset (E : Engine σ) (w : World σ) (st : Nat) : World σ × Int :=
  let r := E.reset w.eng st
  ({ w with eng := r.1, log := w.log ++ [Event.reset st r.2] }, r.2)

def eng_finalize (E : Engine σ) (site : Site) (w : World σ) (st : Nat) : World σ × Int :=
  let r := E.finalize w.eng st
  ({ w with eng := r.1, log := w.log ++ [Event.finalize site st r.2] }, r.2)

def eng_bind (E : Engine σ) (w : World σ) (st pos : Nat) (v : SqlValue) : World σ × Int :=
  let r := E.bind w.eng st pos v
  ({ w with eng := r.1, log := w.log ++ [Event.bind st pos v r.2] }, r.2)

/-- Modelled from the spec: `_seterror` (util.c is not among the sources) turns the
engine's failure into a pending exception, an engine-reported OperationalError. -/
def _seterror (w : World σ) : World σ :=
  w.raise PyErr.engine_error

/-- The thread-affinity check of connection.c. -/
def check_thread (w : World σ) : World σ × Bool :=
  if w.conn.check_same_thread then
    if w.thread ≠ w.conn.thread_ident then (w.raise PyErr.wrong_thread, false)
    else (w, true)
  else (w, true)

/-- Modelled from the spec: `check_connection` (util.c is not among the sources)
rejects a request on a closed connection. -/
def check_connection (w : World σ) : World σ × Bool :=
  if w.conn.db then (w, true) else (w.raise PyErr.closed_connection, false)

/-- The guard `!check_thread(c) || !check_connection(c)` that opens the cursor
methods; the second check runs only if the first passes. -/
def check_thread_and_connection (w : World σ) : World σ × Bool :=
  let r := check_thread w
  if r.2 then check_connection r.1 else (r.1, false)

/-! ## Statement objects (statement.c) -/

/-- Modelled from the spec: `statement_mark_dirty` (statement.c is not among the
sources) sets `in_use`, true from bind-start until reset. -/
def statement_mark_dirty (w : World σ) (id : Nat) : World σ :=
  { w with heap := heap_set w.heap id { w.stmt id with in_use := true } }

/-- Modelled from the spec: `statement_reset` (statement.c is not among the sources)
resets the engine handle and clears `in_use`; it returns the engine's result
code. -/
def statement_reset (E : Engine σ) (w : World σ) (id : Nat) : World σ × Int :=
  let r := eng_reset E w (w.stmt id).st
  ({ r.1 with heap := heap_set r.1.heap id { r.1.stmt id with in_use := false } }, r.2)

/-- Modelled from the spec: `statement_recompile` (statement.c is not among the
sources) compiles the statement's SQL again; on success the object holds the new
handle. -/
def statement_recompile (E : Engine σ) (w : World σ) (id : Nat) : World σ × Int :=
  let r := E.recompile w.eng (w.stmt id).st
  let w1 : World σ :=
    { w with eng := r.1, log := w.log ++ [Event.recompile (w.stmt id).st r.2.1] }
  if r.2.1 = SQLITE_OK then
    ({ w1 with heap := heap_set w1.heap id { w1.stmt id with st := r.2.2 } }, r.2.1)
  else (w1, r.2.1)

/-- Modelled from the spec: `statement_create` (statement.c is not among the sources)
compiles a fresh, uncached statement object; a compilation failure surfaces an
error.  Returns the result code and the heap address of the new object. -/
def statement_create (E : Engine σ) (w : World σ) (sql : String) : World σ × Int × Nat :=
  let r := eng_prepare E Site.execute w sql
  let id := r.1.heap_next
  let w1 : World σ :=
    { r.1 with heap := heap_set r.1.heap id { st := r.2.2, in_use := false }, heap_next := id + 1 }
  if r.2.1 = SQLITE_OK then (w1, r.2.1, id) else (_seterror w1, r.2.1, id)

/-- Modelled from the spec: `cache_get` (cache.c is not among the sources), §4.1:
the SQL text is the key; a hit returns the cached object and makes it the most
recently used; a miss compiles, inserts, and evicts the least recently used entry
when the cache is at capacity; a compilation failure surfaces an error and caches
nothing. -/
def cache_get (E : Engine σ) (env : Env) (w : World σ) (sql : String) :
    World σ × Option Nat :=
  match w.conn.statement_cache.lookup sql with
  | some id =>
    ({ w with conn := { w.conn with
          statement_cache := (sql, id) :: w.conn.statement_cache.filter (fun p => p.1 != sql) } },
      some id)
  | none =>
    let r := eng_prepare E Site.execute w sql
    if r.2.1 = SQLITE_OK then
      let id := r.1.heap_next
      ({ r.1 with
          heap := heap_set r.1.heap id { st := r.2.2, in_use := false },
          heap_next := id + 1,
          conn := { r.1.conn with
            statement_cache :=
              (sql, id) :: r.1.conn.statement_cache.take (env.cache_capacity - 1) } },
        some id)
    else (_seterror r.1, none)

/-! ## Transactions (connection.c) -/

def _connection_begin (E : Engine σ) (w : World σ) : World σ × Option PyObj :=
  let c := check_thread w
  if !c.2 then (c.1, none) else
  let p := eng_prepare E Site.begin c.1 "BEGIN"
  if p.2.1 ≠ SQLITE_OK then (_seterror p.1, none) else
  let s := eng_step E Site.begin p.1 p.2.2
  if s.2 ≠ SQLITE_DONE then (_seterror s.1, none) else
  let f := eng_finalize E Site.begin s.1 p.2.2
  if f.2 ≠ SQLITE_OK then (_seterror f.1, none) else
  ({ f.1 with conn := { f.1.conn with inTransaction := true } }, some PyObj.none)

def connection_begin (E : Engine σ) (w : World σ) : World σ × Option PyObj :=
  if !w.conn.no_implicit_begin then (w.raise PyErr.begin_not_allowed, none)
  else _connection_begin E w

def connection_commit (E : Engine σ) (w : World σ) : World σ × Option PyObj :=
  let c := check_thread w
  if !c.2 then (c.1, none) else
  if c.1.conn.inTransaction then
    let p := eng_prepare E Site.commit c.1 "COMMIT"
    if p.2.1 ≠ SQLITE_OK then (_seterror p.1, none) else
    let s := eng_step E Site.commit p.1 p.2.2
    if s.2 ≠ SQLITE_DONE then (_seterror s.1, none) else
    let f := eng_finalize E Site.commit s.1 p.2.2
    if f.2 ≠ SQLITE_OK then (_seterror f.1, none) else
    ({ f.1 with conn := { f.1.conn with inTransaction := false } }, some PyObj.none)
  else (c.1, some PyObj.none)

def connection_rollback (E : Engine σ) (w : World σ) : World σ × Option PyObj :=
  let c := check_thread w
  if !c.2 then (c.1, none) else
  if c.1.conn.inTransaction then
    let p := eng_prepare E Site.rollback c.1 "ROLLBACK"
    if p.2.1 ≠ SQLITE_OK then (_seterror p.1, none) else
    let s := eng_step E Site.rollback p.1 p.2.2
    if s.2 ≠ SQLITE_DONE then (_seterror s.1, none) else
    let f := eng_finalize E Site.rollback s.1 p.2.2
    if f.2 ≠ SQLITE_OK then (_seterror f.1, none) else
    ({ f.1 with conn := { f.1.conn with inTransaction := false } }, some PyObj.none)
  else (c.1, some PyObj.none)

/-! ## Binding parameters (cursor.c) -/

/-- UTF-8 bytes of a unicode object (PyUnicode_AsUTF8String). -/
def utf8_bytes (s : String) : List Nat :=
  s.toUTF8.toList.map (fun b => b.toNat)

/-- Whether an integer fits a signed 64-bit `long long`. -/
def fits_int64 (v : Int) : Bool :=
  decide (-(2 : Int) ^ 63 ≤ v) && decide (v < (2 : Int) ^ 63)

/-- The function `_bind_parameter`: dispatch on the Python type of the parameter.
For a `long` outside the 64-bit range `PyLong_AsLongLong` yields -1 and leaves an
exception pending. -/
def _bind_parameter (E : Engine σ) (w : World σ) (id pos : Nat) (parameter : PyObj) :
    World σ × Int :=
  match parameter with
  | PyObj.none => eng_bind E w (w.stmt id).st pos SqlValue.null
  | PyObj.int v => eng_bind E w (w.stmt id).st pos (SqlValue.integer v)
  | PyObj.long v =>
    if fits_int64 v then eng_bind E w (w.stmt id).st pos (SqlValue.integer v)
    else eng_bind E (w.raise PyErr.long_overflow) (w.stmt id).st pos (SqlValue.integer (-1))
  | PyObj.float b => eng_bind E w (w.stmt id).st pos (SqlValue.float b)
  | PyObj.buffer bytes readable =>
    if readable then eng_bind E w (w.stmt id).st pos (SqlValue.blob bytes)
    else (w.raise PyErr.blob_not_readable, -1)
  | PyObj.str bytes => eng_bind E w (w.stmt id).st pos (SqlValue.text (c_str bytes))
  | PyObj.unicode s => eng_bind E w (w.stmt id).st pos (SqlValue.text (c_str (utf8_bytes s)))
  | PyObj.other _ => (w, -1)

/-- The adaptation step in front of every bind: the adapted value if
`microprotocols_adapt` succeeds, otherwise the pending exception is cleared and the
parameter itself is used. -/
def adapt_parameter (env : Env) (w : World σ) (current_param : PyObj) : World σ × PyObj :=
  match env.adapt current_param with
  | some adapted => (w, adapted)
  | none => (w.clear_err, current_param)

/-- The dictionary branch of the binding loop, over the binding indices still to do.
The result flag is false where the C code jumps to `error`. -/
def bind_named (E : Engine σ) (env : Env) (id : Nat) (parameters : List (String × PyObj)) :
    List Nat → World σ → World σ × Bool
  | [], w => (w, true)
  | i :: rest, w =>
    match E.bind_parameter_name w.eng (w.stmt id).st i with
    | none => (w.raise (PyErr.binding_has_no_name i), false)
    | some full_name =>
      let binding_name := full_name.drop 1
      match parameters.lookup binding_name with
      | none => (w.raise (PyErr.binding_not_supplied i), false)
      | some current_param =>
        let a := adapt_parameter env w current_param
        let b := _bind_parameter E a.1 id i a.2
        if b.2 ≠ SQLITE_OK then
          (b.1.raise (PyErr.binding_unsupported_named binding_name), false)
        else bind_named E env id parameters rest b.1

/-- The sequence branch of the binding loop, from index `i` on. -/
def bind_positional (E : Engine σ) (env : Env) (id : Nat) :
    Nat → List PyObj → World σ → World σ × Bool
  | _, [], w => (w, true)
  | i, current_param :: rest, w =>
    let a := adapt_parameter env w current_param
    let b := _bind_parameter E a.1 id (i + 1) a.2
    if b.2 ≠ SQLITE_OK then (b.1.raise (PyErr.binding_unsupported_positional i), false)
    else bind_positional E env id (i + 1) rest b.1

/-- Binding of one parameter set (lines 572-637 of cursor.c). -/
def bind_parameters (E : Engine σ) (env : Env) (w : World σ) (id num_params_needed : Nat)
    (parameters : Params) : World σ × Bool :=
  match parameters with
  | Params.dict items => bind_named E env id items (List.range' 1 num_params_needed) w
  | Params.seq items =>
    if (items.length : Int) ≠ (num_params_needed : Int) then
      (w.raise (PyErr.binding_count num_params_needed items.length), false)
    else bind_positional E env id 0 items w
  | Params.not_a_sequence => (w.raise (PyErr.binding_count num_params_needed (-1)), false)

/-! ## Converters and row decoding (cursor.c) -/

/-- The cast `(long)v` of a 64-bit value on a platform whose long has `bits` bits. -/
def wrap_long (bits : Nat) (v : Int) : Int :=
  (v + 2 ^ (bits - 1)) % 2 ^ bits - 2 ^ (bits - 1)

/-- The scan of one column name in build_row_cast_map.  `type_start` is the pair
(column, offset) behind the last `[` seen in this call, possibly in an earlier
column; the scan stops at the first `]` met while `type_start` is set and looks the
bracketed text up among the converters. -/
def scan_colname (env : Env) (converters : List (String × Converter)) (i : Nat)
    (name : List Char) :
    Nat → List Char → Option (Nat × Nat) → Option (Nat × Nat) × Option Converter
  | _, [], type_start => (type_start, none)
  | pos, c :: cs, type_start =>
    if c = '[' then scan_colname env converters i name (pos + 1) cs (some (i, pos + 1))
    else if c = ']' then
      match type_start with
      | some (j, q) =>
        let key :=
          if j = i then String.mk ((name.drop q).take (pos - q)) else env.stale_key j q i pos
        (type_start, converters.lookup key)
      | none => scan_colname env converters i name (pos + 1) cs type_start
    else scan_colname env converters i name (pos + 1) cs type_start

/-- The scan of lines 171-176 over the characters of the declared type in front of
its NUL: it stops at the first blank or at the end, and the characters passed make
the key. -/
def scan_decltype : List Char → List Char
  | [] => []
  | c :: cs => if c = ' ' then [] else c :: scan_decltype cs

/-- The key under which the declared type is looked up (lines 171-179). -/
def decltype_key (decltype : String) : String :=
  String.mk (scan_decltype (c_chars decltype))

/-- One turn of the column loop of build_row_cast_map (lines 151-188): the
`type_start` pointer afterwards and the converter appended for column `i`, `none`
for Py_None. -/
def column_converter (E : Engine σ) (env : Env) (w : World σ) (st i : Nat)
    (type_start : Option (Nat × Nat)) : Option (Nat × Nat) × Option Converter :=
  let by_name : Option (Nat × Nat) × Option Converter :=
    if w.conn.detect_types ||| env.PARSE_COLNAMES ≠ 0 then
      scan_colname env w.converters i (c_chars (E.column_name w.eng st i)) 0
        (c_chars (E.column_name w.eng st i)) type_start
    else (type_start, none)
  let converter : Option Converter :=
    match by_name.2 with
    | some c => some c
    | none =>
      if w.conn.detect_types ||| env.PARSE_DECLTYPES ≠ 0 then
        match E.column_decltype w.eng st i with
        | some decltype => w.converters.lookup (decltype_key decltype)
        | none => none
      else none
  (by_name.1, converter)

/-- The column loop of build_row_cast_map. -/
def build_row_cast_map_loop (E : Engine σ) (env : Env) (w : World σ) (st : Nat) :
    List Nat → Option (Nat × Nat) → List (Option Converter) → List (Option Converter)
  | [], _, acc => acc
  | i :: rest, type_start, acc =>
    build_row_cast_map_loop E env w st rest (column_converter E env w st i type_start).1
      (acc ++ [(column_converter E env w st i type_start).2])

def build_row_cast_map (E : Engine σ) (env : Env) (w : World σ) (self : Cursor) (id : Nat) :
    Cursor :=
  if w.conn.detect_types = 0 then self
  else
    let ncols := E.column_count w.eng (w.stmt id).st
    { self with
      row_cast_map := build_row_cast_map_loop E env w (w.stmt id).st (List.range ncols) none [] }

def _build_column_name (colname : String) : String :=
  String.mk ((c_chars colname).takeWhile (fun c => c != ' '))

def unicode_from_string (env : Env) (val_str : List Nat) (optimize : Bool) : Option PyObj :=
  let is_ascii := optimize && (c_str val_str).all (fun b => b &&& 0x80 == 0)
  if is_ascii then some (PyObj.str (c_str val_str))
  else (env.decode_utf8 (c_str val_str)).map PyObj.unicode

/-- The converter of column `i` as `_fetch_one_row` picks it (lines 304-311): the
entry of the converter map when type detection is on, with an IndexError left
pending when the map has no such entry; None otherwise. -/
def cell_converter (conn : Connection) (self : Cursor) (err : Option PyErr) (i : Nat) :
    Option PyErr × Option Converter :=
  if conn.detect_types ≠ 0 then
    match self.row_cast_map.get? i with
    | some conv => (err, conv)
    | none => (some PyErr.list_index, none)
  else (err, none)

/-- One iteration of the column loop of `_fetch_one_row`, on the engine state `eng`
and the pending exception `err`: the pending exception afterwards and the object
stored in slot `i`, `none` for a NULL pointer. -/
def fetch_cell (E : Engine σ) (env : Env) (conn : Connection) (self : Cursor) (eng : σ)
    (st : Nat) (err : Option PyErr) (i : Nat) : Option PyErr × Option PyObj :=
  let c := cell_converter conn self err i
  match c.2 with
  | some converter =>
    match E.column_text eng st i with
    | none => (c.1, some PyObj.none)
    | some val_str =>
      match converter (c_str val_str) with
      | some converted => (c.1, some converted)
      | none => (none, some PyObj.none)
  | none =>
    match E.column_value eng st i with
    | SqlValue.null => (c.1, some PyObj.none)
    | SqlValue.integer intval =>
      if intval < INT32_MIN ∨ intval > INT32_MAX then (c.1, some (PyObj.long intval))
      else (c.1, some (PyObj.int (wrap_long env.LONG_BIT intval)))
    | SqlValue.float b => (c.1, some (PyObj.float b))
    | SqlValue.text val_str =>
      match conn.text_factory with
      | TextFactory.unicode_type =>
        match unicode_from_string env val_str false with
        | some converted => (c.1, some converted)
        | none => (some (PyErr.cannot_decode i), none)
      | TextFactory.optimized_unicode =>
        match unicode_from_string env val_str true with
        | some converted => (c.1, some converted)
        | none => (some (PyErr.cannot_decode i), none)
      | TextFactory.string_type => (c.1, some (PyObj.str (c_str val_str)))
      | TextFactory.callable f =>
        match f (c_str val_str) with
        | some converted => (c.1, some converted)
        | none => (some PyErr.callable_raised, none)
    | SqlValue.blob bytes => (c.1, some (PyObj.buffer bytes true))

/-- The column loop of `_fetch_one_row`. -/
def fetch_cells (E : Engine σ) (env : Env) (conn : Connection) (self : Cursor) (eng : σ)
    (st : Nat) : List Nat → Option PyErr → Row → Option PyErr × Row
  | [], err, row => (err, row)
  | i :: rest, err, row =>
    let r := fetch_cell E env conn self eng st err i
    fetch_cells E env conn self eng st rest r.1 (row ++ [r.2])

/-- The body of `_fetch_one_row` on the engine state `eng` and the pending exception
`err`: the pending exception afterwards and the row, `none` when NULL is returned. -/
def decode_row (E : Engine σ) (env : Env) (conn : Connection) (self : Cursor) (eng : σ)
    (st : Nat) (err : Option PyErr) : Option PyErr × Option Row :=
  let r := fetch_cells E env conn self eng st (List.range (E.data_count eng st)) err []
  if r.1.isSome then (r.1, none) else (r.1, some r.2)

/-- The function `_fetch_one_row`: the decoded row of the statement `id`, NULL when
an exception is pending at the end. -/
def _fetch_one_row (E : Engine σ) (env : Env) (w : World σ) (self : Cursor) (id : Nat) :
    World σ × Option Row :=
  let r := decode_row E env w.conn self w.eng (w.stmt id).st w.err
  ({ w with err := r.1 }, r.2)

/-! ## `_query_execute` (cursor.c) -/

/-- The kinds handled by the two `switch` statements of `_query_execute` as data
modification: UPDATE, DELETE, INSERT, REPLACE. -/
def is_dml (k : StatementKind) : Bool :=
  match k with
  | STATEMENT_UPDATE => true
  | STATEMENT_DELETE => true
  | STATEMENT_INSERT => true
  | STATEMENT_REPLACE => true
  | _ => false

/-- Variables carried around the parameter loop: the world, the cursor and the
local `long rowcount`, a value in the range of a long of `LONG_BIT` bits. -/
structure LoopState (σ : Type) where
  w : World σ
  self : Cursor
  rowcount : Int

/-- The implicit transaction handling of lines 494-529.  The flag is false where
the C code jumps to `error`. -/
def implicit_transaction (E : Engine σ) (w : World σ) (statement_type : StatementKind)
    (multiple : Bool) : World σ × Bool :=
  if w.conn.begin_statement then
    match statement_type with
    | STATEMENT_UPDATE | STATEMENT_DELETE | STATEMENT_INSERT | STATEMENT_REPLACE =>
      if !w.conn.inTransaction then
        let r := _connection_begin E w
        (r.1, r.2.isSome)
      else (w, true)
    | STATEMENT_OTHER =>
      if w.conn.inTransaction then
        let r := connection_commit E w
        (r.1, r.2.isSome)
      else (w, true)
    | STATEMENT_SELECT =>
      if multiple then (w.raise PyErr.executemany_select, false) else (w, true)
    | STATEMENT_INVALID => (w, true)
  else (w, true)

/-- The pattern `if (self->statement) statement_reset(self->statement)`. -/
def reset_active (E : Engine σ) (w : World σ) (self : Cursor) : World σ :=
  match self.statement with
  | some active => (statement_reset E w active).1
  | none => w

/-- Lines 531-555: give back the statement held so far, ask the cache, and compile a
private statement when the cached one is in use. -/
def acquire_statement (E : Engine σ) (env : Env) (w : World σ) (self : Cursor)
    (operation : String) : World σ × Cursor × Bool :=
  let g := cache_get E env (reset_active E w self) operation
  match g.2 with
  | none => (g.1, { self with statement := none }, false)
  | some id =>
    if (g.1.stmt id).in_use then
      let c := statement_create E g.1 operation
      if c.2.1 ≠ SQLITE_OK then (c.1, { self with statement := none }, false)
      else (c.1, { self with statement := some c.2.2 }, true)
    else (g.1, { self with statement := some id }, true)

/-- Everything `_query_execute` does between the entry checks and the parameter
loop (lines 417-562).  The last component is `num_params_needed` when the loop is
reached and `none` where the C code jumps to `error`. -/
def query_prologue (E : Engine σ) (env : Env) (w : World σ) (self : Cursor) (multiple : Bool)
    (operation : String) : (World σ × Cursor) × Option Nat :=
  let self1 : Cursor := { self with next_row := none }
  let w1 := reset_active E w self1
  let self2 : Cursor := { self1 with description := none, rowcount := -1 }
  let t := implicit_transaction E w1 (detect_statement_type operation) multiple
  if !t.2 then ((t.1, self2), none) else
  let a := acquire_statement E env t.1 self2 operation
  if !a.2.2 then ((a.1, a.2.1), none) else
  match a.2.1.statement with
  | none => ((a.1, a.2.1), none)
  | some id =>
    let w2 := statement_mark_dirty (statement_reset E a.1 id).1 id
    ((w2, a.2.1), some (E.bind_parameter_count w2.eng (w2.stmt id).st))

/-- Lines 641-656: the first step of a parameter set, with the one recompile and
second step after a schema change.  `none` where the C code jumps to `error`,
otherwise the value of `rc` after the block. -/
def step_with_schema_retry (E : Engine σ) (w : World σ) (id : Nat) : World σ × Option Int :=
  let s := eng_step E Site.execute w (w.stmt id).st
  if s.2 ≠ SQLITE_DONE ∧ s.2 ≠ SQLITE_ROW then
    let r := statement_reset E s.1 id
    if r.2 = SQLITE_SCHEMA then
      let c := statement_recompile E r.1 id
      if c.2 = SQLITE_OK then
        let s2 := eng_step E Site.retry c.1 (c.1.stmt id).st
        (s2.1, some s2.2)
      else (_seterror c.1, none)
    else (_seterror r.1, none)
  else (s.1, some s.2)

/-- Lines 658-678: build `description` on a row, or on completion of a SELECT, if it
is still None. -/
def build_description (E : Engine σ) (w : World σ) (self : Cursor) (id : Nat) (rc : Int)
    (statement_type : StatementKind) : Cursor :=
  if rc = SQLITE_ROW ∨ (rc = SQLITE_DONE ∧ statement_type = STATEMENT_SELECT) then
    match self.description with
    | none =>
      let numcols := E.column_count w.eng (w.stmt id).st
      { self with
        description :=
          some ((List.range numcols).map
            (fun i => _build_column_name (E.column_name w.eng (w.stmt id).st i))) }
    | some _ => self
  else self

/-- Lines 693-714: rowcount for the data-modification kinds, lastrowid for INSERT.
The addition `rowcount += (long)sqlite3_changes(db)` is an addition of longs: its
result lies in the range of a long of `LONG_BIT` bits; a total outside that range,
for which C defines no result, is taken to wrap around like the cast of line 710. -/
def update_counters (E : Engine σ) (env : Env) (statement_type : StatementKind)
    (s : LoopState σ) : LoopState σ :=
  let s1 : LoopState σ :=
    if is_dml statement_type then
      { s with
        rowcount := wrap_long env.LONG_BIT (s.rowcount + E.changes s.w.eng),
        self := { s.self with
          rowcount := wrap_long env.LONG_BIT (s.rowcount + E.changes s.w.eng) } }
    else s
  if statement_type = STATEMENT_INSERT then
    { s1 with
      self := { s1.self with
        lastrowid := some (wrap_long env.LONG_BIT (E.last_insert_rowid s1.w.eng)) } }
  else { s1 with self := { s1.self with lastrowid := none } }

/-- Lines 680-719: what follows the step of one parameter set. -/
def finish_step (E : Engine σ) (env : Env) (statement_type : StatementKind) (multiple : Bool)
    (id : Nat) (rc : Int) (s : LoopState σ) : LoopState σ × Bool :=
  if rc = SQLITE_ROW ∧ multiple = true then
    ({ s with w := s.w.raise PyErr.executemany_row }, false)
  else
    let s1 : LoopState σ :=
      if rc = SQLITE_ROW then
        let f := _fetch_one_row E env s.w s.self id
        { s with w := f.1, self := { s.self with next_row := f.2 } }
      else if rc = SQLITE_DONE ∧ multiple = false then
        { s with w := (statement_reset E s.w id).1, self := { s.self with statement := none } }
      else s
    let s2 := update_counters E env statement_type s1
    if multiple then ({ s2 with w := (statement_reset E s2.w id).1 }, true) else (s2, true)

/-- First half of one turn of the `while (1)` loop (lines 570-639): mark the
statement in use, bind the parameter set, build the converter map.  The second
component is the statement about to be stepped, `none` where the C code jumps to
`error`. -/
def bind_phase (E : Engine σ) (env : Env) (num_params_needed : Nat) (parameters : Params)
    (s : LoopState σ) : LoopState σ × Option Nat :=
  match s.self.statement with
  | none => ({ s with w := { s.w with fault := true } }, none)
  | some id =>
    let b := bind_parameters E env (statement_mark_dirty s.w id) id num_params_needed parameters
    if !b.2 then ({ s with w := b.1 }, none)
    else ({ s with w := b.1, self := build_row_cast_map E env b.1 s.self id }, some id)

/-- Second half of one turn of the loop (lines 641-719): step, description, row or
release, counters.  The flag is false where the C code jumps to `error`. -/
def step_phase (E : Engine σ) (env : Env) (statement_type : StatementKind) (multiple : Bool)
    (id : Nat) (s : LoopState σ) : LoopState σ × Bool :=
  let r := step_with_schema_retry E s.w id
  match r.2 with
  | none => ({ s with w := r.1 }, false)
  | some rc =>
    finish_step E env statement_type multiple id rc
      { s with w := r.1, self := build_description E r.1 s.self id rc statement_type }

/-- One turn of the `while (1)` loop for the parameter set `parameters`.  The flag is
false where the C code jumps to `error`. -/
def query_body (E : Engine σ) (env : Env) (statement_type : StatementKind) (multiple : Bool)
    (num_params_needed : Nat) (parameters : Params) (s : LoopState σ) : LoopState σ × Bool :=
  let b := bind_phase E env num_params_needed parameters s
  match b.2 with
  | none => (b.1, false)
  | some id => step_phase E env statement_type multiple id b.1

/-- The `while (1)` loop over the parameter sets delivered by `parameters_iter`. -/
def query_loop (E : Engine σ) (env : Env) (statement_type : StatementKind) (multiple : Bool)
    (num_params_needed : Nat) : List Params → LoopState σ → LoopState σ
  | [], s => s
  | parameters :: rest, s =>
    let r := query_body E env statement_type multiple num_params_needed parameters s
    if r.2 then query_loop E env statement_type multiple num_params_needed rest r.1 else r.1

/-- The `error:` label: NULL if an exception is pending, None otherwise. -/
def query_return (w : World σ) (self : Cursor) : World σ × Cursor × Option PyObj :=
  if w.err.isSome then (w, self, none) else (w, self, some PyObj.none)

/-- The function `_query_execute`, after argument parsing: `operation` is the SQL
text and `parameters_iter` lists the parameter sets the iterator delivers. -/
def _query_execute (E : Engine σ) (env : Env) (w : World σ) (self : Cursor) (multiple : Bool)
    (operation : String) (parameters_iter : List Params) : World σ × Cursor × Option PyObj :=
  let c := check_thread_and_connection w
  if !c.2 then (c.1, self, none) else
  let p := query_prologue E env c.1 self multiple operation
  match p.2 with
  | none => query_return p.1.1 p.1.2
  | some num_params_needed =>
    let s := query_loop E env (detect_statement_type operation) multiple num_params_needed
      parameters_iter { w := p.1.1, self := p.1.2, rowcount := 0 }
    query_return s.w s.self

/-- The method `execute`: one parameter set, the empty tuple when none is given. -/
def cursor_execute (E : Engine σ) (env : Env) (w : World σ) (self : Cursor)
    (operation : String) (second_argument : Option Params) : World σ × Cursor × Option PyObj :=
  _query_execute E env w self false operation [second_argument.getD (Params.seq [])]

/-- The method `executemany`: the parameter sets of the second argument. -/
def cursor_executemany (E : Engine σ) (env : Env) (w : World σ) (self : Cursor)
    (operation : String) (second_argument : List Params) : World σ × Cursor × Option PyObj :=
  _query_execute E env w self true operation second_argument

/-! ## Iteration (cursor.c) -/

def cursor_iternext (E : Engine σ) (env : Env) (w : World σ) (self : Cursor) :
    World σ × Cursor × Option NextResult :=
  let c := check_thread_and_connection w
  if !c.2 then (c.1, self, none) else
  match self.next_row with
  | none =>
    match self.statement with
    | some id => ((statement_reset E c.1 id).1, { self with statement := none }, none)
    | none => (c.1, self, none)
  | some next_row_tuple =>
    let self1 : Cursor := { self with next_row := none }
    let n : World σ × Option NextResult :=
      match self1.row_factory with
      | some factory =>
        match factory next_row_tuple with
        | some o => (c.1, some (NextResult.object o))
        | none => (c.1.raise PyErr.callable_raised, none)
      | none => (c.1, some (NextResult.row next_row_tuple))
    match self1.statement with
    | none => ({ n.1 with fault := true }, self1, none)
    | some id =>
      let s := eng_step E Site.iternext n.1 (n.1.stmt id).st
      if s.2 ≠ SQLITE_DONE ∧ s.2 ≠ SQLITE_ROW then
        match n.2 with
        | some _ => (_seterror s.1, self1, none)
        | none => ({ s.1 with fault := true }, self1, none)
      else if s.2 = SQLITE_ROW then
        let f := _fetch_one_row E env s.1 self1 id
        (f.1, { self1 with next_row := f.2 }, n.2)
      else (s.1, self1, n.2)

def cursor_close (E : Engine σ) (w : World σ) (self : Cursor) :
    World σ × Cursor × Option PyObj :=
  let c := check_thread_and_connection w
  if !c.2 then (c.1, self, none) else
  match self.statement with
  | some id => ((statement_reset E c.1 id).1, { self with statement := none }, some PyObj.none)
  | none => (c.1, self, some PyObj.none)

/-! ## A scripted engine for concrete runs -/

/-- State of the scripted engine: the result codes its next step, reset, prepare and
recompile calls will return (beyond the script: Done for a step, OK otherwise), the
rows its Row steps deliver, the row now readable, the affected-row count each coming
step leaves in the counter, and fixed answers for the statement's metadata and the
last insert rowid. -/
structure Script where
  steps : List Int
  resets : List Int
  prepares : List Int
  recompiles : List Int
  rows : List (List SqlValue)
  current : List SqlValue
  columns : List String
  param_names : List (Option String)
  step_changes : List Int
  changes : Int
  rowid : Int
  handles : Nat
  deriving DecidableEq, Repr

/-- The scripted engine: every call pops its result code from the script.  A text
is complete when it ends in a semicolon (blanks aside), and its tail starts behind
its first semicolon. -/
def scripted : Engine Script where
  prepare s _ :=
    ({ s with prepares := s.prepares.tail, handles := s.handles + 1 },
      s.prepares.headD SQLITE_OK, s.handles)
  step s _ :=
    let rc := s.steps.headD SQLITE_DONE
    if rc = SQLITE_ROW then
      ({ s with steps := s.steps.tail, rows := s.rows.tail, current := s.rows.headD [],
                step_changes := s.step_changes.tail, changes := s.step_changes.headD 0 }, rc)
    else
      ({ s with steps := s.steps.tail, step_changes := s.step_changes.tail,
                changes := s.step_changes.headD 0 }, rc)
  reset s _ := ({ s with resets := s.resets.tail }, s.resets.headD SQLITE_OK)
  finalize s _ := (s, SQLITE_OK)
  recompile s st := ({ s with recompiles := s.recompiles.tail }, s.recompiles.headD SQLITE_OK, st)
  bind s _ _ _ := (s, SQLITE_OK)
  bind_parameter_count s _ := s.param_names.length
  bind_parameter_name s _ i := (s.param_names.getD (i - 1) none)
  column_count s _ := s.columns.length
  column_name s _ i := s.columns.getD i ""
  column_decltype _ _ _ := none
  data_count s _ := s.current.length
  column_value s _ i := s.current.getD i SqlValue.null
  column_text _ _ _ := none
  changes s := s.changes
  last_insert_rowid s := s.rowid
  create_function s _ _ := (s, SQLITE_OK)
  complete text := (text.toList.reverse.dropWhile is_space).head? == some ';'
  tail text := String.mk ((text.toList.dropWhile (fun c => c != ';')).drop 1)

/-- An idle scripted engine: no rows, every call succeeding. -/
def Script.idle : Script :=
  { steps := [], resets := [], prepares := [], recompiles := [], rows := [], current := [],
    columns := [], param_names := [], step_changes := [], changes := 0, rowid := 0,
    handles := 0 }

/-- A 64-bit platform with no adapters registered. -/
def env64 : Env :=
  { LONG_BIT := 64, PARSE_DECLTYPES := 1, PARSE_COLNAMES := 2, cache_capacity := 100,
    adapt := fun _ => none, decode_utf8 := fun _ => none,
    stale_key := fun _ _ _ _ => "" }

/-- A freshly opened connection in implicit-begin mode. -/
def Connection.fresh : Connection :=
  { db := true, inTransaction := false, begin_statement := true, no_implicit_begin := false,
    check_same_thread := true, thread_ident := 0, detect_types := 0,
    text_factory := TextFactory.string_type, statement_cache := [] }

/-- A world around a scripted engine with a fresh connection. -/
def World.fresh (s : Script) : World Script :=
  { eng := s, conn := Connection.fresh, heap := fun _ => default, heap_next := 0,
    converters := [], thread := 0,
    err := none, fault := false, log := [] }

/-- A cursor as `cursor_init` leaves it. -/
def Cursor.fresh : Cursor :=
  { statement := none, next_row := none, row_cast_map := [], description := none,
    lastrowid := none, arraysize := 1, rowcount := -1, row_factory := none }

/-! ## Vocabulary of the statements -/

/-- A step of the cursor's own statement inside execute / executemany: the first
step of a parameter set or the second step after a recompile. -/
def Event.is_statement_step : Event → Bool
  | Event.step Site.execute _ _ _ _ => true
  | Event.step Site.retry _ _ _ _ => true
  | _ => false

/-- The `inTransaction` flag recorded in a step entry. -/
def Event.flag : Event → Option Bool
  | Event.step _ _ _ b _ => some b
  | _ => none

/-- The code site recorded in a prepare, step or finalize entry. -/
def Event.site : Event → Option Site
  | Event.prepare site _ _ => some site
  | Event.step site _ _ _ _ => some site
  | Event.finalize site _ _ => some site
  | _ => none

/-- An engine call made on behalf of BEGIN, COMMIT or ROLLBACK. -/
def Event.is_transaction_call (e : Event) : Bool :=
  e.site == some Site.begin || e.site == some Site.commit || e.site == some Site.rollback

/-- A failed engine call of the given transaction statement: prepare or finalize
not OK, or step not Done. -/
def Event.is_failed_call (site : Site) : Event → Bool
  | Event.prepare s _ rc => s == site && rc != SQLITE_OK
  | Event.step s _ rc _ _ => s == site && rc != SQLITE_DONE
  | Event.finalize s _ rc => s == site && rc != SQLITE_OK
  | _ => false

/-- A trace entry that is no transaction call and, if a step, ran under flag `b`. -/
def Event.quiet (b : Bool) (e : Event) : Prop :=
  e.is_transaction_call = false ∧ ∀ f, e.flag = some f → f = b

/-- The settings of a connection that no cursor or transaction function changes. -/
def Connection.same_settings (c c' : Connection) : Prop :=
  c'.db = c.db ∧ c'.begin_statement = c.begin_statement ∧
  c'.no_implicit_begin = c.no_implicit_begin ∧ c'.check_same_thread = c.check_same_thread ∧
  c'.thread_ident = c.thread_ident ∧ c'.detect_types = c.detect_types ∧
  c'.text_factory = c.text_factory

/-- Frame of every operation: settings, converter registry and running thread stay. -/
def Frame (w w' : World σ) : Prop :=
  w.conn.same_settings w'.conn ∧ w'.converters = w.converters ∧ w'.thread = w.thread

/-- An operation that leaves the transaction flag alone and adds only quiet entries
to the trace. -/
def Calm (w w' : World σ) : Prop :=
  Frame w w' ∧ w'.conn.inTransaction = w.conn.inTransaction ∧
  ∃ evs, w'.log = w.log ++ evs ∧ ∀ e ∈ evs, e.quiet w.conn.inTransaction

/-- The transaction decision taken by `_query_execute` once the entry checks have
passed: on the world left by releasing the active statement. -/
def transaction_decision (E : Engine σ) (w : World σ) (self : Cursor) (multiple : Bool)
    (operation : String) : World σ × Bool :=
  implicit_transaction E (reset_active E w self) (detect_statement_type operation) multiple

/-- The world of the counterexample to C2: implicit begin switched off, a
transaction opened by an explicit begin. -/
def World.explicit_txn : World Script :=
  { World.fresh Script.idle with
    conn := { Connection.fresh with
      begin_statement := false, no_implicit_begin := true, inTransaction := true } }

/-- A scripted world with implicit begin switched off and no transaction open. -/
def World.implicit_begin_off : World Script :=
  { World.fresh Script.idle with
    conn := { Connection.fresh with begin_statement := false, no_implicit_begin := true } }

/-- Script for the schema-change path: BEGIN succeeds, the first step of the
statement fails, the reset that follows reports a schema change, and the step after
the recompile fails again (result code 1) having changed 5 rows. -/
def Script.schema_then_error : Script :=
  { Script.idle with
    steps := [SQLITE_DONE, 1, 1], resets := [SQLITE_OK, SQLITE_SCHEMA],
    step_changes := [0, 0, 5] }

/-- A platform whose C long has 32 bits. -/
def env32 : Env :=
  { env64 with LONG_BIT := 32 }

/-- An operation that only binds: heap, connection and fault flag stay, and the trace
grows by entries without a code site (binds). -/
def BindOnly (w w' : World σ) : Prop :=
  w'.heap = w.heap ∧ w'.conn = w.conn ∧ w'.fault = w.fault ∧
  ∃ evs, w'.log = w.log ++ evs ∧ ∀ e ∈ evs, e.site = none

/-- Binding a value to the handle `st` does not change the names of its
placeholders. -/
def NamesStable (E : Engine σ) (st : Nat) : Prop :=
  ∀ eng pos v j,
    E.bind_parameter_name (E.bind eng st pos v).1 st j = E.bind_parameter_name eng st j

/-- The step that settles one parameter set: the first step when it returns Row or
Done, or the second step taken after a recompile. -/
def Event.settles : Event → Bool
  | Event.step Site.execute _ rc _ _ => rc == SQLITE_ROW || rc == SQLITE_DONE
  | Event.step Site.retry _ _ _ _ => true
  | _ => false

/-- The affected-row counter recorded in a step entry. -/
def Event.changes_after : Event → Int
  | Event.step _ _ _ _ c => c
  | _ => 0

/-- The engine's affected-row counter read after each settling step of a trace. -/
def settled_changes (evs : List Event) : List Int :=
  (evs.filter Event.settles).map Event.changes_after

/-- The exceptions raised while binding a parameter set: wrong count, unnamed
placeholder with a mapping, missing named value, rejected value. -/
def PyErr.is_binding_error : PyErr → Bool
  | PyErr.binding_has_no_name _ => true
  | PyErr.binding_not_supplied _ => true
  | PyErr.binding_count _ _ => true
  | PyErr.binding_unsupported_named _ => true
  | PyErr.binding_unsupported_positional _ => true
  | _ => false

/-- The pending exception, if any, is neither a binding error nor the batch-mode row
error. -/
def CleanErr (err : Option PyErr) : Prop :=
  ∀ e, err = some e → e.is_binding_error = false ∧ e ≠ PyErr.executemany_row

/-- The cursor holds a statement whose `in_use` flag is set. -/
def HeldInUse (w : World σ) (self : Cursor) : Prop :=
  ∃ id, self.statement = some id ∧ (w.stmt id).in_use = true

/-- The last engine call traced is a step that returned Row. -/
def EndsWithRow (w : World σ) : Prop :=
  ∃ evs site st flag c, w.log = evs ++ [Event.step site st SQLITE_ROW flag c]

/-- How a parameter loop can end with respect to C4: no binding or batch-row error
pending; or a binding error pending and the statement held in use; or the batch-row
error pending, the statement held and the row-returning step last in the trace. -/
def RejectionOutcome (w : World σ) (self : Cursor) : Prop :=
  CleanErr w.err ∨
  (∃ e, w.err = some e ∧ e.is_binding_error = true ∧ HeldInUse w self) ∨
  (w.err = some PyErr.executemany_row ∧ (∃ id, self.statement = some id) ∧ EndsWithRow w)

/-- The state in which `execute` is about to step its statement for the parameter
set `p`: after the entry checks, the prologue and the binding (lines 413-639), with
the address of the statement; `none` when the call fails before that point. -/
def execute_ready (E : Engine σ) (env : Env) (w : World σ) (self : Cursor) (operation : String)
    (p : Params) : Option (LoopState σ × Nat) :=
  if (check_thread_and_connection w).2 then
    match (query_prologue E env w self false operation).2 with
    | some npn =>
      match (bind_phase E env npn p
          { w := (query_prologue E env w self false operation).1.1,
            self := (query_prologue E env w self false operation).1.2,
            rowcount := 0 }).2 with
      | some id =>
        some ((bind_phase E env npn p
          { w := (query_prologue E env w self false operation).1.1,
            self := (query_prologue E env w self false operation).1.2,
            rowcount := 0 }).1, id)
      | none => none
    | none => none
  else none

/-- The engine's row stream for the handle `st` from the state `eng` on: each row of
the list is delivered by a step returning Row and decodes (by `_fetch_one_row` under
the connection's settings and the cursor's converter map, no exception pending) to
that row; the step after the last row returns Done. -/
def row_stream (E : Engine σ) (env : Env) (conn : Connection) (self : Cursor) (st : Nat) :
    σ → List Row → Bool
  | eng, [] => decide ((E.step eng st).2 = SQLITE_DONE)
  | eng, row :: rest =>
    decide ((E.step eng st).2 = SQLITE_ROW) &&
    decide ((decode_row E env conn self (E.step eng st).1 st none).2 = some row) &&
    row_stream E env conn self st (E.step eng st).1 rest

/-- The outcomes of `n` successive calls of `next` on the cursor: for each call the
value it returns (`none` for NULL), the exception pending when it returns, and the
fault flag when it returns. -/
def iterate_next (E : Engine σ) (env : Env) :
    Nat → World σ → Cursor → List (Option NextResult × Option PyErr × Bool)
  | 0, _, _ => []
  | n + 1, w, self =>
    ((cursor_iternext E env w self).2.2, (cursor_iternext E env w self).1.err,
        (cursor_iternext E env w self).1.fault) ::
      iterate_next E env n (cursor_iternext E env w self).1 (cursor_iternext E env w self).2.1

/-- Script of a SELECT delivering two one-column rows, 1 and 2. -/
def Script.two_rows : Script :=
  { Script.idle with
    steps := [SQLITE_ROW, SQLITE_ROW, SQLITE_DONE],
    rows := [[SqlValue.integer 1], [SqlValue.integer 2]], columns := ["x"] }

/-- Script of a SELECT delivering the single row (1,). -/
def Script.one_row : Script :=
  { Script.idle with
    steps := [SQLITE_ROW, SQLITE_DONE], rows := [[SqlValue.integer 1]], columns := ["x"] }

/-! ## Vocabulary of the statements on classification, typing and threads -/

/-- The classification in the words of the specification, on the text of the
statement: strip the leading spaces, tabs, carriage returns and newlines; an empty
rest is INVALID; otherwise the longest prefix made of letters, lower-cased, is
compared with the five keywords, and anything else is OTHER. -/
def detect_statement_type_spec (text : List Char) : StatementKind :=
  let rest := text.dropWhile is_space
  let keyword := String.mk ((rest.takeWhile Char.isAlpha).map Char.toLower)
  if rest = [] then STATEMENT_INVALID
  else if keyword = "select" then STATEMENT_SELECT
  else if keyword = "insert" then STATEMENT_INSERT
  else if keyword = "update" then STATEMENT_UPDATE
  else if keyword = "delete" then STATEMENT_DELETE
  else if keyword = "replace" then STATEMENT_REPLACE
  else STATEMENT_OTHER

/-- The value handed to the engine by a bind entry of the trace. -/
def Event.bound : Event → Option SqlValue
  | Event.bind _ _ v _ => some v
  | _ => none

/-- The value handed to the engine by the last call traced, if that is a bind. -/
def last_bound (log : List Event) : Option SqlValue :=
  log.getLast?.bind Event.bound

/-- Equality of a bound parameter and a fetched cell: integers compare by numerical
value whichever of the two integer types holds them, everything else by type and
content (a double by its 64-bit pattern). -/
def PyObj.same_value : PyObj → PyObj → Bool
  | PyObj.int a, PyObj.int b => decide (a = b)
  | PyObj.int a, PyObj.long b => decide (a = b)
  | PyObj.long a, PyObj.int b => decide (a = b)
  | PyObj.long a, PyObj.long b => decide (a = b)
  | a, b => decide (a = b)

/-- Whether every byte has its high bit clear. -/
def all_ascii (bytes : List Nat) : Bool :=
  bytes.all (fun b => b &&& 0x80 == 0)

/-- The values that survive the round trip through `_bind_parameter` and
`_fetch_one_row` under the connection's text policy: null, machine integers, long
integers inside the signed 64-bit range, doubles, readable buffers, and text without
a NUL byte read back under a policy that returns its own type (a byte string under
the raw-bytes policy or, when pure ASCII, under the ASCII fast path; unicode text
that the decoder gives back from its UTF-8 bytes, under the decoding policy or, when
not pure ASCII, under the fast path). -/
def round_trips (env : Env) (conn : Connection) : PyObj → Prop
  | PyObj.none => True
  | PyObj.int _ => True
  | PyObj.long v => fits_int64 v = true
  | PyObj.float _ => True
  | PyObj.buffer _ readable => readable = true
  | PyObj.str bytes =>
    c_str bytes = bytes ∧
    (match conn.text_factory with
     | TextFactory.string_type => True
     | TextFactory.optimized_unicode => all_ascii bytes = true
     | _ => False)
  | PyObj.unicode s =>
    c_str (utf8_bytes s) = utf8_bytes s ∧ env.decode_utf8 (utf8_bytes s) = some s ∧
    (match conn.text_factory with
     | TextFactory.unicode_type => True
     | TextFactory.optimized_unicode => all_ascii (utf8_bytes s) = false
     | _ => False)
  | PyObj.other _ => False

/-- An engine that stores exactly what was bound, for the statement
`SELECT ?1, ?2, ...`: its state lists the bindings made, latest first, and column
`i` of the one row holds the value bound to placeholder `i + 1`. -/
def echo : Engine (List (Nat × SqlValue)) where
  prepare s _ := (s, SQLITE_OK, 0)
  step s _ := (s, SQLITE_ROW)
  reset s _ := (s, SQLITE_OK)
  finalize s _ := (s, SQLITE_OK)
  recompile s st := (s, SQLITE_OK, st)
  bind s _ pos v := ((pos, v) :: s, SQLITE_OK)
  bind_parameter_count _ _ := 1
  bind_parameter_name _ _ _ := none
  column_count _ _ := 1
  column_name _ _ _ := "?1"
  column_decltype _ _ _ := none
  data_count _ _ := 1
  column_value s _ i := (s.lookup (i + 1)).getD SqlValue.null
  column_text _ _ _ := none
  changes _ := 0
  last_insert_rowid _ := 0
  create_function s _ _ := (s, SQLITE_OK)
  complete _ := false
  tail text := text

/-- A world around the echo engine, with the raw-bytes text policy. -/
def World.echo : World (List (Nat × SqlValue)) :=
  { eng := [], conn := Connection.fresh, heap := fun _ => default, heap_next := 0,
    converters := [], thread := 0, err := none, fault := false, log := [] }

/-- The scripted engine with declared column types and column text: the declared
type of column `i` is the `i`-th entry of `decltypes`, and the text of the current
row's column is the content of a text or blob value, NULL for any other value. -/
def scripted_typed (decltypes : List (Option String)) : Engine Script :=
  { scripted with
    column_decltype := fun _ _ i => decltypes.getD i none,
    column_text := fun s _ i =>
      match s.current.getD i SqlValue.null with
      | SqlValue.text bytes => some bytes
      | SqlValue.blob bytes => some bytes
      | _ => none }

/-- A converter that accepts every text and yields the object tagged 7. -/
def Converter.accepting : Converter :=
  fun _ => some (PyObj.other 7)

/-- A converter that raises on every text. -/
def Converter.raising : Converter :=
  fun _ => none

/-- Script positioned on the row (`2005-01-01`, 5) of the columns `d [date]` and
`n`. -/
def Script.dated_row : Script :=
  { Script.idle with
    current := [SqlValue.text [50, 48, 48, 53, 45, 48, 49, 45, 48, 49], SqlValue.integer 5],
    columns := ["d [date]", "n"] }

/-- The method `create_function` of connection.c (lines 540-562), after argument
parsing: it registers the function with the engine and returns None whatever the
engine answers; `check_thread` is not called. -/
def connection_create_function (E : Engine σ) (w : World σ) (name : String) (narg : Int) :
    World σ × Option PyObj :=
  let r := E.create_function w.eng name narg
  ({ w with eng := r.1, log := w.log ++ [Event.create_function name narg r.2] },
    some PyObj.none)

/-- The method `create_aggregate` of connection.c (lines 564-588), after argument
parsing: it registers the aggregate with the engine and reports the engine's
failure; `check_thread` is not called. -/
def connection_create_aggregate (E : Engine σ) (w : World σ) (name : String) (n_arg : Int) :
    World σ × Option PyObj :=
  let r := E.create_function w.eng name n_arg
  let w1 : World σ :=
    { w with eng := r.1, log := w.log ++ [Event.create_function name n_arg r.2] }
  if r.2 ≠ SQLITE_OK then (_seterror w1, none) else (w1, some PyObj.none)

/-- A world whose connection was created by thread 0, with thread checking on, and
whose running thread is thread 1. -/
def World.foreign_thread : World Script :=
  { World.fresh Script.idle with thread := 1 }

/-- The SQL text shared by the two cursors of the statement-reuse scenario. -/
def shared_sql : String := "INSERT INTO t VALUES (?)"

/-- Script of a statement with one positional placeholder. -/
def Script.one_param : Script :=
  { Script.idle with param_names := [none] }

/-- First call of the statement-reuse scenario: cursor A runs `executemany` of the
shared SQL over one parameter set, successfully. -/
def reuse_first : World Script × Cursor × Option PyObj :=
  cursor_executemany scripted env64 (World.fresh Script.one_param) Cursor.fresh shared_sql
    [Params.seq [PyObj.int 1]]

/-- Second call of the scenario: cursor B runs `execute` of the shared SQL with an
empty tuple; the call fails on the parameter count. -/
def reuse_second : World Script × Cursor × Option PyObj :=
  cursor_execute scripted env64 reuse_first.1 Cursor.fresh shared_sql (some (Params.seq []))

/-- Third call of the scenario, made once the caller has handled B's exception:
cursor A runs `execute` of the shared SQL. -/
def reuse_third : World Script × Cursor × Option PyObj :=
  cursor_execute scripted env64 reuse_second.1.clear_err reuse_first.2.1 shared_sql
    (some (Params.seq [PyObj.int 2]))

/-- A scripted world positioned on the dated row, with the given detect-types bits
and converter registry. -/
def World.typed (detect_types : Nat) (converters : List (String × Converter)) : World Script :=
  { World.fresh Script.dated_row with
    conn := { Connection.fresh with detect_types := detect_types },
    converters := converters }

/-! ## executescript and the fetch methods (cursor.c) -/

/-- The inner loop of `cursor_executescript`, `while (rc == SQLITE_ROW) rc = step`:
the world and the first result code that is not Row; `none` when the fuel runs out
while the engine keeps returning rows. -/
def script_step_loop (E : Engine σ) (st : Nat) : Nat → World σ → Option (World σ × Int)
  | 0, _ => none
  | fuel + 1, w =>
    if (eng_step E Site.script w st).2 = SQLITE_ROW then
      script_step_loop E st fuel (eng_step E Site.script w st).1
    else some (eng_step E Site.script w st)

/-- The `while (1)` loop of `cursor_executescript` (lines 787-819) on the rest
`script_cstr` of the script: the world in which the `error:` label is reached; `none`
when the fuel runs out. -/
def script_loop (E : Engine σ) : Nat → World σ → String → Option (World σ)
  | 0, _, _ => none
  | fuel + 1, w, script_cstr =>
    if !E.complete script_cstr then some w else
    let p := eng_prepare E Site.script w script_cstr
    if p.2.1 ≠ SQLITE_OK then some (_seterror p.1) else
    match script_step_loop E p.2.2 (fuel + 1) p.1 with
    | none => none
    | some s =>
      if s.2 ≠ SQLITE_DONE then some (_seterror (eng_finalize E Site.script s.1 p.2.2).1)
      else
        let f := eng_finalize E Site.script s.1 p.2.2
        if f.2 ≠ SQLITE_OK then some (_seterror f.1)
        else script_loop E fuel f.1 (E.tail script_cstr)

/-- The method `executescript` (lines 746-826), for a script given as text: entry
checks, commit, the statement loop, and the `error:` label, which returns None on
every path that reaches it.  `none` when the fuel runs out. -/
def cursor_executescript (E : Engine σ) (fuel : Nat) (w : World σ) (script : String) :
    Option (World σ × Option PyObj) :=
  let c := check_thread_and_connection w
  if !c.2 then some (c.1, none) else
  let r := connection_commit E c.1
  if r.2.isNone then some (r.1, some PyObj.none) else
  match script_loop E fuel r.1 script with
  | none => none
  | some w1 => some (w1, some PyObj.none)

/-- The method `fetchone`: the next row, None when `next` signals exhaustion without
an exception, NULL (`none`) otherwise. -/
def cursor_fetchone (E : Engine σ) (env : Env) (w : World σ) (self : Cursor) :
    World σ × Cursor × Option (Option NextResult) :=
  let r := cursor_iternext E env w self
  match r.2.2 with
  | some row => (r.1, r.2.1, some (some row))
  | none => if r.1.err.isSome then (r.1, r.2.1, none) else (r.1, r.2.1, some none)

/-- The loop of `cursor_fetchmany` (lines 906-918) with the rows collected so far and
the value of `counter`; `none` when the fuel runs out. -/
def fetchmany_loop (E : Engine σ) (env : Env) (maxrows : Int) :
    Nat → World σ → Cursor → Int → List NextResult → Option (World σ × Cursor × List NextResult)
  | 0, _, _, _, _ => none
  | fuel + 1, w, self, counter, list =>
    match (cursor_iternext E env w self).2.2 with
    | none => some ((cursor_iternext E env w self).1, (cursor_iternext E env w self).2.1, list)
    | some row =>
      if counter + 1 = maxrows then
        some ((cursor_iternext E env w self).1, (cursor_iternext E env w self).2.1, list ++ [row])
      else
        fetchmany_loop E env maxrows fuel (cursor_iternext E env w self).1
          (cursor_iternext E env w self).2.1 (counter + 1) (list ++ [row])

/-- The method `fetchmany`: `size` is the optional argument, `arraysize` its default;
the list collected, or NULL (`none`) if an exception is pending at the end.  The
outer `none` means the fuel ran out. -/
def cursor_fetchmany (E : Engine σ) (env : Env) (fuel : Nat) (w : World σ) (self : Cursor)
    (size : Option Int) : Option (World σ × Cursor × Option (List NextResult)) :=
  match fetchmany_loop E env (size.getD self.arraysize) fuel w self 0 [] with
  | none => none
  | some r => if r.1.err.isSome then some (r.1, r.2.1, none) else some (r.1, r.2.1, some r.2.2)

/-- The loop of `cursor_fetchall` (lines 938-944); `none` when the fuel runs out. -/
def fetchall_loop (E : Engine σ) (env : Env) :
    Nat → World σ → Cursor → List NextResult → Option (World σ × Cursor × List NextResult)
  | 0, _, _, _ => none
  | fuel + 1, w, self, list =>
    match (cursor_iternext E env w self).2.2 with
    | none => some ((cursor_iternext E env w self).1, (cursor_iternext E env w self).2.1, list)
    | some row =>
      fetchall_loop E env fuel (cursor_iternext E env w self).1
        (cursor_iternext E env w self).2.1 (list ++ [row])

/-- The method `fetchall`. -/
def cursor_fetchall (E : Engine σ) (env : Env) (fuel : Nat) (w : World σ) (self : Cursor) :
    Option (World σ × Cursor × Option (List NextResult)) :=
  match fetchall_loop E env fuel w self [] with
  | none => none
  | some r => if r.1.err.isSome then some (r.1, r.2.1, none) else some (r.1, r.2.1, some r.2.2)

/-! ## Vocabulary of the statements on transactions, text and fetching -/

/-- The characters of a text cell: the bytes of a byte string taken as code points,
the characters of a unicode object. -/
def PyObj.characters : PyObj → Option (List Char)
  | PyObj.str bytes => some (bytes.map Char.ofNat)
  | PyObj.unicode s => some s.toList
  | _ => Option.none

/-- A plain UTF-8 decoder, byte by byte, standing for Python's `PyUnicode_DecodeUTF8`:
`pending` continuation bytes are still expected for the code point accumulated in
`acc`. -/
def utf8_decode_aux : List Nat → Nat → Nat → Option (List Char)
  | [], 0, _ => some []
  | [], _ + 1, _ => none
  | b :: rest, 0, _ =>
    if b &&& 0x80 == 0 then (utf8_decode_aux rest 0 0).map (fun cs => Char.ofNat b :: cs)
    else if 0xC0 ≤ b ∧ b < 0xE0 then utf8_decode_aux rest 1 (b - 0xC0)
    else if 0xE0 ≤ b ∧ b < 0xF0 then utf8_decode_aux rest 2 (b - 0xE0)
    else if 0xF0 ≤ b ∧ b < 0xF8 then utf8_decode_aux rest 3 (b - 0xF0)
    else none
  | b :: rest, n + 1, acc =>
    if 0x80 ≤ b ∧ b < 0xC0 then
      if n = 0 then
        (utf8_decode_aux rest 0 0).map (fun cs => Char.ofNat (acc * 64 + (b - 0x80)) :: cs)
      else utf8_decode_aux rest n (acc * 64 + (b - 0x80))
    else none

/-- The decoder as the `decode_utf8` of an environment. -/
def utf8_decode (bytes : List Nat) : Option String :=
  (utf8_decode_aux bytes 0 0).map String.mk

/-- The 64-bit platform with the plain UTF-8 decoder. -/
def env_utf8 : Env :=
  { env64 with decode_utf8 := utf8_decode }

/-- A scripted world with a transaction open. -/
def World.in_txn : World Script :=
  { World.fresh Script.idle with conn := { Connection.fresh with inTransaction := true } }

/-- The look-ahead invariant: a buffered row comes with an active statement. -/
def Cursor.lookahead_ok (self : Cursor) : Prop :=
  self.next_row ≠ none → self.statement ≠ none

/-- The cursor after `execute` of a SELECT with one row followed by `close`: first
the world, then the cursor. -/
def closed_with_row : World Script × Cursor :=
  ((cursor_close scripted
      (cursor_execute scripted env64 (World.fresh Script.one_row) Cursor.fresh
        "SELECT x FROM t" none).1
      (cursor_execute scripted env64 (World.fresh Script.one_row) Cursor.fresh
        "SELECT x FROM t" none).2.1).1,
   (cursor_close scripted
      (cursor_execute scripted env64 (World.fresh Script.one_row) Cursor.fresh
        "SELECT x FROM t" none).1
      (cursor_execute scripted env64 (World.fresh Script.one_row) Cursor.fresh
        "SELECT x FROM t" none).2.1).2.1)

/-- Script of a three-statement text whose second statement fails to compile
(result code 1). -/
def Script.bad_second : Script :=
  { Script.idle with prepares := [SQLITE_OK, 1] }

/-- The three-statement text of the script scenario. -/
def three_statements : String :=
  "CREATE TABLE t(x); INSERT INTO missing VALUES (1); INSERT INTO t VALUES (2);"

/-- Script of a statement with two positional placeholders. -/
def Script.two_params : Script :=
  { Script.idle with param_names := [none, none] }

/-- The cursor after `execute` of a SELECT delivering the rows (1,) and (2,): first
the world, then the cursor. -/
def two_rows_pending : World Script × Cursor :=
  ((cursor_execute scripted env64 (World.fresh Script.two_rows) Cursor.fresh
      "SELECT x FROM t" none).1,
   (cursor_execute scripted env64 (World.fresh Script.two_rows) Cursor.fresh
      "SELECT x FROM t" none).2.1)

/-- Whether the engine's prepare, step and finalize of the statement `sql` all
succeed from the engine state `eng`: OK, Done, OK. -/
def Engine.runs (E : Engine σ) (eng : σ) (sql : String) : Bool :=
  decide ((E.prepare eng sql).2.1 = SQLITE_OK) &&
  decide ((E.step (E.prepare eng sql).1 (E.prepare eng sql).2.2).2 = SQLITE_DONE) &&
  decide ((E.finalize (E.step (E.prepare eng sql).1 (E.prepare eng sql).2.2).1
    (E.prepare eng sql).2.2).2 = SQLITE_OK)

/-! ## Vocabulary of the statements on running totals, first words and stale tags -/

/-- Whether a value lies in the range of a signed long of `bits` bits. -/
def fits_long (bits : Nat) (v : Int) : Bool :=
  decide (-(2 : Int) ^ (bits - 1) ≤ v) && decide (v < (2 : Int) ^ (bits - 1))

/-- Whether the running total of the counters, started at `acc`, lies in the range of
a long of `bits` bits after every addition. -/
def running_total_fits (bits : Nat) : Int → List Int → Bool
  | _, [] => true
  | acc, c :: rest => fits_long bits (acc + c) && running_total_fits bits (acc + c) rest

/-- The running total as the C code computes it: every addition is taken in the range
of a long of `bits` bits. -/
def wrapped_total (bits : Nat) : Int → List Int → Int
  | acc, [] => acc
  | acc, c :: rest => wrapped_total bits (wrap_long bits (acc + c)) rest

/-- Script of an UPDATE with one placeholder run over two parameter sets, each step
changing 2^30 rows (the first counter belongs to the step of BEGIN). -/
def Script.big_updates : Script :=
  { Script.idle with param_names := [none], step_changes := [0, 1073741824, 1073741824] }

/-- The first word of a text in the words of the specification: the text in front of
its first blank, the whole text when it has no blank. -/
def first_word_spec (text : List Char) : String :=
  String.mk (text.takeWhile (fun c => c != ' '))

theorem Connection.same_settings_refl (c : Connection) : c.same_settings c :=
  ⟨rfl, rfl, rfl, rfl, rfl, rfl, rfl⟩

theorem Connection.same_settings_trans {a b c : Connection} (h1 : a.same_settings b)
    (h2 : b.same_settings c) : a.same_settings c := by
  obtain ⟨a1, a2, a3, a4, a5, a6, a7⟩ := h1
  obtain ⟨b1, b2, b3, b4, b5, b6, b7⟩ := h2
  exact ⟨b1.trans a1, b2.trans a2, b3.trans a3, b4.trans a4, b5.trans a5, b6.trans a6,
    b7.trans a7⟩

theorem Frame.same (w : World σ) : Frame w w :=
  ⟨Connection.same_settings_refl _, rfl, rfl⟩

theorem Frame.chain {a b c : World σ} (h1 : Frame a b) (h2 : Frame b c) : Frame a c :=
  ⟨Connection.same_settings_trans h1.1 h2.1, h2.2.1.trans h1.2.1, h2.2.2.trans h1.2.2⟩

theorem Calm.still (w : World σ) : Calm w w :=
  ⟨Frame.same w, rfl, [], by simp, by simp⟩

theorem Calm.andThen {a b c : World σ} (h1 : Calm a b) (h2 : Calm b c) : Calm a c := by
  obtain ⟨f1, t1, e1, l1, q1⟩ := h1
  obtain ⟨f2, t2, e2, l2, q2⟩ := h2
  refine ⟨f1.chain f2, t2.trans t1, e1 ++ e2, ?_, ?_⟩
  · rw [l2, l1, List.append_assoc]
  · intro e he
    rcases List.mem_append.mp he with h | h
    · exact q1 e h
    · rw [← t1]; exact q2 e h

/-- A change that touches neither connection, registry, thread nor trace is calm. -/
theorem Calm.of_eq {w w' : World σ} (hc : w'.conn = w.conn) (hv : w'.converters = w.converters)
    (ht : w'.thread = w.thread) (hl : w'.log = w.log) : Calm w w' := by
  refine ⟨⟨?_, hv, ht⟩, by rw [hc], [], by simp [hl], by simp⟩
  rw [hc]; exact Connection.same_settings_refl _

/-- A change that touches neither connection, registry nor thread and appends one
quiet entry is calm. -/
theorem Calm.of_entry {w w' : World σ} (e : Event) (hc : w'.conn = w.conn)
    (hv : w'.converters = w.converters) (ht : w'.thread = w.thread)
    (hl : w'.log = w.log ++ [e]) (hq : e.quiet w.conn.inTransaction) : Calm w w' := by
  refine ⟨⟨?_, hv, ht⟩, by rw [hc], [e], hl, ?_⟩
  · rw [hc]; exact Connection.same_settings_refl _
  · intro x hx
    rw [List.mem_singleton.mp hx]; exact hq

theorem calm_raise (w : World σ) (e : PyErr) : Calm w (w.raise e) :=
  Calm.of_eq rfl rfl rfl rfl

theorem calm_clear_err (w : World σ) : Calm w w.clear_err :=
  Calm.of_eq rfl rfl rfl rfl

theorem calm_seterror (w : World σ) : Calm w (_seterror w) :=
  Calm.of_eq rfl rfl rfl rfl

theorem calm_mark_dirty (w : World σ) (id : Nat) : Calm w (statement_mark_dirty w id) :=
  Calm.of_eq rfl rfl rfl rfl

theorem calm_eng_reset (E : Engine σ) (w : World σ) (st : Nat) : Calm w (eng_reset E w st).1 :=
  Calm.of_entry _ rfl rfl rfl rfl ⟨rfl, by simp [Event.flag]⟩

theorem calm_eng_bind (E : Engine σ) (w : World σ) (st pos : Nat) (v : SqlValue) :
    Calm w (eng_bind E w st pos v).1 :=
  Calm.of_entry _ rfl rfl rfl rfl ⟨rfl, by simp [Event.flag]⟩

theorem calm_eng_step (E : Engine σ) (site : Site) (w : World σ) (st : Nat)
    (hs : site = Site.execute ∨ site = Site.retry ∨ site = Site.iternext) :
    Calm w (eng_step E site w st).1 := by
  refine Calm.of_entry _ rfl rfl rfl rfl ⟨?_, by simp [Event.flag]⟩
  rcases hs with h | h | h <;> subst h <;> rfl

theorem calm_eng_prepare (E : Engine σ) (w : World σ) (sql : String) :
    Calm w (eng_prepare E Site.execute w sql).1 :=
  Calm.of_entry _ rfl rfl rfl rfl ⟨rfl, by simp [Event.flag]⟩

theorem calm_statement_reset (E : Engine σ) (w : World σ) (id : Nat) :
    Calm w (statement_reset E w id).1 :=
  (calm_eng_reset E w _).andThen (Calm.of_eq rfl rfl rfl rfl)

theorem calm_statement_recompile (E : Engine σ) (w : World σ) (id : Nat) :
    Calm w (statement_recompile E w id).1 := by
  simp only [statement_recompile]
  split
  · exact Calm.of_entry _ rfl rfl rfl rfl ⟨rfl, by simp [Event.flag]⟩
  · exact Calm.of_entry _ rfl rfl rfl rfl ⟨rfl, by simp [Event.flag]⟩

theorem calm_statement_create (E : Engine σ) (w : World σ) (sql : String) :
    Calm w (statement_create E w sql).1 := by
  simp only [statement_create]
  split
  · exact (calm_eng_prepare E w sql).andThen (Calm.of_eq rfl rfl rfl rfl)
  · exact (calm_eng_prepare E w sql).andThen (Calm.of_eq rfl rfl rfl rfl)

theorem calm_cache_get (E : Engine σ) (env : Env) (w : World σ) (sql : String) :
    Calm w (cache_get E env w sql).1 := by
  simp only [cache_get]
  split
  · exact ⟨⟨⟨rfl, rfl, rfl, rfl, rfl, rfl, rfl⟩, rfl, rfl⟩, rfl, [], by simp, by simp⟩
  · split
    · refine (calm_eng_prepare E w sql).andThen ?_
      exact ⟨⟨⟨rfl, rfl, rfl, rfl, rfl, rfl, rfl⟩, rfl, rfl⟩, rfl, [], by simp, by simp⟩
    · exact (calm_eng_prepare E w sql).andThen (calm_seterror _)

theorem calm_reset_active (E : Engine σ) (w : World σ) (self : Cursor) :
    Calm w (reset_active E w self) := by
  simp only [reset_active]
  split
  · exact calm_statement_reset E w _
  · exact Calm.still w

theorem calm_acquire_statement (E : Engine σ) (env : Env) (w : World σ) (self : Cursor)
    (operation : String) : Calm w (acquire_statement E env w self operation).1 := by
  have h1 : Calm w (reset_active E w self) := calm_reset_active E w self
  simp only [acquire_statement]
  split
  · exact h1.andThen (calm_cache_get E env _ operation)
  · split
    · split
      · exact (h1.andThen (calm_cache_get E env _ operation)).andThen (calm_statement_create E _ _)
      · exact (h1.andThen (calm_cache_get E env _ operation)).andThen (calm_statement_create E _ _)
    · exact h1.andThen (calm_cache_get E env _ operation)

theorem calm_bind_parameter (E : Engine σ) (w : World σ) (id pos : Nat) (parameter : PyObj) :
    Calm w (_bind_parameter E w id pos parameter).1 := by
  cases parameter <;> simp only [_bind_parameter]
  case none => exact calm_eng_bind E w _ _ _
  case int v => exact calm_eng_bind E w _ _ _
  case long v =>
    split
    · exact calm_eng_bind E w _ _ _
    · exact (calm_raise w _).andThen (calm_eng_bind E _ _ _ _)
  case float b => exact calm_eng_bind E w _ _ _
  case buffer bytes readable =>
    split
    · exact calm_eng_bind E w _ _ _
    · exact calm_raise w _
  case str bytes => exact calm_eng_bind E w _ _ _
  case unicode s => exact calm_eng_bind E w _ _ _
  case other t => exact Calm.still w

theorem calm_adapt_parameter (env : Env) (w : World σ) (p : PyObj) :
    Calm w (adapt_parameter env w p).1 := by
  simp only [adapt_parameter]
  split
  · exact Calm.still w
  · exact calm_clear_err w

theorem calm_bind_named (E : Engine σ) (env : Env) (id : Nat) (parameters : List (String × PyObj))
    (idx : List Nat) (w : World σ) : Calm w (bind_named E env id parameters idx w).1 := by
  induction idx generalizing w with
  | nil => exact Calm.still w
  | cons i rest ih =>
    simp only [bind_named]
    split
    · exact calm_raise w _
    · split
      · exact calm_raise w _
      · split
        · exact ((calm_adapt_parameter env w _).andThen (calm_bind_parameter E _ _ _ _)).andThen
            (calm_raise _ _)
        · exact ((calm_adapt_parameter env w _).andThen (calm_bind_parameter E _ _ _ _)).andThen
            (ih _)

theorem calm_bind_positional (E : Engine σ) (env : Env) (id : Nat) (i : Nat)
    (items : List PyObj) (w : World σ) : Calm w (bind_positional E env id i items w).1 := by
  induction items generalizing w i with
  | nil => exact Calm.still w
  | cons p rest ih =>
    simp only [bind_positional]
    split
    · exact ((calm_adapt_parameter env w _).andThen (calm_bind_parameter E _ _ _ _)).andThen
        (calm_raise _ _)
    · exact ((calm_adapt_parameter env w _).andThen (calm_bind_parameter E _ _ _ _)).andThen
        (ih _ _)

theorem calm_bind_parameters (E : Engine σ) (env : Env) (w : World σ) (id npn : Nat)
    (parameters : Params) : Calm w (bind_parameters E env w id npn parameters).1 := by
  cases parameters <;> simp only [bind_parameters]
  case dict items => exact calm_bind_named E env id items _ w
  case seq items =>
    split
    · exact calm_raise w _
    · exact calm_bind_positional E env id 0 items w
  case not_a_sequence => exact calm_raise w _

theorem calm_step_with_schema_retry (E : Engine σ) (w : World σ) (id : Nat) :
    Calm w (step_with_schema_retry E w id).1 := by
  have hs : Calm w (eng_step E Site.execute w (w.stmt id).st).1 :=
    calm_eng_step E _ w _ (Or.inl rfl)
  simp only [step_with_schema_retry]
  split
  · split
    · split
      · exact ((hs.andThen (calm_statement_reset E _ id)).andThen
          (calm_statement_recompile E _ id)).andThen (calm_eng_step E _ _ _ (Or.inr (Or.inl rfl)))
      · exact ((hs.andThen (calm_statement_reset E _ id)).andThen
          (calm_statement_recompile E _ id)).andThen (calm_seterror _)
    · exact (hs.andThen (calm_statement_reset E _ id)).andThen (calm_seterror _)
  · exact hs

theorem calm_fetch_one_row (E : Engine σ) (env : Env) (w : World σ) (self : Cursor) (id : Nat) :
    Calm w (_fetch_one_row E env w self id).1 :=
  Calm.of_eq rfl rfl rfl rfl

theorem update_counters_w (E : Engine σ) (env : Env) (k : StatementKind) (s : LoopState σ) :
    (update_counters E env k s).w = s.w := by
  simp only [update_counters]
  split <;> split <;> rfl

theorem calm_finish_step (E : Engine σ) (env : Env) (k : StatementKind) (multiple : Bool)
    (id : Nat) (rc : Int) (s : LoopState σ) :
    Calm s.w (finish_step E env k multiple id rc s).1.w := by
  simp only [finish_step]
  have h1 : Calm s.w (if rc = SQLITE_ROW then
        ({ s with w := (_fetch_one_row E env s.w s.self id).1,
                  self := { s.self with next_row := (_fetch_one_row E env s.w s.self id).2 } } :
          LoopState σ)
      else if rc = SQLITE_DONE ∧ multiple = false then
        { s with w := (statement_reset E s.w id).1, self := { s.self with statement := none } }
      else s).w := by
    split
    · exact calm_fetch_one_row E env s.w s.self id
    · split
      · exact calm_statement_reset E s.w id
      · exact Calm.still _
  split
  · exact calm_raise _ _
  · split
    · simp only [update_counters_w]
      exact h1.andThen (calm_statement_reset E _ id)
    · simp only [update_counters_w]
      exact h1

theorem calm_bind_phase (E : Engine σ) (env : Env) (npn : Nat) (parameters : Params)
    (s : LoopState σ) : Calm s.w (bind_phase E env npn parameters s).1.w := by
  simp only [bind_phase]
  split
  · exact Calm.of_eq rfl rfl rfl rfl
  · split
    · exact (calm_mark_dirty s.w _).andThen (calm_bind_parameters E env _ _ _ _)
    · exact (calm_mark_dirty s.w _).andThen (calm_bind_parameters E env _ _ _ _)

theorem calm_step_phase (E : Engine σ) (env : Env) (k : StatementKind) (multiple : Bool)
    (id : Nat) (s : LoopState σ) : Calm s.w (step_phase E env k multiple id s).1.w := by
  simp only [step_phase]
  split
  · exact calm_step_with_schema_retry E s.w id
  · exact (calm_step_with_schema_retry E s.w id).andThen (calm_finish_step E env k multiple id _ _)

theorem calm_query_body (E : Engine σ) (env : Env) (k : StatementKind) (multiple : Bool)
    (npn : Nat) (parameters : Params) (s : LoopState σ) :
    Calm s.w (query_body E env k multiple npn parameters s).1.w := by
  simp only [query_body]
  split
  · exact calm_bind_phase E env npn parameters s
  · exact (calm_bind_phase E env npn parameters s).andThen (calm_step_phase E env k multiple _ _)

theorem calm_query_loop (E : Engine σ) (env : Env) (k : StatementKind) (multiple : Bool)
    (npn : Nat) (sets : List Params) (s : LoopState σ) :
    Calm s.w (query_loop E env k multiple npn sets s).w := by
  induction sets generalizing s with
  | nil => exact Calm.still _
  | cons p rest ih =>
    simp only [query_loop]
    split
    · exact (calm_query_body E env k multiple npn p s).andThen (ih _)
    · exact calm_query_body E env k multiple npn p s

/-! ## Entry checks and transaction functions -/

theorem check_thread_pass (w : World σ) (h : (check_thread w).2 = true) :
    (check_thread w).1 = w := by
  simp only [check_thread] at h ⊢
  split at h
  · split at h
    · simp at h
    · simp_all
  · simp_all

theorem check_pass (w : World σ) (h : (check_thread_and_connection w).2 = true) :
    (check_thread_and_connection w).1 = w := by
  simp only [check_thread_and_connection] at h ⊢
  split at h
  · rename_i ht
    rw [check_thread_pass w ht] at h ⊢
    simp only [check_connection] at h ⊢
    split at h
    · simp_all
    · simp at h
  · simp at h

theorem check_thread_log (w : World σ) :
    (check_thread w).1.log = w.log ∧ (check_thread w).1.conn = w.conn := by
  simp only [check_thread]
  split
  · split <;> exact ⟨rfl, rfl⟩
  · exact ⟨rfl, rfl⟩

theorem check_log (w : World σ) :
    (check_thread_and_connection w).1.log = w.log ∧
    (check_thread_and_connection w).1.conn = w.conn := by
  simp only [check_thread_and_connection]
  split
  · simp only [check_connection]
    split
    · exact check_thread_log w
    · exact check_thread_log w
  · exact check_thread_log w

theorem check_thread_fail_err (w : World σ) (h : (check_thread w).2 = false) :
    (check_thread w).1.err.isSome = true := by
  simp only [check_thread] at h ⊢
  split at h
  · split at h
    · simp_all [World.raise]
    · simp at h
  · simp at h

/-- The trace of `reset_active`: at most a reset entry; the connection is untouched. -/
theorem reset_active_trace (E : Engine σ) (w : World σ) (self : Cursor) :
    (reset_active E w self).conn = w.conn ∧
    ∃ pre, (reset_active E w self).log = w.log ++ pre ∧ ∀ e ∈ pre, e.site = none := by
  simp only [reset_active]
  split
  · refine ⟨rfl, [Event.reset _ _], rfl, ?_⟩
    intro e he
    rw [List.mem_singleton.mp he]; rfl
  · exact ⟨rfl, [], by simp, by simp⟩

/-- The two outcomes of `_connection_begin`: failure with an exception pending, the
flag as before and only BEGIN calls traced; or success with the flag set and the
three successful BEGIN calls traced. -/
theorem connection_begin_cases (E : Engine σ) (w : World σ) :
    ((_connection_begin E w).2 = none ∧ (_connection_begin E w).1.err.isSome = true ∧
      (_connection_begin E w).1.conn.inTransaction = w.conn.inTransaction ∧
      ∃ evs, (_connection_begin E w).1.log = w.log ++ evs ∧
        ∀ e ∈ evs, e.site = some Site.begin) ∨
    ((_connection_begin E w).2 = some PyObj.none ∧
      (_connection_begin E w).1.conn.inTransaction = true ∧
      (_connection_begin E w).1.err = w.err ∧
      ∃ st c, (_connection_begin E w).1.log = w.log ++
        [Event.prepare Site.begin "BEGIN" SQLITE_OK,
         Event.step Site.begin st SQLITE_DONE w.conn.inTransaction c,
         Event.finalize Site.begin st SQLITE_OK]) := by
  simp only [_connection_begin]
  split
  · rename_i hc
    left
    have hc' : (check_thread w).2 = false := by simpa using hc
    refine ⟨rfl, check_thread_fail_err w hc', by rw [(check_thread_log w).2], [], ?_, by simp⟩
    simp [(check_thread_log w).1]
  · rename_i hc
    have hc' : (check_thread w).2 = true := by simpa using hc
    rw [check_thread_pass w hc']
    split
    · left
      refine ⟨rfl, rfl, rfl, [Event.prepare Site.begin "BEGIN" _], rfl, ?_⟩
      intro e he
      rw [List.mem_singleton.mp he]; rfl
    · rename_i hp
      split
      · left
        refine ⟨rfl, rfl, rfl, [Event.prepare Site.begin "BEGIN" (E.prepare w.eng "BEGIN").2.1,
          Event.step Site.begin (E.prepare w.eng "BEGIN").2.2
            (E.step (E.prepare w.eng "BEGIN").1 (E.prepare w.eng "BEGIN").2.2).2
            w.conn.inTransaction
            (E.changes (E.step (E.prepare w.eng "BEGIN").1 (E.prepare w.eng "BEGIN").2.2).1)],
          by simp [eng_step, eng_prepare, _seterror, World.raise], ?_⟩
        intro e he
        simp only [List.mem_cons, List.mem_singleton, List.not_mem_nil, or_false] at he
        rcases he with h | h <;> rw [h] <;> rfl
      · rename_i hs
        split
        · left
          refine ⟨rfl, rfl, rfl, [Event.prepare Site.begin "BEGIN" (E.prepare w.eng "BEGIN").2.1,
            Event.step Site.begin (E.prepare w.eng "BEGIN").2.2
              (E.step (E.prepare w.eng "BEGIN").1 (E.prepare w.eng "BEGIN").2.2).2
              w.conn.inTransaction
              (E.changes (E.step (E.prepare w.eng "BEGIN").1 (E.prepare w.eng "BEGIN").2.2).1),
            Event.finalize Site.begin (E.prepare w.eng "BEGIN").2.2
              (E.finalize (E.step (E.prepare w.eng "BEGIN").1 (E.prepare w.eng "BEGIN").2.2).1
                (E.prepare w.eng "BEGIN").2.2).2],
            by simp [eng_step, eng_prepare, eng_finalize, _seterror, World.raise], ?_⟩
          intro e he
          simp only [List.mem_cons, List.mem_singleton, List.not_mem_nil, or_false] at he
          rcases he with h | h | h <;> rw [h] <;> rfl
        · rename_i hf
          right
          refine ⟨rfl, rfl, rfl, (E.prepare w.eng "BEGIN").2.2,
            E.changes (E.step (E.prepare w.eng "BEGIN").1 (E.prepare w.eng "BEGIN").2.2).1, ?_⟩
          simp only [ne_eq, not_not, eng_step, eng_prepare, eng_finalize] at hp hs hf
          simp [eng_step, eng_prepare, eng_finalize, hp, hs, hf]

theorem check_fail_err (w : World σ) (h : (check_thread_and_connection w).2 = false) :
    (check_thread_and_connection w).1.err.isSome = true := by
  simp only [check_thread_and_connection] at h ⊢
  split
  · rename_i ht
    simp only [ht, if_true] at h
    rw [check_thread_pass w ht] at h ⊢
    simp only [check_connection] at h ⊢
    split
    · simp_all
    · rfl
  · rename_i ht
    exact check_thread_fail_err w (by simpa using ht)

theorem query_return_world (w : World σ) (self : Cursor) :
    (query_return w self).1 = w ∧ (query_return w self).2.1 = self ∧
    ((query_return w self).2.2 = none ↔ w.err.isSome = true) := by
  simp only [query_return]
  split
  · rename_i h
    exact ⟨rfl, rfl, by simp [h]⟩
  · rename_i h
    exact ⟨rfl, rfl, by simp [h]⟩

/-- NULL is returned exactly when an exception is pending at the end. -/
theorem query_execute_null_iff (E : Engine σ) (env : Env) (w : World σ) (self : Cursor)
    (multiple : Bool) (operation : String) (sets : List Params) :
    (_query_execute E env w self multiple operation sets).2.2 = none ↔
    (_query_execute E env w self multiple operation sets).1.err.isSome = true := by
  simp only [_query_execute]
  split
  · rename_i hc
    have := check_fail_err w (by simpa using hc)
    simp [this]
  · split
    · rw [(query_return_world _ _).1]; exact (query_return_world _ _).2.2
    · rw [(query_return_world _ _).1]; exact (query_return_world _ _).2.2

theorem reset_active_next_row (E : Engine σ) (w : World σ) (self : Cursor) (r : Option Row) :
    reset_active E w { self with next_row := r } = reset_active E w self := rfl

/-- After the transaction decision the prologue is calm; if the decision is to stop,
the prologue stops in the world the decision left. -/
theorem query_prologue_after (E : Engine σ) (env : Env) (w : World σ) (self : Cursor)
    (multiple : Bool) (operation : String) :
    ((transaction_decision E w self multiple operation).2 = false →
      (query_prologue E env w self multiple operation).2 = none ∧
      (query_prologue E env w self multiple operation).1.1 =
        (transaction_decision E w self multiple operation).1) ∧
    ((transaction_decision E w self multiple operation).2 = true →
      Calm (transaction_decision E w self multiple operation).1
        (query_prologue E env w self multiple operation).1.1) := by
  simp only [query_prologue, transaction_decision, reset_active_next_row]
  constructor
  · intro h
    simp [h]
  · intro h
    simp only [h, Bool.not_true, Bool.false_eq_true, if_false]
    split
    · exact calm_acquire_statement E env _ _ _
    · split
      · exact calm_acquire_statement E env _ _ _
      · exact ((calm_acquire_statement E env _ _ _).andThen (calm_statement_reset E _ _)).andThen
          (calm_mark_dirty _ _)

/-- Shape of every run of `_query_execute`: the entry checks fail and nothing is
traced; or the transaction decision stops the call in the world it left; or the
decision lets the call proceed and everything after it is calm. -/
theorem query_execute_shape (E : Engine σ) (env : Env) (w : World σ) (self : Cursor)
    (multiple : Bool) (operation : String) (sets : List Params) :
    ((_query_execute E env w self multiple operation sets).1.log = w.log ∧
      (_query_execute E env w self multiple operation sets).1.conn = w.conn ∧
      (_query_execute E env w self multiple operation sets).2.2 = none) ∨
    ((transaction_decision E w self multiple operation).2 = false ∧
      (_query_execute E env w self multiple operation sets).1 =
        (transaction_decision E w self multiple operation).1) ∨
    ((transaction_decision E w self multiple operation).2 = true ∧
      Calm (transaction_decision E w self multiple operation).1
        (_query_execute E env w self multiple operation sets).1) := by
  by_cases hc : (check_thread_and_connection w).2 = true
  · right
    have hw := check_pass w hc
    simp only [_query_execute, hc, hw, Bool.not_true, Bool.false_eq_true, if_false]
    cases ht : (transaction_decision E w self multiple operation).2
    · left
      have h := (query_prologue_after E env w self multiple operation).1 ht
      refine ⟨rfl, ?_⟩
      simp only [h.1]
      rw [(query_return_world _ _).1]; exact h.2
    · right
      have h := (query_prologue_after E env w self multiple operation).2 ht
      refine ⟨rfl, ?_⟩
      split
      · rw [(query_return_world _ _).1]; exact h
      · rw [(query_return_world _ _).1]
        exact h.andThen (calm_query_loop E env _ multiple _ sets _)
  · left
    simp only [_query_execute, hc, Bool.not_false, if_true]
    simp at hc
    simp [_query_execute, hc, (check_log w).1, (check_log w).2]

theorem Event.site_none_facts {e : Event} (h : e.site = none) :
    e.is_statement_step = false ∧ (∀ s, e.is_failed_call s = false) ∧
    e.is_transaction_call = false := by
  cases e <;> simp_all [Event.site, Event.is_statement_step, Event.is_failed_call,
    Event.is_transaction_call]

theorem Event.site_transaction_facts {e : Event} {s : Site} (h : e.site = some s)
    (hs : s = Site.begin ∨ s = Site.commit ∨ s = Site.rollback) :
    e.is_statement_step = false := by
  cases e <;> simp_all [Event.site, Event.is_statement_step]
  rcases hs with h | h | h <;> subst h <;> rfl

theorem Event.quiet_facts {e : Event} {b : Bool} (h : e.quiet b) :
    (e.is_statement_step = true → e.flag = some b) ∧ (∀ s, e.site = some s →
      s ≠ Site.begin ∧ s ≠ Site.commit ∧ s ≠ Site.rollback) := by
  obtain ⟨h1, h2⟩ := h
  constructor
  · intro hs
    cases e <;> simp_all [Event.is_statement_step, Event.flag]
  · intro s hs
    simp only [Event.is_transaction_call, hs] at h1
    cases s <;> simp_all

theorem Event.failed_call_site {e : Event} {s : Site} (h : e.is_failed_call s = true) :
    e.site = some s := by
  cases e <;> simp_all [Event.is_failed_call, Event.site]

theorem transaction_decision_dml (E : Engine σ) (w : World σ) (self : Cursor) (multiple : Bool)
    (operation : String) (hmode : w.conn.begin_statement = true)
    (hflag : w.conn.inTransaction = false)
    (hkind : is_dml (detect_statement_type operation) = true) :
    transaction_decision E w self multiple operation =
      ((_connection_begin E (reset_active E w self)).1,
       (_connection_begin E (reset_active E w self)).2.isSome) := by
  have hc := (reset_active_trace E w self).1
  simp only [transaction_decision, implicit_transaction, hc, hmode, hflag, if_true]
  cases hk : detect_statement_type operation <;> simp_all [is_dml]

/-- C1: in implicit-begin mode, with the flag NO_TXN and a statement classified
INSERT, UPDATE, DELETE or REPLACE, execute (and executemany) performs BEGIN before
the statement is stepped: every step of the statement is traced with the flag
IN_TXN and comes after the successful BEGIN step; no COMMIT or ROLLBACK is issued
and the flag is IN_TXN when the call returns successfully; if a BEGIN call fails,
the statement is not stepped, the flag stays NO_TXN and the call fails. -/
theorem implicit_begin_before_dml (E : Engine σ) (env : Env) (w : World σ) (self : Cursor)
    (multiple : Bool) (operation : String) (sets : List Params)
    (r : World σ × Cursor × Option PyObj)
    (hr : r = _query_execute E env w self multiple operation sets)
    (hmode : w.conn.begin_statement = true) (hflag : w.conn.inTransaction = false)
    (hkind : is_dml (detect_statement_type operation) = true) :
    ∃ evs, r.1.log = w.log ++ evs ∧
      (∀ e ∈ evs, e.is_statement_step = true → e.flag = some true) ∧
      ((∃ e ∈ evs, e.is_statement_step = true) →
        ∃ pre post st c, evs = pre ++ Event.step Site.begin st SQLITE_DONE false c :: post ∧
          ∀ x ∈ pre, x.is_statement_step = false) ∧
      (∀ e ∈ evs, e.site ≠ some Site.commit ∧ e.site ≠ some Site.rollback) ∧
      (r.2.2 ≠ none → r.1.conn.inTransaction = true) ∧
      ((∃ e ∈ evs, e.is_failed_call Site.begin = true) →
        (∀ e ∈ evs, e.is_statement_step = false) ∧ r.1.conn.inTransaction = false ∧
        r.2.2 = none) := by
  subst hr
  have hd := transaction_decision_dml E w self multiple operation hmode hflag hkind
  obtain ⟨hconn, pre, hpre, hpre_site⟩ := reset_active_trace E w self
  have hnull := query_execute_null_iff E env w self multiple operation sets
  rcases query_execute_shape E env w self multiple operation sets with h | h | h
  · -- the entry checks failed
    obtain ⟨hl, hc, hn⟩ := h
    refine ⟨[], by simp [hl], by simp, by simp, by simp, ?_, by simp⟩
    intro hne; exact absurd hn hne
  · -- BEGIN failed
    obtain ⟨hdec, hw⟩ := h
    rw [hd] at hdec hw
    simp only at hdec hw
    rcases connection_begin_cases E (reset_active E w self) with hb | hb
    · obtain ⟨_, herr, hfl, bevs, hlog, hsite⟩ := hb
      have hnone : (_query_execute E env w self multiple operation sets).2.2 = none := by
        rw [hnull, hw]; exact herr
      have hno_step : ∀ e ∈ pre ++ bevs, e.is_statement_step = false := by
        intro e he
        rcases List.mem_append.mp he with h1 | h1
        · exact (Event.site_none_facts (hpre_site e h1)).1
        · exact Event.site_transaction_facts (hsite e h1) (Or.inl rfl)
      refine ⟨pre ++ bevs, ?_, ?_, ?_, ?_, ?_, ?_⟩
      · rw [hw, hlog, hpre, List.append_assoc]
      · intro e he hs
        rw [hno_step e he] at hs; simp at hs
      · rintro ⟨e, he, hs⟩
        rw [hno_step e he] at hs; simp at hs
      · intro e he
        rcases List.mem_append.mp he with h1 | h1
        · simp [hpre_site e h1]
        · simp [hsite e h1]
      · intro hne; exact absurd hnone hne
      · intro _
        refine ⟨hno_step, ?_, hnone⟩
        rw [hw, hfl, hconn, hflag]
    · rw [hb.1] at hdec; simp at hdec
  · -- BEGIN succeeded
    obtain ⟨hdec, hcalm⟩ := h
    rw [hd] at hdec hcalm
    simp only at hdec hcalm
    rcases connection_begin_cases E (reset_active E w self) with hb | hb
    · rw [hb.1] at hdec; simp at hdec
    · obtain ⟨_, hfl, _, st, c, hlog⟩ := hb
      obtain ⟨_, hkeep, post, hpost, hquiet⟩ := hcalm
      rw [hfl] at hquiet hkeep
      rw [hconn, hflag] at hlog
      refine ⟨pre ++ ([Event.prepare Site.begin "BEGIN" SQLITE_OK,
        Event.step Site.begin st SQLITE_DONE false c,
        Event.finalize Site.begin st SQLITE_OK] ++ post), ?_, ?_, ?_, ?_, ?_, ?_⟩
      · rw [hpost, hlog, hpre]; simp
      · intro e he hs
        rcases List.mem_append.mp he with h1 | h1
        · rw [(Event.site_none_facts (hpre_site e h1)).1] at hs; simp at hs
        · rcases List.mem_append.mp h1 with h2 | h2
          · simp only [List.mem_cons, List.mem_singleton, List.not_mem_nil, or_false] at h2
            rcases h2 with h2 | h2 | h2 <;> rw [h2] at hs <;> simp [Event.is_statement_step] at hs
          · exact (Event.quiet_facts (hquiet e h2)).1 hs
      · intro _
        refine ⟨pre ++ [Event.prepare Site.begin "BEGIN" SQLITE_OK], 
          Event.finalize Site.begin st SQLITE_OK :: post, st, c, by simp, ?_⟩
        intro x hx
        rcases List.mem_append.mp hx with h1 | h1
        · exact (Event.site_none_facts (hpre_site x h1)).1
        · rw [List.mem_singleton.mp h1]; rfl
      · intro e he
        rcases List.mem_append.mp he with h1 | h1
        · simp [hpre_site e h1]
        · rcases List.mem_append.mp h1 with h2 | h2
          · simp only [List.mem_cons, List.mem_singleton, List.not_mem_nil, or_false] at h2
            rcases h2 with h2 | h2 | h2 <;> rw [h2] <;> simp [Event.site]
          · have hq := (Event.quiet_facts (hquiet e h2)).2
            constructor
            · intro hs; exact (hq _ hs).2.1 rfl
            · intro hs; exact (hq _ hs).2.2 rfl
      · intro _; exact hkeep
      · rintro ⟨e, he, hf⟩
        exfalso
        rcases List.mem_append.mp he with h1 | h1
        · rw [(Event.site_none_facts (hpre_site e h1)).2.1] at hf; simp at hf
        · rcases List.mem_append.mp h1 with h2 | h2
          · simp only [List.mem_cons, List.mem_singleton, List.not_mem_nil, or_false] at h2
            rcases h2 with h2 | h2 | h2 <;> rw [h2] at hf <;>
              simp [Event.is_failed_call, SQLITE_OK, SQLITE_DONE] at hf
          · exact ((Event.quiet_facts (hquiet e h2)).2 _ (Event.failed_call_site hf)).1 rfl

/-- C1, witness: an INSERT on a fresh connection in implicit-begin mode. -/
theorem implicit_begin_before_dml_witness :
    (World.fresh Script.idle).conn.begin_statement = true ∧
    (World.fresh Script.idle).conn.inTransaction = false ∧
    is_dml (detect_statement_type "INSERT INTO t VALUES (1)") = true ∧
    ∃ evs, (cursor_execute scripted env64 (World.fresh Script.idle) Cursor.fresh
        "INSERT INTO t VALUES (1)" none).1.log = [] ++ evs ∧
      ∀ e ∈ evs, e.is_statement_step = true → e.flag = some true :=
  ⟨rfl, rfl, by decide,
    (implicit_begin_before_dml scripted env64 (World.fresh Script.idle) Cursor.fresh false
      "INSERT INTO t VALUES (1)" [Params.seq []] _ rfl rfl rfl (by decide)).imp
      (fun _ h => ⟨h.1, h.2.1⟩)⟩

/-- C2, counterexample: with implicit begin switched off and a transaction open,
a statement classified OTHER is stepped with the flag still IN_TXN; no COMMIT is
issued and the call succeeds. -/
theorem other_without_commit_when_mode_off :
    detect_statement_type "CREATE TABLE t(x)" = STATEMENT_OTHER ∧
    World.explicit_txn.conn.inTransaction = true ∧
    (cursor_execute scripted env64 World.explicit_txn Cursor.fresh
      "CREATE TABLE t(x)" none).1.log =
      [Event.prepare Site.execute "CREATE TABLE t(x)" SQLITE_OK,
       Event.reset 0 SQLITE_OK,
       Event.step Site.execute 0 SQLITE_DONE true 0,
       Event.reset 0 SQLITE_OK] ∧
    (cursor_execute scripted env64 World.explicit_txn Cursor.fresh
      "CREATE TABLE t(x)" none).2.2 = some PyObj.none := by
  refine ⟨by decide, rfl, by decide, by decide⟩

/-- The two outcomes of `connection_commit` on an open transaction: failure with an
exception pending, the flag as before and only COMMIT calls traced; or success
with the flag cleared and the three successful COMMIT calls traced. -/
theorem connection_commit_cases (E : Engine σ) (w : World σ)
    (hin : w.conn.inTransaction = true) :
    ((connection_commit E w).2 = none ∧ (connection_commit E w).1.err.isSome = true ∧
      (connection_commit E w).1.conn.inTransaction = true ∧
      ∃ evs, (connection_commit E w).1.log = w.log ++ evs ∧
        ∀ e ∈ evs, e.site = some Site.commit) ∨
    ((connection_commit E w).2 = some PyObj.none ∧
      (connection_commit E w).1.conn.inTransaction = false ∧
      (connection_commit E w).1.err = w.err ∧
      ∃ st c, (connection_commit E w).1.log = w.log ++
        [Event.prepare Site.commit "COMMIT" SQLITE_OK,
         Event.step Site.commit st SQLITE_DONE true c,
         Event.finalize Site.commit st SQLITE_OK]) := by
  simp only [connection_commit]
  split
  · rename_i hc
    left
    have hc' : (check_thread w).2 = false := by simpa using hc
    refine ⟨rfl, check_thread_fail_err w hc', by rw [(check_thread_log w).2]; exact hin, [], ?_,
      by simp⟩
    simp [(check_thread_log w).1]
  · rename_i hc
    have hc' : (check_thread w).2 = true := by simpa using hc
    rw [check_thread_pass w hc']
    simp only [hin, if_true]
    split
    · left
      refine ⟨rfl, rfl, hin, [Event.prepare Site.commit "COMMIT" _], rfl, ?_⟩
      intro e he
      rw [List.mem_singleton.mp he]; rfl
    · rename_i hp
      split
      · left
        refine ⟨rfl, rfl, hin, [Event.prepare Site.commit "COMMIT" (E.prepare w.eng "COMMIT").2.1,
          Event.step Site.commit (E.prepare w.eng "COMMIT").2.2
            (E.step (E.prepare w.eng "COMMIT").1 (E.prepare w.eng "COMMIT").2.2).2
            w.conn.inTransaction
            (E.changes (E.step (E.prepare w.eng "COMMIT").1 (E.prepare w.eng "COMMIT").2.2).1)],
          by simp [eng_step, eng_prepare, _seterror, World.raise], ?_⟩
        intro e he
        simp only [List.mem_cons, List.mem_singleton, List.not_mem_nil, or_false] at he
        rcases he with h | h <;> rw [h] <;> rfl
      · rename_i hs
        split
        · left
          refine ⟨rfl, rfl, hin, [Event.prepare Site.commit "COMMIT" (E.prepare w.eng "COMMIT").2.1,
            Event.step Site.commit (E.prepare w.eng "COMMIT").2.2
              (E.step (E.prepare w.eng "COMMIT").1 (E.prepare w.eng "COMMIT").2.2).2
              w.conn.inTransaction
              (E.changes (E.step (E.prepare w.eng "COMMIT").1 (E.prepare w.eng "COMMIT").2.2).1),
            Event.finalize Site.commit (E.prepare w.eng "COMMIT").2.2
              (E.finalize (E.step (E.prepare w.eng "COMMIT").1 (E.prepare w.eng "COMMIT").2.2).1
                (E.prepare w.eng "COMMIT").2.2).2],
            by simp [eng_step, eng_prepare, eng_finalize, _seterror, World.raise], ?_⟩
          intro e he
          simp only [List.mem_cons, List.mem_singleton, List.not_mem_nil, or_false] at he
          rcases he with h | h | h <;> rw [h] <;> rfl
        · rename_i hf
          right
          refine ⟨rfl, rfl, rfl, (E.prepare w.eng "COMMIT").2.2,
            E.changes (E.step (E.prepare w.eng "COMMIT").1 (E.prepare w.eng "COMMIT").2.2).1, ?_⟩
          simp only [ne_eq, not_not, eng_step, eng_prepare, eng_finalize] at hp hs hf
          simp [eng_step, eng_prepare, eng_finalize, hp, hs, hf, hin]

theorem transaction_decision_other (E : Engine σ) (w : World σ) (self : Cursor)
    (multiple : Bool) (operation : String) (hmode : w.conn.begin_statement = true)
    (hflag : w.conn.inTransaction = true)
    (hkind : detect_statement_type operation = STATEMENT_OTHER) :
    transaction_decision E w self multiple operation =
      ((connection_commit E (reset_active E w self)).1,
       (connection_commit E (reset_active E w self)).2.isSome) := by
  have hc := (reset_active_trace E w self).1
  simp only [transaction_decision, implicit_transaction, hc, hmode, hflag, hkind, if_true]

/-- C2, amended: in implicit-begin mode, with the flag IN_TXN and a statement
classified OTHER, execute (and executemany) performs COMMIT before the statement is
stepped: every step of the statement is traced with the flag NO_TXN and comes
after the successful COMMIT step; if a COMMIT call fails, the statement is not
stepped, the flag stays IN_TXN and the call fails. -/
theorem implicit_commit_before_other (E : Engine σ) (env : Env) (w : World σ) (self : Cursor)
    (multiple : Bool) (operation : String) (sets : List Params)
    (r : World σ × Cursor × Option PyObj)
    (hr : r = _query_execute E env w self multiple operation sets)
    (hmode : w.conn.begin_statement = true) (hflag : w.conn.inTransaction = true)
    (hkind : detect_statement_type operation = STATEMENT_OTHER) :
    ∃ evs, r.1.log = w.log ++ evs ∧
      (∀ e ∈ evs, e.is_statement_step = true → e.flag = some false) ∧
      ((∃ e ∈ evs, e.is_statement_step = true) →
        ∃ pre post st c, evs = pre ++ Event.step Site.commit st SQLITE_DONE true c :: post ∧
          ∀ x ∈ pre, x.is_statement_step = false) ∧
      ((∃ e ∈ evs, e.is_failed_call Site.commit = true) →
        (∀ e ∈ evs, e.is_statement_step = false) ∧ r.1.conn.inTransaction = true ∧
        r.2.2 = none) := by
  subst hr
  have hd := transaction_decision_other E w self multiple operation hmode hflag hkind
  obtain ⟨hconn, pre, hpre, hpre_site⟩ := reset_active_trace E w self
  have hin : (reset_active E w self).conn.inTransaction = true := by rw [hconn]; exact hflag
  have hnull := query_execute_null_iff E env w self multiple operation sets
  rcases query_execute_shape E env w self multiple operation sets with h | h | h
  · obtain ⟨hl, hc, hn⟩ := h
    exact ⟨[], by simp [hl], by simp, by simp, by simp⟩
  · obtain ⟨hdec, hw⟩ := h
    rw [hd] at hdec hw
    simp only at hdec hw
    rcases connection_commit_cases E (reset_active E w self) hin with hb | hb
    · obtain ⟨_, herr, hfl, bevs, hlog, hsite⟩ := hb
      have hnone : (_query_execute E env w self multiple operation sets).2.2 = none := by
        rw [hnull, hw]; exact herr
      have hno_step : ∀ e ∈ pre ++ bevs, e.is_statement_step = false := by
        intro e he
        rcases List.mem_append.mp he with h1 | h1
        · exact (Event.site_none_facts (hpre_site e h1)).1
        · exact Event.site_transaction_facts (hsite e h1) (Or.inr (Or.inl rfl))
      refine ⟨pre ++ bevs, ?_, ?_, ?_, ?_⟩
      · rw [hw, hlog, hpre, List.append_assoc]
      · intro e he hs
        rw [hno_step e he] at hs; simp at hs
      · rintro ⟨e, he, hs⟩
        rw [hno_step e he] at hs; simp at hs
      · intro _
        refine ⟨hno_step, ?_, hnone⟩
        rw [hw, hfl]
    · rw [hb.1] at hdec; simp at hdec
  · obtain ⟨hdec, hcalm⟩ := h
    rw [hd] at hdec hcalm
    simp only at hdec hcalm
    rcases connection_commit_cases E (reset_active E w self) hin with hb | hb
    · rw [hb.1] at hdec; simp at hdec
    · obtain ⟨_, hfl, _, st, c, hlog⟩ := hb
      obtain ⟨_, hkeep, post, hpost, hquiet⟩ := hcalm
      rw [hfl] at hquiet hkeep
      refine ⟨pre ++ ([Event.prepare Site.commit "COMMIT" SQLITE_OK,
        Event.step Site.commit st SQLITE_DONE true c,
        Event.finalize Site.commit st SQLITE_OK] ++ post), ?_, ?_, ?_, ?_⟩
      · rw [hpost, hlog, hpre]; simp
      · intro e he hs
        rcases List.mem_append.mp he with h1 | h1
        · rw [(Event.site_none_facts (hpre_site e h1)).1] at hs; simp at hs
        · rcases List.mem_append.mp h1 with h2 | h2
          · simp only [List.mem_cons, List.mem_singleton, List.not_mem_nil, or_false] at h2
            rcases h2 with h2 | h2 | h2 <;> rw [h2] at hs <;> simp [Event.is_statement_step] at hs
          · exact (Event.quiet_facts (hquiet e h2)).1 hs
      · intro _
        refine ⟨pre ++ [Event.prepare Site.commit "COMMIT" SQLITE_OK],
          Event.finalize Site.commit st SQLITE_OK :: post, st, c, by simp, ?_⟩
        intro x hx
        rcases List.mem_append.mp hx with h1 | h1
        · exact (Event.site_none_facts (hpre_site x h1)).1
        · rw [List.mem_singleton.mp h1]; rfl
      · rintro ⟨e, he, hf⟩
        exfalso
        rcases List.mem_append.mp he with h1 | h1
        · rw [(Event.site_none_facts (hpre_site e h1)).2.1] at hf; simp at hf
        · rcases List.mem_append.mp h1 with h2 | h2
          · simp only [List.mem_cons, List.mem_singleton, List.not_mem_nil, or_false] at h2
            rcases h2 with h2 | h2 | h2 <;> rw [h2] at hf <;>
              simp [Event.is_failed_call, SQLITE_OK, SQLITE_DONE] at hf
          · exact ((Event.quiet_facts (hquiet e h2)).2 _ (Event.failed_call_site hf)).2.1 rfl

/-- C2, witness: a CREATE TABLE on a connection in implicit-begin mode with a
transaction open. -/
theorem implicit_commit_before_other_witness :
    ({ World.fresh Script.idle with
        conn := { Connection.fresh with inTransaction := true } } : World Script).conn.begin_statement
      = true ∧
    detect_statement_type "CREATE TABLE t(x)" = STATEMENT_OTHER ∧
    ∃ evs, (cursor_execute scripted env64
        { World.fresh Script.idle with conn := { Connection.fresh with inTransaction := true } }
        Cursor.fresh "CREATE TABLE t(x)" none).1.log = [] ++ evs ∧
      ∀ e ∈ evs, e.is_statement_step = true → e.flag = some false :=
  ⟨rfl, by decide,
    (implicit_commit_before_other scripted env64
      { World.fresh Script.idle with conn := { Connection.fresh with inTransaction := true } }
      Cursor.fresh false "CREATE TABLE t(x)" [Params.seq []] _ rfl rfl rfl (by decide)).imp
      (fun _ h => ⟨h.1, h.2.1⟩)⟩

/-- C3, failing input: with implicit begin switched off, executemany of a SELECT that
yields no row is not rejected: the statement is stepped and the call returns
success. -/
theorem executemany_select_runs_when_mode_off :
    detect_statement_type "SELECT x FROM t WHERE 0" = STATEMENT_SELECT ∧
    (cursor_executemany scripted env64 World.implicit_begin_off Cursor.fresh
      "SELECT x FROM t WHERE 0" [Params.seq []]).2.2 = some PyObj.none ∧
    (cursor_executemany scripted env64 World.implicit_begin_off Cursor.fresh
      "SELECT x FROM t WHERE 0" [Params.seq []]).1.err = none ∧
    Event.step Site.execute 0 SQLITE_DONE false 0 ∈
      (cursor_executemany scripted env64 World.implicit_begin_off Cursor.fresh
        "SELECT x FROM t WHERE 0" [Params.seq []]).1.log := by
  refine ⟨by decide, by decide, by decide, by decide⟩

/-- C5, failing input: the step after the recompile fails again, yet execute returns
success with no exception pending, and rowcount is updated from the engine's counter
as if the statement had run. -/
theorem second_step_failure_reported_as_success :
    (cursor_execute scripted env64 (World.fresh Script.schema_then_error) Cursor.fresh
      "UPDATE t SET x = 1" none).1.log =
      [Event.prepare Site.begin "BEGIN" SQLITE_OK,
       Event.step Site.begin 0 SQLITE_DONE false 0,
       Event.finalize Site.begin 0 SQLITE_OK,
       Event.prepare Site.execute "UPDATE t SET x = 1" SQLITE_OK,
       Event.reset 1 SQLITE_OK,
       Event.step Site.execute 1 1 true 0,
       Event.reset 1 SQLITE_SCHEMA,
       Event.recompile 1 SQLITE_OK,
       Event.step Site.retry 1 1 true 5] ∧
    (cursor_execute scripted env64 (World.fresh Script.schema_then_error) Cursor.fresh
      "UPDATE t SET x = 1" none).2.2 = some PyObj.none ∧
    (cursor_execute scripted env64 (World.fresh Script.schema_then_error) Cursor.fresh
      "UPDATE t SET x = 1" none).1.err = none ∧
    (cursor_execute scripted env64 (World.fresh Script.schema_then_error) Cursor.fresh
      "UPDATE t SET x = 1" none).2.1.rowcount = 5 := by
  refine ⟨by decide, by decide, by decide, by decide⟩

/-- C9, failing input: on a platform whose long has 32 bits, a successful INSERT
whose rowid is 2^31 leaves lastrowid = -2^31, not the engine's last_insert_rowid. -/
theorem lastrowid_truncated_to_long :
    detect_statement_type "INSERT INTO t(rowid) VALUES (2147483648)" = STATEMENT_INSERT ∧
    scripted.last_insert_rowid
      (cursor_execute scripted env32 (World.fresh { Script.idle with rowid := 2147483648 })
        Cursor.fresh "INSERT INTO t(rowid) VALUES (2147483648)" none).1.eng = 2147483648 ∧
    (cursor_execute scripted env32 (World.fresh { Script.idle with rowid := 2147483648 })
      Cursor.fresh "INSERT INTO t(rowid) VALUES (2147483648)" none).2.2 = some PyObj.none ∧
    (cursor_execute scripted env32 (World.fresh { Script.idle with rowid := 2147483648 })
      Cursor.fresh "INSERT INTO t(rowid) VALUES (2147483648)" none).2.1.lastrowid =
      some (-2147483648) := by
  refine ⟨by decide, by decide, by decide, by decide⟩

/-! ## Binding -/

theorem BindOnly.unchanged (w : World σ) : BindOnly w w :=
  ⟨rfl, rfl, rfl, [], by simp, by simp⟩

theorem BindOnly.andAlso {a b c : World σ} (h1 : BindOnly a b) (h2 : BindOnly b c) :
    BindOnly a c := by
  obtain ⟨a1, a2, a3, e1, l1, q1⟩ := h1
  obtain ⟨b1, b2, b3, e2, l2, q2⟩ := h2
  refine ⟨b1.trans a1, b2.trans a2, b3.trans a3, e1 ++ e2, ?_, ?_⟩
  · rw [l2, l1, List.append_assoc]
  · intro e he
    rcases List.mem_append.mp he with h | h
    · exact q1 e h
    · exact q2 e h

theorem bindonly_eng_bind (E : Engine σ) (w : World σ) (st pos : Nat) (v : SqlValue) :
    BindOnly w (eng_bind E w st pos v).1 := by
  refine ⟨rfl, rfl, rfl, [Event.bind st pos v _], rfl, ?_⟩
  intro e he
  rw [List.mem_singleton.mp he]; rfl

theorem bindonly_raise (w : World σ) (e : PyErr) : BindOnly w (w.raise e) :=
  ⟨rfl, rfl, rfl, [], by simp [World.raise], by simp⟩

theorem bindonly_clear_err (w : World σ) : BindOnly w w.clear_err :=
  ⟨rfl, rfl, rfl, [], by simp [World.clear_err], by simp⟩

theorem bindonly_bind_parameter (E : Engine σ) (w : World σ) (id pos : Nat) (p : PyObj) :
    BindOnly w (_bind_parameter E w id pos p).1 := by
  cases p <;> simp only [_bind_parameter]
  case none => exact bindonly_eng_bind E w _ _ _
  case int v => exact bindonly_eng_bind E w _ _ _
  case long v =>
    split
    · exact bindonly_eng_bind E w _ _ _
    · exact (bindonly_raise w _).andAlso (bindonly_eng_bind E _ _ _ _)
  case float b => exact bindonly_eng_bind E w _ _ _
  case buffer bytes readable =>
    split
    · exact bindonly_eng_bind E w _ _ _
    · exact bindonly_raise w _
  case str bytes => exact bindonly_eng_bind E w _ _ _
  case unicode s => exact bindonly_eng_bind E w _ _ _
  case other t => exact BindOnly.unchanged w

theorem bindonly_adapt_parameter (env : Env) (w : World σ) (p : PyObj) :
    BindOnly w (adapt_parameter env w p).1 := by
  simp only [adapt_parameter]
  split
  · exact BindOnly.unchanged w
  · exact bindonly_clear_err w

theorem bindonly_bind_named (E : Engine σ) (env : Env) (id : Nat)
    (parameters : List (String × PyObj)) (idx : List Nat) (w : World σ) :
    BindOnly w (bind_named E env id parameters idx w).1 := by
  induction idx generalizing w with
  | nil => exact BindOnly.unchanged w
  | cons i rest ih =>
    simp only [bind_named]
    split
    · exact bindonly_raise w _
    · split
      · exact bindonly_raise w _
      · split
        · exact ((bindonly_adapt_parameter env w _).andAlso
            (bindonly_bind_parameter E _ _ _ _)).andAlso (bindonly_raise _ _)
        · exact ((bindonly_adapt_parameter env w _).andAlso
            (bindonly_bind_parameter E _ _ _ _)).andAlso (ih _)

theorem bindonly_bind_positional (E : Engine σ) (env : Env) (id : Nat) (i : Nat)
    (items : List PyObj) (w : World σ) : BindOnly w (bind_positional E env id i items w).1 := by
  induction items generalizing w i with
  | nil => exact BindOnly.unchanged w
  | cons p rest ih =>
    simp only [bind_positional]
    split
    · exact ((bindonly_adapt_parameter env w _).andAlso
        (bindonly_bind_parameter E _ _ _ _)).andAlso (bindonly_raise _ _)
    · exact ((bindonly_adapt_parameter env w _).andAlso
        (bindonly_bind_parameter E _ _ _ _)).andAlso (ih _ _)

theorem bindonly_bind_parameters (E : Engine σ) (env : Env) (w : World σ) (id npn : Nat)
    (parameters : Params) : BindOnly w (bind_parameters E env w id npn parameters).1 := by
  cases parameters <;> simp only [bind_parameters]
  case dict items => exact bindonly_bind_named E env id items _ w
  case seq items =>
    split
    · exact bindonly_raise w _
    · exact bindonly_bind_positional E env id 0 items w
  case not_a_sequence => exact bindonly_raise w _

/-- Placeholder names seen after `_bind_parameter` are those seen before. -/
theorem names_after_bind_parameter (E : Engine σ) (w : World σ) (id pos : Nat) (p : PyObj)
    (hst : NamesStable E (w.stmt id).st) (j : Nat) :
    E.bind_parameter_name (_bind_parameter E w id pos p).1.eng (w.stmt id).st j =
      E.bind_parameter_name w.eng (w.stmt id).st j := by
  cases p <;> simp only [_bind_parameter]
  case none => exact hst _ _ _ _
  case int v => exact hst _ _ _ _
  case long v =>
    split
    · exact hst _ _ _ _
    · exact hst _ _ _ _
  case float b => exact hst _ _ _ _
  case buffer bytes readable =>
    split
    · exact hst _ _ _ _
    · rfl
  case str bytes => exact hst _ _ _ _
  case unicode s => exact hst _ _ _ _

theorem adapt_parameter_eng (env : Env) (w : World σ) (p : PyObj) :
    (adapt_parameter env w p).1.eng = w.eng ∧ (adapt_parameter env w p).1.heap = w.heap := by
  simp only [adapt_parameter]
  split <;> exact ⟨rfl, rfl⟩

/-- How the dictionary branch fails: an unnamed placeholder, a missing value, or a
rejected bind. -/
theorem bind_named_failure (E : Engine σ) (env : Env) (id : Nat)
    (parameters : List (String × PyObj)) (idx : List Nat) (w : World σ)
    (h : (bind_named E env id parameters idx w).2 = false) :
    (∃ i, (bind_named E env id parameters idx w).1.err = some (PyErr.binding_has_no_name i)) ∨
    (∃ i, (bind_named E env id parameters idx w).1.err = some (PyErr.binding_not_supplied i)) ∨
    (∃ n, (bind_named E env id parameters idx w).1.err =
      some (PyErr.binding_unsupported_named n)) := by
  induction idx generalizing w with
  | nil => simp [bind_named] at h
  | cons i rest ih =>
    simp only [bind_named] at h ⊢
    split
    · exact Or.inl ⟨i, rfl⟩
    · split
      · exact Or.inr (Or.inl ⟨i, rfl⟩)
      · split
        · exact Or.inr (Or.inr ⟨_, rfl⟩)
        · rename_i _ fn hn _ cp hl hb
          simp only [hn, hl] at h
          rw [if_neg hb] at h
          exact ih _ h

theorem stmt_mark_dirty_st (w : World σ) (id : Nat) :
    ((statement_mark_dirty w id).stmt id).st = (w.stmt id).st ∧
    (statement_mark_dirty w id).eng = w.eng ∧ (statement_mark_dirty w id).log = w.log ∧
    (statement_mark_dirty w id).err = w.err := by
  refine ⟨?_, rfl, rfl, rfl⟩
  simp [statement_mark_dirty, World.stmt, heap_set]

/-- One turn of the dictionary branch leaves the statement handle and the names of
its placeholders as they were. -/
theorem bind_named_turn (E : Engine σ) (env : Env) (w : World σ) (id i : Nat) (cp : PyObj)
    (hst : NamesStable E (w.stmt id).st) :
    ((_bind_parameter E (adapt_parameter env w cp).1 id i (adapt_parameter env w cp).2).1.stmt id).st
      = (w.stmt id).st ∧
    ∀ j, E.bind_parameter_name
        (_bind_parameter E (adapt_parameter env w cp).1 id i (adapt_parameter env w cp).2).1.eng
        (w.stmt id).st j = E.bind_parameter_name w.eng (w.stmt id).st j := by
  have ha := adapt_parameter_eng env w cp
  have hb := (bindonly_bind_parameter E (adapt_parameter env w cp).1 id i
    (adapt_parameter env w cp).2).1
  have hs : ((adapt_parameter env w cp).1.stmt id) = w.stmt id := by
    simp only [World.stmt, ha.2]
  constructor
  · simp only [World.stmt, hb, ha.2]
  · intro j
    have := names_after_bind_parameter E (adapt_parameter env w cp).1 id i
      (adapt_parameter env w cp).2 (by rw [hs]; exact hst) j
    rw [hs, ha.1] at this
    exact this

/-- A mapping that lacks the value of a named placeholder among the bindings still to
do makes the dictionary branch fail. -/
theorem bind_named_missing (E : Engine σ) (env : Env) (id : Nat)
    (parameters : List (String × PyObj)) (idx : List Nat) (w : World σ)
    (hst : NamesStable E (w.stmt id).st) (i : Nat) (n : String) (hi : i ∈ idx)
    (hn : E.bind_parameter_name w.eng (w.stmt id).st i = some n)
    (hl : parameters.lookup (n.drop 1) = none) :
    (bind_named E env id parameters idx w).2 = false := by
  induction idx generalizing w with
  | nil => simp at hi
  | cons j rest ih =>
    simp only [bind_named]
    split
    · rfl
    · split
      · rfl
      · split
        · rfl
        · rename_i _ fn hfn _ cp hcp hb
          have ht := bind_named_turn E env w id j cp hst
          rcases List.mem_cons.mp hi with h | h
          · subst h
            rw [hn] at hfn
            cases hfn
            rw [hl] at hcp
            cases hcp
          · apply ih _ (by rw [ht.1]; exact hst) h
            · rw [ht.1, ht.2]; exact hn

/-- A mapping holding a value for every named placeholder is never rejected for a
missing value: the dictionary branch can only fail on an unnamed placeholder or on a
rejected bind. -/
theorem bind_named_covering (E : Engine σ) (env : Env) (id : Nat)
    (parameters : List (String × PyObj)) (idx : List Nat) (w : World σ)
    (hst : NamesStable E (w.stmt id).st)
    (hcov : ∀ i n, i ∈ idx → E.bind_parameter_name w.eng (w.stmt id).st i = some n →
      (parameters.lookup (n.drop 1)).isSome = true)
    (h : (bind_named E env id parameters idx w).2 = false) :
    (∃ i, (bind_named E env id parameters idx w).1.err = some (PyErr.binding_has_no_name i)) ∨
    (∃ m, (bind_named E env id parameters idx w).1.err =
      some (PyErr.binding_unsupported_named m)) := by
  induction idx generalizing w with
  | nil => simp [bind_named] at h
  | cons j rest ih =>
    simp only [bind_named] at h ⊢
    split
    · exact Or.inl ⟨j, rfl⟩
    · split
      · rename_i _ fn hfn _ hcp
        have := hcov j fn (List.mem_cons_self _ _) hfn
        rw [hcp] at this
        simp at this
      · split
        · exact Or.inr ⟨_, rfl⟩
        · rename_i _ fn hfn _ cp hcp hb
          simp only [hfn, hcp] at h
          rw [if_neg hb] at h
          have ht := bind_named_turn E env w id j cp hst
          apply ih _ (by rw [ht.1]; exact hst) _ h
          intro i n hi hn
          rw [ht.1, ht.2] at hn
          exact hcov i n (List.mem_cons_of_mem _ hi) hn

/-- The sequence branch can only fail on a rejected bind. -/
theorem bind_positional_failure (E : Engine σ) (env : Env) (id : Nat) (i : Nat)
    (items : List PyObj) (w : World σ) (h : (bind_positional E env id i items w).2 = false) :
    ∃ k, (bind_positional E env id i items w).1.err =
      some (PyErr.binding_unsupported_positional k) := by
  induction items generalizing w i with
  | nil => simp [bind_positional] at h
  | cons p rest ih =>
    simp only [bind_positional] at h ⊢
    split
    · exact ⟨i, rfl⟩
    · rename_i hb
      rw [if_neg hb] at h
      exact ih _ _ h

/-- Where the dictionary branch stops when the mapping lacks the value of the named
placeholder `i`: at `i` itself or at a binding done before it, and in the latter case
possibly on a rejected bind. -/
theorem bind_named_missing_where (E : Engine σ) (env : Env) (id : Nat)
    (parameters : List (String × PyObj)) (pre post : List Nat) (w : World σ)
    (hst : NamesStable E (w.stmt id).st) (i : Nat) (n : String)
    (hn : E.bind_parameter_name w.eng (w.stmt id).st i = some n)
    (hl : parameters.lookup (n.drop 1) = none) :
    ∃ j, (j = i ∨ j ∈ pre) ∧
      ((bind_named E env id parameters (pre ++ i :: post) w).1.err =
          some (PyErr.binding_has_no_name j) ∨
       (bind_named E env id parameters (pre ++ i :: post) w).1.err =
          some (PyErr.binding_not_supplied j) ∨
       (j ∈ pre ∧ ∃ m, E.bind_parameter_name w.eng (w.stmt id).st j = some m ∧
          (bind_named E env id parameters (pre ++ i :: post) w).1.err =
            some (PyErr.binding_unsupported_named (m.drop 1)))) := by
  induction pre generalizing w with
  | nil =>
    refine ⟨i, Or.inl rfl, Or.inr (Or.inl ?_)⟩
    simp only [List.nil_append, bind_named, hn, hl]
    rfl
  | cons j rest ih =>
    simp only [List.cons_append, bind_named]
    split
    · exact ⟨j, Or.inr (List.mem_cons_self _ _), Or.inl rfl⟩
    · split
      · exact ⟨j, Or.inr (List.mem_cons_self _ _), Or.inr (Or.inl rfl)⟩
      · split
        · rename_i _ fn hfn _ cp hcp hb
          exact ⟨j, Or.inr (List.mem_cons_self _ _),
            Or.inr (Or.inr ⟨List.mem_cons_self _ _, fn, hfn, rfl⟩)⟩
        · rename_i _ fn hfn _ cp hcp hb
          have ht := bind_named_turn E env w id j cp hst
          obtain ⟨k, hk, hcase⟩ := ih _ (by rw [ht.1]; exact hst) (by rw [ht.1, ht.2]; exact hn)
          refine ⟨k, ?_, ?_⟩
          · rcases hk with h | h
            · exact Or.inl h
            · exact Or.inr (List.mem_cons_of_mem _ h)
          · rcases hcase with h | h | ⟨hm, m, hnm, herr⟩
            · exact Or.inl h
            · exact Or.inr (Or.inl h)
            · refine Or.inr (Or.inr ⟨List.mem_cons_of_mem _ hm, m, ?_, herr⟩)
              rw [ht.1, ht.2] at hnm
              exact hnm

/-- The binding indices 1..n split around any index i of that range. -/
theorem range_split (n i : Nat) (h1 : 1 ≤ i) (h2 : i ≤ n) :
    List.range' 1 n = List.range' 1 (i - 1) ++ i :: List.range' (i + 1) (n - i) := by
  have h := List.range'_append_1 1 (i - 1) (n - i + 1)
  have e1 : 1 + (i - 1) = i := by omega
  have e2 : n - i + 1 + (i - 1) = n := by omega
  rw [e1, e2, List.range'_succ] at h
  exact h.symm

/-! ## Unfolding `_query_execute` once the prologue has reached the loop -/

theorem query_execute_unfold (E : Engine σ) (env : Env) (w : World σ) (self : Cursor)
    (multiple : Bool) (operation : String) (sets : List Params) (w0 : World σ) (c0 : Cursor)
    (npn : Nat) (hchk : (check_thread_and_connection w).2 = true)
    (hpro : query_prologue E env w self multiple operation = ((w0, c0), some npn)) :
    _query_execute E env w self multiple operation sets =
      query_return
        (query_loop E env (detect_statement_type operation) multiple npn sets
          { w := w0, self := c0, rowcount := 0 }).w
        (query_loop E env (detect_statement_type operation) multiple npn sets
          { w := w0, self := c0, rowcount := 0 }).self := by
  simp only [_query_execute, hchk, check_pass w hchk, hpro, Bool.not_true, Bool.false_eq_true,
    if_false]

theorem query_loop_single (E : Engine σ) (env : Env) (k : StatementKind) (multiple : Bool)
    (npn : Nat) (p : Params) (s : LoopState σ) :
    query_loop E env k multiple npn [p] s = (query_body E env k multiple npn p s).1 := by
  simp only [query_loop]
  split <;> rfl

/-- When the prologue reaches the loop the cursor holds a statement. -/
theorem query_prologue_statement (E : Engine σ) (env : Env) (w : World σ) (self : Cursor)
    (multiple : Bool) (operation : String) (w0 : World σ) (c0 : Cursor) (npn : Nat)
    (hpro : query_prologue E env w self multiple operation = ((w0, c0), some npn)) :
    ∃ id, c0.statement = some id := by
  simp only [query_prologue] at hpro
  split at hpro
  · simp at hpro
  · split at hpro
    · simp at hpro
    · split at hpro
      · simp at hpro
      · rename_i id hid
        simp only [Prod.mk.injEq] at hpro
        rw [← hpro.1.2]
        exact ⟨id, hid⟩

theorem query_body_bind_fail (E : Engine σ) (env : Env) (k : StatementKind) (multiple : Bool)
    (npn : Nat) (p : Params) (s : LoopState σ) (id : Nat) (hs : s.self.statement = some id)
    (hb : (bind_parameters E env (statement_mark_dirty s.w id) id npn p).2 = false) :
    query_body E env k multiple npn p s =
      ({ s with w := (bind_parameters E env (statement_mark_dirty s.w id) id npn p).1 }, false)
    := by
  simp only [query_body, bind_phase, hs, hb, Bool.not_false, if_true]

theorem query_body_bind_ok (E : Engine σ) (env : Env) (k : StatementKind) (multiple : Bool)
    (npn : Nat) (p : Params) (s : LoopState σ) (id : Nat) (hs : s.self.statement = some id)
    (hb : (bind_parameters E env (statement_mark_dirty s.w id) id npn p).2 = true) :
    query_body E env k multiple npn p s =
      step_phase E env k multiple id
        { s with
          w := (bind_parameters E env (statement_mark_dirty s.w id) id npn p).1,
          self := build_row_cast_map E env
            (bind_parameters E env (statement_mark_dirty s.w id) id npn p).1 s.self id } := by
  simp only [query_body, bind_phase, hs, hb, Bool.not_true, Bool.false_eq_true, if_false]

theorem step_with_schema_retry_after (E : Engine σ) (w : World σ) (id : Nat) :
    Calm (eng_step E Site.execute w (w.stmt id).st).1 (step_with_schema_retry E w id).1 := by
  simp only [step_with_schema_retry]
  split
  · split
    · split
      · exact ((calm_statement_reset E _ id).andThen (calm_statement_recompile E _ id)).andThen
          (calm_eng_step E _ _ _ (Or.inr (Or.inl rfl)))
      · exact ((calm_statement_reset E _ id).andThen (calm_statement_recompile E _ id)).andThen
          (calm_seterror _)
    · exact (calm_statement_reset E _ id).andThen (calm_seterror _)
  · exact Calm.still _

theorem step_phase_after (E : Engine σ) (env : Env) (k : StatementKind) (multiple : Bool)
    (id : Nat) (s : LoopState σ) :
    Calm (step_with_schema_retry E s.w id).1 (step_phase E env k multiple id s).1.w := by
  simp only [step_phase]
  split
  · exact Calm.still _
  · exact calm_finish_step E env k multiple id _ _

/-- The step phase always steps the statement: its trace starts with that step. -/
theorem step_phase_steps (E : Engine σ) (env : Env) (k : StatementKind) (multiple : Bool)
    (id : Nat) (s : LoopState σ) :
    ∃ e evs, (step_phase E env k multiple id s).1.w.log = s.w.log ++ e :: evs ∧
      e.is_statement_step = true ∧ e.flag = some s.w.conn.inTransaction := by
  obtain ⟨_, _, evs, hl, _⟩ :=
    (step_with_schema_retry_after E s.w id).andThen (step_phase_after E env k multiple id s)
  refine ⟨Event.step Site.execute (s.w.stmt id).st (E.step s.w.eng (s.w.stmt id).st).2
    s.w.conn.inTransaction (E.changes (E.step s.w.eng (s.w.stmt id).st).1), evs, ?_, rfl, rfl⟩
  rw [hl]; simp [eng_step]

/-- C10, counterexample: the mapping lacks a value for the named placeholder `:b`,
but the value it gives for `:a` is of an unsupported type; execute fails with the
InterfaceError of that bind, not with ProgrammingError. -/
theorem missing_name_after_rejected_bind :
    scripted.bind_parameter_name { Script.idle with param_names := [some ":a", some ":b"] } 0 2
      = some ":b" ∧
    List.lookup ((":b" : String).drop 1) [("a", PyObj.other 0)] = none ∧
    (cursor_execute scripted env64
      (World.fresh { Script.idle with param_names := [some ":a", some ":b"] }) Cursor.fresh
      "SELECT :a, :b" (some (Params.dict [("a", PyObj.other 0)]))).2.2 = none ∧
    (cursor_execute scripted env64
      (World.fresh { Script.idle with param_names := [some ":a", some ":b"] }) Cursor.fresh
      "SELECT :a, :b" (some (Params.dict [("a", PyObj.other 0)]))).1.err =
      some (PyErr.binding_unsupported_named "a") ∧
    (PyErr.binding_unsupported_named "a").cls = PyExcClass.InterfaceError := by
  refine ⟨by decide, by decide, by decide, by decide, rfl⟩

/-- C10, amended: once execute has acquired its statement (`w0`, `c0` are the world
and cursor at the start of the parameter loop, `npn` the required parameter count):
a positional sequence of another length makes execute fail with the ProgrammingError
for the count, nothing being bound or stepped; a mapping that lacks the value of a
named placeholder makes execute fail without a step of the statement, with
ProgrammingError unless the bind of an earlier placeholder was rejected first (then
with the InterfaceError of that bind); a sequence of exactly the required length and
a mapping covering every placeholder name are stepped, or fail on a rejected bind or
(mapping) an unnamed placeholder, never on the count or a missing value. -/
theorem binding_rejections (E : Engine σ) (env : Env) (w : World σ) (self : Cursor)
    (operation : String) (p : Params) (w0 : World σ) (c0 : Cursor) (npn : Nat)
    (r : World σ × Cursor × Option PyObj)
    (hr : r = cursor_execute E env w self operation (some p))
    (hchk : (check_thread_and_connection w).2 = true)
    (hpro : query_prologue E env w self false operation = ((w0, c0), some npn)) :
    ∃ id, c0.statement = some id ∧
      (∀ items, p = Params.seq items → (items.length : Int) ≠ (npn : Int) →
        r.2.2 = none ∧ r.1.err = some (PyErr.binding_count npn items.length) ∧
        (PyErr.binding_count npn items.length).cls = PyExcClass.ProgrammingError ∧
        r.1.log = w0.log) ∧
      (∀ items i n, p = Params.dict items → NamesStable E (w0.stmt id).st →
        1 ≤ i → i ≤ npn → E.bind_parameter_name w0.eng (w0.stmt id).st i = some n →
        items.lookup (n.drop 1) = none →
        r.2.2 = none ∧
        (∃ evs, r.1.log = w0.log ++ evs ∧ ∀ e ∈ evs, e.is_statement_step = false) ∧
        ∃ e, r.1.err = some e ∧
          (e.cls = PyExcClass.ProgrammingError ∨
            ∃ j m, 1 ≤ j ∧ j < i ∧ E.bind_parameter_name w0.eng (w0.stmt id).st j = some m ∧
              e = PyErr.binding_unsupported_named (m.drop 1))) ∧
      (∀ items, p = Params.seq items → items.length = npn →
        (∃ evs e, r.1.log = w0.log ++ evs ∧ e ∈ evs ∧ e.is_statement_step = true) ∨
        (r.2.2 = none ∧ ∃ k, r.1.err = some (PyErr.binding_unsupported_positional k))) ∧
      (∀ items, p = Params.dict items → NamesStable E (w0.stmt id).st →
        (∀ i n, 1 ≤ i → i ≤ npn → E.bind_parameter_name w0.eng (w0.stmt id).st i = some n →
          (items.lookup (n.drop 1)).isSome = true) →
        (∃ evs e, r.1.log = w0.log ++ evs ∧ e ∈ evs ∧ e.is_statement_step = true) ∨
        (r.2.2 = none ∧ ((∃ k, r.1.err = some (PyErr.binding_has_no_name k)) ∨
          ∃ m, r.1.err = some (PyErr.binding_unsupported_named m)))) := by
  obtain ⟨id, hid⟩ := query_prologue_statement E env w self false operation w0 c0 npn hpro
  have hunf : r = query_return
      (query_body E env (detect_statement_type operation) false npn p
        { w := w0, self := c0, rowcount := 0 }).1.w
      (query_body E env (detect_statement_type operation) false npn p
        { w := w0, self := c0, rowcount := 0 }).1.self := by
    rw [hr, cursor_execute, query_execute_unfold E env w self false operation _ w0 c0 npn hchk hpro,
      Option.getD_some, query_loop_single]
  have hmd := stmt_mark_dirty_st w0 id
  -- the two ways the call ends
  have hfail : (bind_parameters E env (statement_mark_dirty w0 id) id npn p).2 = false →
      r.1 = (bind_parameters E env (statement_mark_dirty w0 id) id npn p).1 ∧
      (r.2.2 = none ↔ (bind_parameters E env (statement_mark_dirty w0 id) id npn p).1.err.isSome
        = true) := by
    intro hb
    have hq := query_body_bind_fail E env (detect_statement_type operation) false npn p
      { w := w0, self := c0, rowcount := 0 } id hid hb
    rw [hunf, hq]
    exact ⟨(query_return_world _ _).1, (query_return_world _ _).2.2⟩
  have hok : (bind_parameters E env (statement_mark_dirty w0 id) id npn p).2 = true →
      ∃ evs e, r.1.log = w0.log ++ evs ∧ e ∈ evs ∧ e.is_statement_step = true := by
    intro hb
    have hq := query_body_bind_ok E env (detect_statement_type operation) false npn p
      { w := w0, self := c0, rowcount := 0 } id hid hb
    obtain ⟨_, _, _, bevs, hbl, _⟩ := bindonly_bind_parameters E env (statement_mark_dirty w0 id)
      id npn p
    obtain ⟨e, evs, hl, he, _⟩ := step_phase_steps E env (detect_statement_type operation) false id
      { w := (bind_parameters E env (statement_mark_dirty w0 id) id npn p).1,
        self := build_row_cast_map E env
          (bind_parameters E env (statement_mark_dirty w0 id) id npn p).1 c0 id,
        rowcount := 0 }
    rw [hunf, hq, (query_return_world _ _).1, hl]
    simp only [hbl, hmd.2.2.1]
    exact ⟨bevs ++ e :: evs, e, by rw [List.append_assoc],
      List.mem_append_right _ (List.mem_cons_self _ _), he⟩
  refine ⟨id, hid, ?_, ?_, ?_, ?_⟩
  · -- wrong length
    intro items hp hlen
    subst hp
    have hb : (bind_parameters E env (statement_mark_dirty w0 id) id npn (Params.seq items)).2
        = false := by
      simp only [bind_parameters, hlen, ne_eq, not_false_eq_true, if_true]
    have hw : (bind_parameters E env (statement_mark_dirty w0 id) id npn (Params.seq items)).1
        = (statement_mark_dirty w0 id).raise (PyErr.binding_count npn items.length) := by
      simp only [bind_parameters, hlen, ne_eq, not_false_eq_true, if_true]
    obtain ⟨h1, h2⟩ := hfail hb
    refine ⟨?_, ?_, rfl, ?_⟩
    · rw [h2, hw]; rfl
    · rw [h1, hw]; rfl
    · rw [h1, hw]; exact hmd.2.2.1
  · -- a missing value
    intro items i n hp hst h1i hin hn hl
    subst hp
    have hst' : NamesStable E ((statement_mark_dirty w0 id).stmt id).st := by
      rw [hmd.1]; exact hst
    have hn' : E.bind_parameter_name (statement_mark_dirty w0 id).eng
        ((statement_mark_dirty w0 id).stmt id).st i = some n := by
      rw [hmd.1, hmd.2.1]; exact hn
    have hmem : i ∈ List.range' 1 npn := by
      rw [List.mem_range'_1]; omega
    have hb : (bind_parameters E env (statement_mark_dirty w0 id) id npn (Params.dict items)).2
        = false := by
      simp only [bind_parameters]
      exact bind_named_missing E env id items _ _ hst' i n hmem hn' hl
    obtain ⟨hw1, hnull⟩ := hfail hb
    obtain ⟨j, hj, hcase⟩ := bind_named_missing_where E env id items
      (List.range' 1 (i - 1)) (List.range' (i + 1) (npn - i)) (statement_mark_dirty w0 id)
      hst' i n hn' hl
    rw [← range_split npn i h1i hin] at hcase
    have hbp : (bind_parameters E env (statement_mark_dirty w0 id) id npn (Params.dict items)).1
        = (bind_named E env id items (List.range' 1 npn) (statement_mark_dirty w0 id)).1 := by
      simp only [bind_parameters]
    obtain ⟨_, _, _, bevs, hbl, hbs⟩ := bindonly_bind_parameters E env
      (statement_mark_dirty w0 id) id npn (Params.dict items)
    have herr : ∃ e, r.1.err = some e ∧
        (e.cls = PyExcClass.ProgrammingError ∨
          ∃ j m, 1 ≤ j ∧ j < i ∧ E.bind_parameter_name w0.eng (w0.stmt id).st j = some m ∧
            e = PyErr.binding_unsupported_named (m.drop 1)) := by
      rw [hw1, hbp]
      rcases hcase with h | h | ⟨hjm, m, hm, h⟩
      · exact ⟨_, h, Or.inl rfl⟩
      · exact ⟨_, h, Or.inl rfl⟩
      · refine ⟨_, h, Or.inr ⟨j, m, ?_, ?_, ?_, rfl⟩⟩
        · rw [List.mem_range'_1] at hjm; omega
        · rw [List.mem_range'_1] at hjm; omega
        · rw [hmd.1, hmd.2.1] at hm; exact hm
    refine ⟨?_, ⟨bevs, ?_, ?_⟩, herr⟩
    · rw [hnull]
      obtain ⟨e, he, _⟩ := herr
      rw [hw1] at he
      rw [he]; rfl
    · rw [hw1, hbl, hmd.2.2.1]
    · intro e he
      exact (Event.site_none_facts (hbs e he)).1
  · -- exact length
    intro items hp hlen
    subst hp
    cases hb : (bind_parameters E env (statement_mark_dirty w0 id) id npn (Params.seq items)).2
    · right
      obtain ⟨hw1, hnull⟩ := hfail hb
      have hb' := hb
      simp only [bind_parameters, hlen, ne_eq, not_true_eq_false, if_false] at hb'
      obtain ⟨k, hk⟩ := bind_positional_failure E env id 0 items _ hb'
      have hbp : (bind_parameters E env (statement_mark_dirty w0 id) id npn (Params.seq items)).1
          = (bind_positional E env id 0 items (statement_mark_dirty w0 id)).1 := by
        simp only [bind_parameters, hlen, ne_eq, not_true_eq_false, if_false]
      refine ⟨?_, k, ?_⟩
      · rw [hnull, hbp, hk]; rfl
      · rw [hw1, hbp, hk]
    · left
      exact hok hb
  · -- a covering mapping
    intro items hp hst hcov
    subst hp
    cases hb : (bind_parameters E env (statement_mark_dirty w0 id) id npn (Params.dict items)).2
    · right
      obtain ⟨hw1, hnull⟩ := hfail hb
      have hst' : NamesStable E ((statement_mark_dirty w0 id).stmt id).st := by
        rw [hmd.1]; exact hst
      have hb' := hb
      simp only [bind_parameters] at hb'
      have hbp : (bind_parameters E env (statement_mark_dirty w0 id) id npn (Params.dict items)).1
          = (bind_named E env id items (List.range' 1 npn) (statement_mark_dirty w0 id)).1 := by
        simp only [bind_parameters]
      have hc := bind_named_covering E env id items (List.range' 1 npn)
        (statement_mark_dirty w0 id) hst' (by
          intro i n hi hn
          rw [hmd.1, hmd.2.1] at hn
          rw [List.mem_range'_1] at hi
          exact hcov i n hi.1 (by omega) hn) hb'
      rw [hw1, hbp]
      refine ⟨?_, hc⟩
      rw [hnull, hbp]
      rcases hc with ⟨k, hk⟩ | ⟨m, hm⟩
      · rw [hk]; rfl
      · rw [hm]; rfl
    · left
      exact hok hb

/-- C10, witness: a statement with one placeholder executed with an empty tuple. -/
theorem binding_rejections_witness :
    (check_thread_and_connection
      (World.fresh { Script.idle with param_names := [none] })).2 = true ∧
    (query_prologue scripted env64 (World.fresh { Script.idle with param_names := [none] })
      Cursor.fresh false "SELECT ?").2 = some 1 ∧
    (cursor_execute scripted env64 (World.fresh { Script.idle with param_names := [none] })
      Cursor.fresh "SELECT ?" (some (Params.seq []))).1.err = some (PyErr.binding_count 1 0) :=
  ⟨by decide, by decide,
    (binding_rejections scripted env64 (World.fresh { Script.idle with param_names := [none] })
      Cursor.fresh "SELECT ?" (Params.seq []) _ _ 1 _ rfl (by decide)
      (Prod.ext rfl (by decide))).elim
      (fun _ h => (h.2.1 [] rfl (by decide)).2.1)⟩

/-! ## Row counts -/

theorem settled_changes_append (a b : List Event) :
    settled_changes (a ++ b) = settled_changes a ++ settled_changes b := by
  simp [settled_changes]

theorem settled_changes_siteless (evs : List Event) (h : ∀ e ∈ evs, e.site = none) :
    settled_changes evs = [] := by
  simp only [settled_changes, List.map_eq_nil_iff, List.filter_eq_nil_iff]
  intro e he
  have := h e he
  cases e <;> simp_all [Event.site, Event.settles]

theorem settled_bindonly {w w' : World σ} (h : BindOnly w w') :
    settled_changes w'.log = settled_changes w.log := by
  obtain ⟨_, _, _, evs, hl, hs⟩ := h
  rw [hl, settled_changes_append, settled_changes_siteless evs hs, List.append_nil]

theorem settled_statement_reset (E : Engine σ) (w : World σ) (id : Nat) :
    settled_changes (statement_reset E w id).1.log = settled_changes w.log ∧
    (statement_reset E w id).1.err = w.err := by
  simp [statement_reset, eng_reset, settled_changes_append, settled_changes, Event.settles]

/-- A failed binding leaves an exception pending. -/
theorem bind_parameters_fail_err (E : Engine σ) (env : Env) (w : World σ) (id npn : Nat)
    (p : Params) (h : (bind_parameters E env w id npn p).2 = false) :
    (bind_parameters E env w id npn p).1.err.isSome = true := by
  cases p
  case dict items =>
    simp only [bind_parameters] at h ⊢
    rcases bind_named_failure E env id items _ w h with ⟨i, hi⟩ | ⟨i, hi⟩ | ⟨n, hn⟩
    · rw [hi]; rfl
    · rw [hi]; rfl
    · rw [hn]; rfl
  case seq items =>
    simp only [bind_parameters] at h ⊢
    split
    · rfl
    · rename_i hl
      rw [if_neg hl] at h
      obtain ⟨k, hk⟩ := bind_positional_failure E env id 0 items w h
      rw [hk]; rfl
  case not_a_sequence => rfl

theorem statement_recompile_facts (E : Engine σ) (w : World σ) (id : Nat) :
    (statement_recompile E w id).1.log =
      w.log ++ [Event.recompile (w.stmt id).st (E.recompile w.eng (w.stmt id).st).2.1] ∧
    (statement_recompile E w id).1.err = w.err ∧
    (statement_recompile E w id).1.conn = w.conn := by
  simp only [statement_recompile]
  split <;> exact ⟨rfl, rfl, rfl⟩

theorem settled_eng_step (E : Engine σ) (site : Site) (w : World σ) (st : Nat) :
    settled_changes (eng_step E site w st).1.log =
      settled_changes w.log ++
        settled_changes [Event.step site st (E.step w.eng st).2 w.conn.inTransaction
          (E.changes (E.step w.eng st).1)] ∧
    (eng_step E site w st).1.err = w.err ∧
    E.changes (eng_step E site w st).1.eng = E.changes (E.step w.eng st).1 := by
  simp [eng_step, settled_changes_append]

/-- The outcome of the stepping block (lines 641-656): either it jumps to `error`
with an exception pending, or it leaves `rc` and the trace has gained exactly one
settling step, whose recorded counter is the engine's counter in the world the
block leaves. -/
theorem step_with_schema_retry_cases (E : Engine σ) (w : World σ) (id : Nat) :
    ((step_with_schema_retry E w id).2 = none ∧
      (step_with_schema_retry E w id).1.err.isSome = true) ∨
    (∃ rc, (step_with_schema_retry E w id).2 = some rc ∧
      settled_changes (step_with_schema_retry E w id).1.log =
        settled_changes w.log ++ [E.changes (step_with_schema_retry E w id).1.eng] ∧
      (step_with_schema_retry E w id).1.err = w.err) := by
  simp only [step_with_schema_retry]
  split
  · rename_i h1
    split
    · split
      · right
        refine ⟨_, rfl, ?_, ?_⟩
        · simp only [eng_step, ne_eq] at h1
          rw [(settled_eng_step E Site.retry _ _).1, (statement_recompile_facts E _ id).1,
            settled_changes_append, (settled_statement_reset E _ id).1,
            (settled_eng_step E Site.execute _ _).1, (settled_eng_step E Site.retry _ _).2.2]
          simp [settled_changes, Event.settles, Event.changes_after, h1.1, h1.2]
        · rw [(settled_eng_step E Site.retry _ _).2.1, (statement_recompile_facts E _ id).2.1,
            (settled_statement_reset E _ id).2, (settled_eng_step E Site.execute _ _).2.1]
      · left; exact ⟨rfl, rfl⟩
    · left; exact ⟨rfl, rfl⟩
  · rename_i h1
    right
    refine ⟨_, rfl, ?_, rfl⟩
    simp only [eng_step, ne_eq, not_and_or, not_not] at h1
    simp only [eng_step, settled_changes_append, settled_changes]
    rcases h1 with h | h <;>
      simp [h, Event.settles, Event.changes_after, SQLITE_ROW, SQLITE_DONE]

/-- A value in the range of a long of at least one bit is kept by the addition of
longs. -/
theorem wrap_long_fits (bits : Nat) (v : Int) (hb : 1 ≤ bits) (h : fits_long bits v = true) :
    wrap_long bits v = v := by
  simp only [fits_long, Bool.and_eq_true, decide_eq_true_eq] at h
  obtain ⟨k, rfl⟩ : ∃ k, bits = k + 1 := ⟨bits - 1, by omega⟩
  simp only [wrap_long, Nat.add_sub_cancel] at h ⊢
  have hq : (2 : Int) ^ (k + 1) = 2 ^ k * 2 := pow_succ 2 k
  have hm : (v + 2 ^ k) % 2 ^ (k + 1) = v + 2 ^ k := by
    apply Int.emod_eq_of_lt <;> omega
  rw [hm]
  omega

/-- While every running total fits a long, the total computed by the C code is the
sum. -/
theorem wrapped_total_fits (bits : Nat) (acc : Int) (L : List Int) (hb : 1 ≤ bits)
    (h : running_total_fits bits acc L = true) : wrapped_total bits acc L = acc + L.sum := by
  induction L generalizing acc with
  | nil => simp [wrapped_total]
  | cons c rest ih =>
    simp only [running_total_fits, Bool.and_eq_true] at h
    simp only [wrapped_total, wrap_long_fits bits (acc + c) hb h.1, ih (acc + c) h.2,
      List.sum_cons]
    omega

theorem update_counters_dml (E : Engine σ) (env : Env) (k : StatementKind) (s : LoopState σ)
    (hk : is_dml k = true) :
    (update_counters E env k s).rowcount =
      wrap_long env.LONG_BIT (s.rowcount + E.changes s.w.eng) ∧
    (update_counters E env k s).self.rowcount =
      wrap_long env.LONG_BIT (s.rowcount + E.changes s.w.eng) ∧
    (update_counters E env k s).self.statement = s.self.statement := by
  simp only [update_counters, hk, if_true]
  split <;> exact ⟨rfl, rfl, rfl⟩

theorem build_row_cast_map_statement (E : Engine σ) (env : Env) (w : World σ) (self : Cursor)
    (id : Nat) : (build_row_cast_map E env w self id).statement = self.statement ∧
    (build_row_cast_map E env w self id).next_row = self.next_row ∧
    (build_row_cast_map E env w self id).row_factory = self.row_factory ∧
    (build_row_cast_map E env w self id).lastrowid = self.lastrowid ∧
    (build_row_cast_map E env w self id).rowcount = self.rowcount ∧
    (build_row_cast_map E env w self id).description = self.description := by
  simp only [build_row_cast_map]
  split <;> exact ⟨rfl, rfl, rfl, rfl, rfl, rfl⟩

theorem build_description_statement (E : Engine σ) (w : World σ) (self : Cursor) (id : Nat)
    (rc : Int) (k : StatementKind) :
    (build_description E w self id rc k).statement = self.statement ∧
    (build_description E w self id rc k).next_row = self.next_row ∧
    (build_description E w self id rc k).row_factory = self.row_factory ∧
    (build_description E w self id rc k).lastrowid = self.lastrowid ∧
    (build_description E w self id rc k).rowcount = self.rowcount ∧
    (build_description E w self id rc k).row_cast_map = self.row_cast_map := by
  simp only [build_description]
  split
  · split <;> exact ⟨rfl, rfl, rfl, rfl, rfl, rfl⟩
  · exact ⟨rfl, rfl, rfl, rfl, rfl, rfl⟩

/-- What follows the step in batch mode: a row is an error; otherwise the counters
are updated and the statement is reset. -/
theorem finish_step_batch (E : Engine σ) (env : Env) (k : StatementKind) (id : Nat)
    (rc : Int) (s : LoopState σ) :
    finish_step E env k true id rc s =
      if rc = SQLITE_ROW then ({ s with w := s.w.raise PyErr.executemany_row }, false)
      else ({ update_counters E env k s with w := (statement_reset E s.w id).1 }, true) := by
  by_cases h : rc = SQLITE_ROW
  · simp [finish_step, h]
  · simp [finish_step, h, update_counters_w]

/-- One parameter set in batch mode, for a data-modification statement held by the
cursor: the turn either jumps to `error` with an exception pending, or goes on having
traced one settling step, added the engine's counter after it, as longs, to both the
running total and the cursor's rowcount, and kept the statement. -/
theorem query_body_batch (E : Engine σ) (env : Env) (k : StatementKind) (npn : Nat)
    (p : Params) (s : LoopState σ) (id : Nat) (hs : s.self.statement = some id)
    (hk : is_dml k = true) :
    ((query_body E env k true npn p s).2 = false ∧
      (query_body E env k true npn p s).1.w.err.isSome = true) ∨
    ((query_body E env k true npn p s).2 = true ∧
      (query_body E env k true npn p s).1.self.statement = some id ∧
      ∃ c, settled_changes (query_body E env k true npn p s).1.w.log =
          settled_changes s.w.log ++ [c] ∧
        (query_body E env k true npn p s).1.rowcount =
          wrap_long env.LONG_BIT (s.rowcount + c) ∧
        (query_body E env k true npn p s).1.self.rowcount =
          wrap_long env.LONG_BIT (s.rowcount + c)) := by
  cases hb : (bind_parameters E env (statement_mark_dirty s.w id) id npn p).2
  · left
    rw [query_body_bind_fail E env k true npn p s id hs hb]
    exact ⟨rfl, bind_parameters_fail_err E env _ id npn p hb⟩
  · rw [query_body_bind_ok E env k true npn p s id hs hb]
    have hbl : settled_changes (bind_parameters E env (statement_mark_dirty s.w id) id npn p).1.log
        = settled_changes s.w.log := by
      rw [settled_bindonly (bindonly_bind_parameters E env _ id npn p),
        (stmt_mark_dirty_st s.w id).2.2.1]
    simp only [step_phase]
    rcases step_with_schema_retry_cases E
      (bind_parameters E env (statement_mark_dirty s.w id) id npn p).1 id with
      ⟨hn, herr⟩ | ⟨rc, hrc, hset, _⟩
    · left
      simp only [hn]
      exact ⟨trivial, herr⟩
    · simp only [hrc, finish_step_batch]
      split
      · left; exact ⟨rfl, rfl⟩
      · right
        have hu := update_counters_dml E env k
          ({ w := (step_with_schema_retry E
                (bind_parameters E env (statement_mark_dirty s.w id) id npn p).1 id).1,
             self := build_description E
                (step_with_schema_retry E
                  (bind_parameters E env (statement_mark_dirty s.w id) id npn p).1 id).1
                (build_row_cast_map E env
                  (bind_parameters E env (statement_mark_dirty s.w id) id npn p).1 s.self id)
                id rc k,
             rowcount := s.rowcount } : LoopState σ) hk
        refine ⟨rfl, ?_, _, ?_, hu.1, hu.2.1⟩
        · simp only [hu.2.2, (build_description_statement E _ _ id rc k).1,
            (build_row_cast_map_statement E env _ _ id).1, hs]
        · simp only [(settled_statement_reset E _ id).1, hset, hbl]

theorem settled_changes_transaction (evs : List Event) (s : Site)
    (hs : s = Site.begin ∨ s = Site.commit ∨ s = Site.rollback)
    (h : ∀ e ∈ evs, e.site = some s) : settled_changes evs = [] := by
  simp only [settled_changes, List.map_eq_nil_iff, List.filter_eq_nil_iff]
  intro e he
  have := h e he
  rcases hs with h | h | h <;> subst h <;> cases e <;> simp_all [Event.site, Event.settles]

/-- The transaction handling leaves an exception pending when it stops the call, and
traces no settling step. -/
theorem implicit_transaction_facts (E : Engine σ) (w : World σ) (k : StatementKind)
    (multiple : Bool) :
    ((implicit_transaction E w k multiple).2 = false →
      (implicit_transaction E w k multiple).1.err.isSome = true) ∧
    settled_changes (implicit_transaction E w k multiple).1.log = settled_changes w.log := by
  have hbegin : ((_connection_begin E w).2.isSome = false →
      (_connection_begin E w).1.err.isSome = true) ∧
      settled_changes (_connection_begin E w).1.log = settled_changes w.log := by
    rcases connection_begin_cases E w with ⟨h1, h2, _, evs, hl, hs⟩ | ⟨h1, _, _, st, c, hl⟩
    · refine ⟨fun _ => h2, ?_⟩
      rw [hl, settled_changes_append, settled_changes_transaction evs _ (Or.inl rfl) hs,
        List.append_nil]
    · refine ⟨fun h => by rw [h1] at h; simp at h, ?_⟩
      rw [hl, settled_changes_append]
      simp [settled_changes, Event.settles]
  have hcommit : w.conn.inTransaction = true →
      ((connection_commit E w).2.isSome = false →
        (connection_commit E w).1.err.isSome = true) ∧
      settled_changes (connection_commit E w).1.log = settled_changes w.log := by
    intro hin
    rcases connection_commit_cases E w hin with ⟨h1, h2, _, evs, hl, hs⟩ | ⟨h1, _, _, st, c, hl⟩
    · refine ⟨fun _ => h2, ?_⟩
      rw [hl, settled_changes_append,
        settled_changes_transaction evs _ (Or.inr (Or.inl rfl)) hs, List.append_nil]
    · refine ⟨fun h => by rw [h1] at h; simp at h, ?_⟩
      rw [hl, settled_changes_append]
      simp [settled_changes, Event.settles]
  simp only [implicit_transaction]
  split
  · split
    all_goals first
      | exact ⟨fun h => by simp at h, rfl⟩
      | (split
         · first
           | exact hbegin
           | (rename_i hin; exact hcommit hin)
           | exact ⟨fun _ => rfl, rfl⟩
         · exact ⟨fun h => by simp at h, rfl⟩)
  · exact ⟨fun h => by simp at h, rfl⟩

theorem settled_eng_prepare (E : Engine σ) (site : Site) (w : World σ) (sql : String) :
    settled_changes (eng_prepare E site w sql).1.log = settled_changes w.log := by
  simp [eng_prepare, settled_changes_append, settled_changes, Event.settles]

theorem settled_reset_active (E : Engine σ) (w : World σ) (self : Cursor) :
    settled_changes (reset_active E w self).log = settled_changes w.log := by
  simp only [reset_active]
  split
  · exact (settled_statement_reset E w _).1
  · rfl

/-- Acquiring the statement: a failure leaves an exception pending, a success leaves
the cursor holding a statement; no settling step is traced. -/
theorem acquire_statement_facts (E : Engine σ) (env : Env) (w : World σ) (self : Cursor)
    (operation : String) :
    ((acquire_statement E env w self operation).2.2 = false →
      (acquire_statement E env w self operation).1.err.isSome = true) ∧
    ((acquire_statement E env w self operation).2.2 = true →
      ∃ id, (acquire_statement E env w self operation).2.1.statement = some id) ∧
    settled_changes (acquire_statement E env w self operation).1.log = settled_changes w.log := by
  have hcache : ((cache_get E env (reset_active E w self) operation).2 = none →
      (cache_get E env (reset_active E w self) operation).1.err.isSome = true) ∧
      settled_changes (cache_get E env (reset_active E w self) operation).1.log =
        settled_changes w.log := by
    simp only [cache_get]
    split
    · exact ⟨fun h => by simp at h, settled_reset_active E w self⟩
    · split
      · refine ⟨fun h => by simp at h, ?_⟩
        show settled_changes (eng_prepare E Site.execute _ operation).1.log = _
        rw [settled_eng_prepare, settled_reset_active]
      · refine ⟨fun _ => rfl, ?_⟩
        show settled_changes (eng_prepare E Site.execute _ operation).1.log = _
        rw [settled_eng_prepare, settled_reset_active]
  have hcreate : ∀ w1 : World σ,
      ((statement_create E w1 operation).2.1 ≠ SQLITE_OK →
        (statement_create E w1 operation).1.err.isSome = true) ∧
      settled_changes (statement_create E w1 operation).1.log = settled_changes w1.log := by
    intro w1
    simp only [statement_create]
    split
    · rename_i h
      refine ⟨fun h2 => absurd h h2, ?_⟩
      show settled_changes (eng_prepare E Site.execute _ operation).1.log = _
      rw [settled_eng_prepare]
    · refine ⟨fun _ => rfl, ?_⟩
      show settled_changes (eng_prepare E Site.execute _ operation).1.log = _
      rw [settled_eng_prepare]
  simp only [acquire_statement]
  split
  · rename_i hg
    exact ⟨fun _ => hcache.1 hg, fun h => by simp at h, hcache.2⟩
  · split
    · split
      · rename_i hc
        exact ⟨fun _ => (hcreate _).1 hc, fun h => by simp at h,
          by rw [(hcreate _).2, hcache.2]⟩
      · exact ⟨fun h => by simp at h, fun _ => ⟨_, rfl⟩, by rw [(hcreate _).2, hcache.2]⟩
    · exact ⟨fun h => by simp at h, fun _ => ⟨_, rfl⟩, hcache.2⟩

/-- The prologue: when it jumps to `error` an exception is pending; it traces no
settling step. -/
theorem query_prologue_facts (E : Engine σ) (env : Env) (w : World σ) (self : Cursor)
    (multiple : Bool) (operation : String) :
    ((query_prologue E env w self multiple operation).2 = none →
      (query_prologue E env w self multiple operation).1.1.err.isSome = true) ∧
    settled_changes (query_prologue E env w self multiple operation).1.1.log =
      settled_changes w.log := by
  have ht := implicit_transaction_facts E (reset_active E w self)
    (detect_statement_type operation) multiple
  simp only [query_prologue, reset_active_next_row]
  split
  · rename_i h
    refine ⟨fun _ => ht.1 (by simpa using h), ?_⟩
    rw [ht.2, settled_reset_active]
  · have ha := acquire_statement_facts E env
      (implicit_transaction E (reset_active E w self) (detect_statement_type operation)
        multiple).1 { self with next_row := none, description := none, rowcount := -1 } operation
    split
    · rename_i h
      refine ⟨fun _ => ha.1 (by simpa using h), ?_⟩
      rw [ha.2.2, ht.2, settled_reset_active]
    · rename_i h
      split
      · rename_i hnone
        obtain ⟨id, hid⟩ := ha.2.1 (by simpa using h)
        rw [hid] at hnone
        cases hnone
      · refine ⟨fun h => by simp at h, ?_⟩
        simp only [(stmt_mark_dirty_st _ _).2.2.1, (settled_statement_reset E _ _).1, ha.2.2, ht.2,
          settled_reset_active]

/-- The batch loop for a data-modification statement: if no exception is pending at
its end, every parameter set has traced one settling step, the running total is the
total of the counters read after these steps, added one by one as longs, and after
at least one turn the cursor's rowcount is the running total. -/
theorem query_loop_batch (E : Engine σ) (env : Env) (k : StatementKind) (npn : Nat)
    (hk : is_dml k = true) (id : Nat) (sets : List Params) (s : LoopState σ)
    (hs : s.self.statement = some id)
    (herr : (query_loop E env k true npn sets s).w.err = none) :
    ∃ L, settled_changes (query_loop E env k true npn sets s).w.log =
        settled_changes s.w.log ++ L ∧
      L.length = sets.length ∧
      (query_loop E env k true npn sets s).rowcount =
        wrapped_total env.LONG_BIT s.rowcount L ∧
      (sets ≠ [] → (query_loop E env k true npn sets s).self.rowcount =
        (query_loop E env k true npn sets s).rowcount) := by
  induction sets generalizing s with
  | nil =>
    exact ⟨[], by simp [query_loop], rfl, by simp [query_loop, wrapped_total],
      fun h => absurd rfl h⟩
  | cons p rest ih =>
    simp only [query_loop] at herr ⊢
    rcases query_body_batch E env k npn p s id hs hk with ⟨hf, he⟩ | ⟨ht, hst, c, hl, hr, hsr⟩
    · simp only [hf, Bool.false_eq_true, if_false] at herr
      rw [herr] at he
      simp at he
    · simp only [ht, if_true] at herr ⊢
      obtain ⟨L, h1, h2, h3, h4⟩ := ih _ hst herr
      refine ⟨c :: L, ?_, by simp [h2], ?_, fun _ => ?_⟩
      · rw [h1, hl]; simp
      · rw [h3, hr]; rfl
      · by_cases hrest : rest = []
        · subst hrest
          simp only [query_loop]
          rw [hsr, hr]
        · exact h4 hrest

/-- A successful executemany of a data-modification statement over n >= 1 parameter
sets traces exactly n settling steps, and the cursor's rowcount afterwards is the
total of the engine's affected-row counter read after each of them, added one by one
as longs of `LONG_BIT` bits. -/
theorem executemany_rowcount_wrapped (E : Engine σ) (env : Env) (w : World σ) (self : Cursor)
    (operation : String) (sets : List Params) (r : World σ × Cursor × Option PyObj)
    (hr : r = cursor_executemany E env w self operation sets)
    (hk : is_dml (detect_statement_type operation) = true)
    (hn : sets ≠ []) (hok : r.2.2 ≠ none) :
    ∃ L, settled_changes r.1.log = settled_changes w.log ++ L ∧
      L.length = sets.length ∧ r.2.1.rowcount = wrapped_total env.LONG_BIT 0 L := by
  subst hr
  simp only [cursor_executemany] at hok ⊢
  have hnull := query_execute_null_iff E env w self true operation sets
  have herr : (_query_execute E env w self true operation sets).1.err = none := by
    cases h : (_query_execute E env w self true operation sets).1.err
    · rfl
    · exact absurd (hnull.mpr (by rw [h]; rfl)) hok
  by_cases hchk : (check_thread_and_connection w).2 = true
  · cases hp : (query_prologue E env w self true operation).2
    · exfalso
      have hfacts := (query_prologue_facts E env w self true operation).1 hp
      have : (_query_execute E env w self true operation sets).1 =
          (query_prologue E env w self true operation).1.1 := by
        simp only [_query_execute, hchk, check_pass w hchk, hp, Bool.not_true,
          Bool.false_eq_true, if_false]
        exact (query_return_world _ _).1
      rw [this] at herr
      rw [herr] at hfacts
      simp at hfacts
    · rename_i npn
      have hpro : query_prologue E env w self true operation =
          (((query_prologue E env w self true operation).1.1,
            (query_prologue E env w self true operation).1.2), some npn) :=
        Prod.ext rfl hp
      obtain ⟨id, hid⟩ := query_prologue_statement E env w self true operation _ _ npn hpro
      have hunf := query_execute_unfold E env w self true operation sets _ _ npn hchk hpro
      rw [hunf, (query_return_world _ _).1] at herr
      obtain ⟨L, h1, h2, h3, h4⟩ := query_loop_batch E env (detect_statement_type operation) npn
        hk id sets _ hid herr
      rw [hunf, (query_return_world _ _).1, (query_return_world _ _).2.1]
      refine ⟨L, ?_, h2, ?_⟩
      · rw [h1, (query_prologue_facts E env w self true operation).2]
      · rw [h4 hn, h3]
  · exfalso
    have hc : (check_thread_and_connection w).2 = false := by simpa using hchk
    have herr2 := check_fail_err w hc
    have : (_query_execute E env w self true operation sets).1 =
        (check_thread_and_connection w).1 := by
      simp only [_query_execute, hc, Bool.not_false, if_true]
    rw [this] at herr
    rw [herr] at herr2
    simp at herr2

/-- C8, counterexample: on a platform whose long has 32 bits, an UPDATE run by
executemany over two parameter sets, each step changing 2^30 rows.  The call
succeeds, the counters read after the two steps are 2^30 and 2^30, their sum 2^31
lies outside the range of a long, and the cursor's rowcount is -2^31. -/
theorem rowcount_wraps_past_long :
    is_dml (detect_statement_type "UPDATE t SET x = ?") = true ∧
    (cursor_executemany scripted env32 (World.fresh Script.big_updates) Cursor.fresh
      "UPDATE t SET x = ?" [Params.seq [PyObj.int 1], Params.seq [PyObj.int 2]]).2.2 =
      some PyObj.none ∧
    settled_changes (cursor_executemany scripted env32 (World.fresh Script.big_updates)
      Cursor.fresh "UPDATE t SET x = ?"
      [Params.seq [PyObj.int 1], Params.seq [PyObj.int 2]]).1.log =
      [1073741824, 1073741824] ∧
    ([1073741824, 1073741824] : List Int).sum = 2147483648 ∧
    fits_long env32.LONG_BIT 2147483648 = false ∧
    (cursor_executemany scripted env32 (World.fresh Script.big_updates) Cursor.fresh
      "UPDATE t SET x = ?" [Params.seq [PyObj.int 1], Params.seq [PyObj.int 2]]).2.1.rowcount =
      -2147483648 := by
  decide

/-- C8: for every statement classified INSERT, UPDATE, DELETE or REPLACE and every
sequence of n >= 1 parameter sets on which executemany succeeds, the trace gains
exactly n settling steps (one per parameter set); and if the running total of the
engine's affected-row counter read after each of them lies in the range of a long
after every step, the cursor's rowcount afterwards is their sum. -/
theorem executemany_rowcount_is_sum (E : Engine σ) (env : Env) (w : World σ) (self : Cursor)
    (operation : String) (sets : List Params) (r : World σ × Cursor × Option PyObj)
    (hr : r = cursor_executemany E env w self operation sets)
    (hk : is_dml (detect_statement_type operation) = true)
    (hn : sets ≠ []) (hok : r.2.2 ≠ none) (hlong : 1 ≤ env.LONG_BIT)
    (hfit : running_total_fits env.LONG_BIT 0
      ((settled_changes r.1.log).drop (settled_changes w.log).length) = true) :
    ∃ L, settled_changes r.1.log = settled_changes w.log ++ L ∧
      L.length = sets.length ∧ r.2.1.rowcount = L.sum := by
  obtain ⟨L, h1, h2, h3⟩ := executemany_rowcount_wrapped E env w self operation sets r hr hk hn hok
  refine ⟨L, h1, h2, ?_⟩
  rw [h1, List.drop_left] at hfit
  rw [h3, wrapped_total_fits env.LONG_BIT 0 L hlong hfit, Int.zero_add]

/-- C8, witness: an UPDATE run over three parameter sets, the engine reporting 2, 0
and 5 affected rows: the counters traced are 2, 0 and 5 and rowcount is 7. -/
theorem executemany_rowcount_is_sum_witness :
    is_dml (detect_statement_type "UPDATE t SET x = ?") = true ∧
    (cursor_executemany scripted env64
      (World.fresh { Script.idle with param_names := [none], step_changes := [0, 2, 0, 5] })
      Cursor.fresh "UPDATE t SET x = ?"
      [Params.seq [PyObj.int 1], Params.seq [PyObj.int 2], Params.seq [PyObj.int 3]]).2.2 ≠ none ∧
    ∃ L : List Int,
      settled_changes (cursor_executemany scripted env64
        (World.fresh { Script.idle with param_names := [none], step_changes := [0, 2, 0, 5] })
        Cursor.fresh "UPDATE t SET x = ?"
        [Params.seq [PyObj.int 1], Params.seq [PyObj.int 2], Params.seq [PyObj.int 3]]).1.log =
        settled_changes (World.fresh
          { Script.idle with param_names := [none], step_changes := [0, 2, 0, 5] }).log ++ L ∧
      L.length = [Params.seq [PyObj.int 1], Params.seq [PyObj.int 2],
        Params.seq [PyObj.int 3]].length ∧
      (cursor_executemany scripted env64
        (World.fresh { Script.idle with param_names := [none], step_changes := [0, 2, 0, 5] })
        Cursor.fresh "UPDATE t SET x = ?"
        [Params.seq [PyObj.int 1], Params.seq [PyObj.int 2], Params.seq [PyObj.int 3]]).2.1.rowcount
        = L.sum :=
  ⟨by decide, by decide,
    executemany_rowcount_is_sum scripted env64
      (World.fresh { Script.idle with param_names := [none], step_changes := [0, 2, 0, 5] })
      Cursor.fresh "UPDATE t SET x = ?"
      [Params.seq [PyObj.int 1], Params.seq [PyObj.int 2], Params.seq [PyObj.int 3]] _ rfl
      (by decide) (by simp) (by decide) (by decide) (by decide)⟩

/-! ## Errors raised while binding -/

theorem cleanerr_none : CleanErr none := by
  intro e h; cases h

theorem cleanerr_some {e : PyErr} (h1 : e.is_binding_error = false)
    (h2 : e ≠ PyErr.executemany_row) : CleanErr (some e) := by
  intro x hx
  cases hx
  exact ⟨h1, h2⟩

theorem cleanerr_bind_parameter (E : Engine σ) (w : World σ) (id pos : Nat) (p : PyObj)
    (h : CleanErr w.err) : CleanErr (_bind_parameter E w id pos p).1.err := by
  cases p <;> simp only [_bind_parameter]
  case none => exact h
  case int v => exact h
  case long v =>
    split
    · exact h
    · exact cleanerr_some rfl (by simp)
  case float b => exact h
  case buffer bytes readable =>
    split
    · exact h
    · exact cleanerr_some rfl (by simp)
  case str bytes => exact h
  case unicode s => exact h
  case other t => exact h

theorem cleanerr_adapt_parameter (env : Env) (w : World σ) (p : PyObj) (h : CleanErr w.err) :
    CleanErr (adapt_parameter env w p).1.err := by
  simp only [adapt_parameter]
  split
  · exact h
  · exact cleanerr_none

theorem cleanerr_bind_named (E : Engine σ) (env : Env) (id : Nat)
    (parameters : List (String × PyObj)) (idx : List Nat) (w : World σ) (h : CleanErr w.err)
    (hok : (bind_named E env id parameters idx w).2 = true) :
    CleanErr (bind_named E env id parameters idx w).1.err := by
  induction idx generalizing w with
  | nil => exact h
  | cons i rest ih =>
    simp only [bind_named] at hok ⊢
    split
    · rename_i hn; simp [hn] at hok
    · split
      · rename_i _ fn hn _ hl; simp [hn, hl] at hok
      · split
        · rename_i _ fn hn _ cp hl hb
          simp only [hn, hl] at hok
          rw [if_pos hb] at hok
          simp at hok
        · rename_i _ fn hn _ cp hl hb
          simp only [hn, hl] at hok
          rw [if_neg hb] at hok
          exact ih _ (cleanerr_bind_parameter E _ _ _ _ (cleanerr_adapt_parameter env w cp h)) hok

theorem cleanerr_bind_positional (E : Engine σ) (env : Env) (id : Nat) (i : Nat)
    (items : List PyObj) (w : World σ) (h : CleanErr w.err)
    (hok : (bind_positional E env id i items w).2 = true) :
    CleanErr (bind_positional E env id i items w).1.err := by
  induction items generalizing w i with
  | nil => exact h
  | cons p rest ih =>
    simp only [bind_positional] at hok ⊢
    split
    · rename_i hb
      rw [if_pos hb] at hok
      simp at hok
    · rename_i hb
      rw [if_neg hb] at hok
      exact ih _ _ (cleanerr_bind_parameter E _ _ _ _ (cleanerr_adapt_parameter env w p h)) hok

/-- Binding one parameter set: on success no binding error is pending (if none was
before); on failure one is. -/
theorem bind_parameters_err (E : Engine σ) (env : Env) (w : World σ) (id npn : Nat)
    (p : Params) (h : CleanErr w.err) :
    ((bind_parameters E env w id npn p).2 = true →
      CleanErr (bind_parameters E env w id npn p).1.err) ∧
    ((bind_parameters E env w id npn p).2 = false →
      ∃ e, (bind_parameters E env w id npn p).1.err = some e ∧ e.is_binding_error = true) := by
  cases p
  case dict items =>
    simp only [bind_parameters]
    refine ⟨cleanerr_bind_named E env id items _ w h, fun hf => ?_⟩
    rcases bind_named_failure E env id items _ w hf with ⟨i, hi⟩ | ⟨i, hi⟩ | ⟨n, hn⟩
    · exact ⟨_, hi, rfl⟩
    · exact ⟨_, hi, rfl⟩
    · exact ⟨_, hn, rfl⟩
  case seq items =>
    simp only [bind_parameters]
    split
    · exact ⟨fun hf => by simp at hf, fun _ => ⟨_, rfl, rfl⟩⟩
    · refine ⟨cleanerr_bind_positional E env id 0 items w h, fun hf => ?_⟩
      obtain ⟨k, hk⟩ := bind_positional_failure E env id 0 items w hf
      exact ⟨_, hk, rfl⟩
  case not_a_sequence =>
    simp only [bind_parameters]
    exact ⟨fun hf => by simp at hf, fun _ => ⟨_, rfl, rfl⟩⟩

theorem cleanerr_cell_converter (conn : Connection) (self : Cursor) (err : Option PyErr)
    (i : Nat) (h : CleanErr err) : CleanErr (cell_converter conn self err i).1 := by
  simp only [cell_converter]
  split
  · split
    · exact h
    · exact cleanerr_some rfl (by simp)
  · exact h

theorem cleanerr_fetch_cell (E : Engine σ) (env : Env) (conn : Connection) (self : Cursor)
    (eng : σ) (st : Nat) (err : Option PyErr) (i : Nat) (h : CleanErr err) :
    CleanErr (fetch_cell E env conn self eng st err i).1 := by
  have hc := cleanerr_cell_converter conn self err i h
  simp only [fetch_cell]
  repeat' split
  all_goals first
    | exact hc
    | exact cleanerr_none
    | exact cleanerr_some rfl (by simp)

theorem cleanerr_fetch_cells (E : Engine σ) (env : Env) (conn : Connection) (self : Cursor)
    (eng : σ) (st : Nat) (cols : List Nat) (err : Option PyErr) (row : Row)
    (h : CleanErr err) : CleanErr (fetch_cells E env conn self eng st cols err row).1 := by
  induction cols generalizing err row with
  | nil => exact h
  | cons i rest ih =>
    simp only [fetch_cells]
    exact ih _ _ (cleanerr_fetch_cell E env conn self eng st err i h)

theorem cleanerr_fetch_one_row (E : Engine σ) (env : Env) (w : World σ) (self : Cursor)
    (id : Nat) (h : CleanErr w.err) : CleanErr (_fetch_one_row E env w self id).1.err := by
  simp only [_fetch_one_row, decode_row]
  split <;> exact cleanerr_fetch_cells E env _ _ _ _ _ _ _ h

theorem statement_reset_facts (E : Engine σ) (w : World σ) (id : Nat) :
    (statement_reset E w id).1.err = w.err ∧
    ((statement_reset E w id).1.stmt id).in_use = false ∧
    (statement_reset E w id).1.conn = w.conn ∧
    (statement_reset E w id).1.thread = w.thread ∧
    (statement_reset E w id).1.log = w.log ++
      [Event.reset (w.stmt id).st (E.reset w.eng (w.stmt id).st).2] := by
  simp [statement_reset, eng_reset, World.stmt, heap_set]

theorem cleanerr_step_with_schema_retry (E : Engine σ) (w : World σ) (id : Nat)
    (h : CleanErr w.err) : CleanErr (step_with_schema_retry E w id).1.err := by
  rcases step_with_schema_retry_cases E w id with ⟨hn, _⟩ | ⟨rc, _, _, he⟩
  · simp only [step_with_schema_retry] at hn ⊢
    split
    · split
      · split
        · rename_i h1 h2 h3
          simp [h1, h2, h3] at hn
        · exact cleanerr_some rfl (by simp)
      · exact cleanerr_some rfl (by simp)
    · rename_i h1
      simp [h1] at hn
  · rw [he]; exact h

/-- When the stepping block leaves `rc`, the last entry of the trace is the step that
returned it. -/
theorem step_with_schema_retry_last (E : Engine σ) (w : World σ) (id : Nat) (rc : Int)
    (h : (step_with_schema_retry E w id).2 = some rc) :
    ∃ evs site st flag c,
      (step_with_schema_retry E w id).1.log = evs ++ [Event.step site st rc flag c] := by
  simp only [step_with_schema_retry] at h ⊢
  split
  · rename_i h1
    rw [if_pos h1] at h
    split
    · rename_i h2
      rw [if_pos h2] at h
      split
      · rename_i h3
        rw [if_pos h3] at h
        simp only [Option.some.injEq] at h
        exact ⟨_, Site.retry, _, _, _, by rw [← h]; rfl⟩
      · rename_i h3
        rw [if_neg h3] at h
        simp at h
    · rename_i h2
      rw [if_neg h2] at h
      simp at h
  · rename_i h1
    rw [if_neg h1] at h
    simp only [Option.some.injEq] at h
    exact ⟨_, Site.execute, _, _, _, by rw [← h]; rfl⟩

/-- What follows the step: continuing keeps the pending exception clean; the only
jump to `error` is the batch-mode row, raised without touching cursor or trace. -/
theorem finish_step_err (E : Engine σ) (env : Env) (k : StatementKind) (multiple : Bool)
    (id : Nat) (rc : Int) (s : LoopState σ) (h : CleanErr s.w.err) :
    ((finish_step E env k multiple id rc s).2 = true →
      CleanErr (finish_step E env k multiple id rc s).1.w.err) ∧
    ((finish_step E env k multiple id rc s).2 = false →
      (finish_step E env k multiple id rc s).1.w.err = some PyErr.executemany_row ∧
      (finish_step E env k multiple id rc s).1.self = s.self ∧
      (finish_step E env k multiple id rc s).1.w.log = s.w.log ∧ rc = SQLITE_ROW) := by
  simp only [finish_step]
  split
  · rename_i hrow
    exact ⟨fun hf => by simp at hf, fun _ => ⟨rfl, rfl, rfl, hrow.1⟩⟩
  · have h1 : CleanErr (if rc = SQLITE_ROW then
          ({ s with w := (_fetch_one_row E env s.w s.self id).1,
                    self := { s.self with next_row := (_fetch_one_row E env s.w s.self id).2 } } :
            LoopState σ)
        else if rc = SQLITE_DONE ∧ multiple = false then
          { s with w := (statement_reset E s.w id).1, self := { s.self with statement := none } }
        else s).w.err := by
      split
      · exact cleanerr_fetch_one_row E env s.w s.self id h
      · split
        · rw [(statement_reset_facts E s.w id).1]; exact h
        · exact h
    split
    · refine ⟨fun _ => ?_, fun hf => by simp at hf⟩
      simp only [update_counters_w, (statement_reset_facts E _ id).1]
      exact h1
    · refine ⟨fun _ => ?_, fun hf => by simp at hf⟩
      simp only [update_counters_w]
      exact h1

/-- One turn of the parameter loop with respect to C4. -/
theorem query_body_rejection (E : Engine σ) (env : Env) (k : StatementKind) (multiple : Bool)
    (npn : Nat) (p : Params) (s : LoopState σ) (h : CleanErr s.w.err) :
    ((query_body E env k multiple npn p s).2 = true →
      CleanErr (query_body E env k multiple npn p s).1.w.err) ∧
    ((query_body E env k multiple npn p s).2 = false →
      RejectionOutcome (query_body E env k multiple npn p s).1.w
        (query_body E env k multiple npn p s).1.self) := by
  cases hs : s.self.statement with
  | none =>
    simp only [query_body, bind_phase, hs]
    exact ⟨fun hf => by simp at hf, fun _ => Or.inl h⟩
  | some id =>
    have hmd := stmt_mark_dirty_st s.w id
    have hclean : CleanErr (statement_mark_dirty s.w id).err := by rw [hmd.2.2.2]; exact h
    have hb := bind_parameters_err E env (statement_mark_dirty s.w id) id npn p hclean
    cases hbr : (bind_parameters E env (statement_mark_dirty s.w id) id npn p).2
    · rw [query_body_bind_fail E env k multiple npn p s id hs hbr]
      refine ⟨fun hf => by simp at hf, fun _ => Or.inr (Or.inl ?_)⟩
      obtain ⟨e, he, hbe⟩ := hb.2 hbr
      refine ⟨e, he, hbe, id, hs, ?_⟩
      have hheap := (bindonly_bind_parameters E env (statement_mark_dirty s.w id) id npn p).1
      simp only [World.stmt, hheap]
      simp [statement_mark_dirty, heap_set]
    · rw [query_body_bind_ok E env k multiple npn p s id hs hbr]
      have hclean2 := hb.1 hbr
      have hclean3 := cleanerr_step_with_schema_retry E _ id hclean2
      simp only [step_phase]
      split
      · exact ⟨fun hf => by simp at hf, fun _ => Or.inl hclean3⟩
      · rename_i rc hrc
        have hf := finish_step_err E env k multiple id rc
          { w := (step_with_schema_retry E
                (bind_parameters E env (statement_mark_dirty s.w id) id npn p).1 id).1,
            self := build_description E
              (step_with_schema_retry E
                (bind_parameters E env (statement_mark_dirty s.w id) id npn p).1 id).1
              (build_row_cast_map E env
                (bind_parameters E env (statement_mark_dirty s.w id) id npn p).1 s.self id)
              id rc k,
            rowcount := s.rowcount } hclean3
        refine ⟨hf.1, fun hfalse => Or.inr (Or.inr ?_)⟩
        obtain ⟨he, hself, hlog, hrow⟩ := hf.2 hfalse
        refine ⟨he, ⟨id, ?_⟩, ?_⟩
        · rw [hself]
          simp only [(build_description_statement E _ _ id rc k).1,
            (build_row_cast_map_statement E env _ _ id).1, hs]
        · obtain ⟨evs, site, st, flag, c, hl⟩ := step_with_schema_retry_last E _ id rc hrc
          exact ⟨evs, site, st, flag, c, by rw [hlog, hl, hrow]⟩

theorem query_loop_rejection (E : Engine σ) (env : Env) (k : StatementKind) (multiple : Bool)
    (npn : Nat) (sets : List Params) (s : LoopState σ) (h : CleanErr s.w.err) :
    RejectionOutcome (query_loop E env k multiple npn sets s).w
      (query_loop E env k multiple npn sets s).self := by
  induction sets generalizing s with
  | nil => exact Or.inl h
  | cons p rest ih =>
    simp only [query_loop]
    have hb := query_body_rejection E env k multiple npn p s h
    split
    · rename_i ht
      exact ih _ (hb.1 ht)
    · rename_i hf
      exact hb.2 (by simpa using hf)

theorem cleanerr_check_thread (w : World σ) (h : CleanErr w.err) :
    CleanErr (check_thread w).1.err := by
  simp only [check_thread]
  repeat' split
  all_goals first
    | exact h
    | exact cleanerr_some rfl (by simp)

theorem cleanerr_check (w : World σ) (h : CleanErr w.err) :
    CleanErr (check_thread_and_connection w).1.err := by
  have hc := cleanerr_check_thread w h
  simp only [check_thread_and_connection, check_connection]
  repeat' split
  all_goals first
    | exact hc
    | exact cleanerr_some rfl (by simp)

theorem cleanerr_connection_begin (E : Engine σ) (w : World σ) (h : CleanErr w.err) :
    CleanErr (_connection_begin E w).1.err := by
  have hc := cleanerr_check_thread w h
  simp only [_connection_begin]
  repeat' split
  all_goals first
    | exact hc
    | exact cleanerr_some rfl (by simp)

theorem cleanerr_connection_commit (E : Engine σ) (w : World σ) (h : CleanErr w.err) :
    CleanErr (connection_commit E w).1.err := by
  have hc := cleanerr_check_thread w h
  simp only [connection_commit]
  repeat' split
  all_goals first
    | exact hc
    | exact cleanerr_some rfl (by simp)

theorem reset_active_err (E : Engine σ) (w : World σ) (self : Cursor) :
    (reset_active E w self).err = w.err := by
  simp only [reset_active]
  split
  · exact (statement_reset_facts E w _).1
  · rfl

theorem cleanerr_implicit_transaction (E : Engine σ) (w : World σ) (k : StatementKind)
    (multiple : Bool) (h : CleanErr w.err) :
    CleanErr (implicit_transaction E w k multiple).1.err := by
  have hb := cleanerr_connection_begin E w h
  have hc := cleanerr_connection_commit E w h
  simp only [implicit_transaction]
  repeat' split
  all_goals first
    | exact h
    | exact hb
    | exact hc
    | exact cleanerr_some rfl (by simp)

theorem cleanerr_acquire_statement (E : Engine σ) (env : Env) (w : World σ) (self : Cursor)
    (operation : String) (h : CleanErr w.err) :
    CleanErr (acquire_statement E env w self operation).1.err := by
  have hr : CleanErr (reset_active E w self).err := by rw [reset_active_err]; exact h
  simp only [acquire_statement, cache_get, statement_create]
  repeat' split
  all_goals first
    | exact hr
    | exact cleanerr_some rfl (by simp)

theorem cleanerr_query_prologue (E : Engine σ) (env : Env) (w : World σ) (self : Cursor)
    (multiple : Bool) (operation : String) (h : CleanErr w.err) :
    CleanErr (query_prologue E env w self multiple operation).1.1.err := by
  have hr : CleanErr (reset_active E w self).err := by rw [reset_active_err]; exact h
  have ht := cleanerr_implicit_transaction E _ (detect_statement_type operation) multiple hr
  have ha := cleanerr_acquire_statement E env _
    { self with next_row := none, description := none, rowcount := -1 } operation ht
  simp only [query_prologue, reset_active_next_row]
  repeat' split
  all_goals first
    | exact ht
    | exact ha

/-- How any run of `_query_execute` that starts with no exception pending can end
with respect to C4. -/
theorem query_execute_rejection (E : Engine σ) (env : Env) (w : World σ) (self : Cursor)
    (multiple : Bool) (operation : String) (sets : List Params) (h : w.err = none) :
    RejectionOutcome (_query_execute E env w self multiple operation sets).1
      (_query_execute E env w self multiple operation sets).2.1 := by
  have hclean : CleanErr w.err := by rw [h]; exact cleanerr_none
  simp only [_query_execute]
  split
  · exact Or.inl (cleanerr_check w hclean)
  · rename_i hc
    have hc' : (check_thread_and_connection w).2 = true := by simpa using hc
    rw [check_pass w hc']
    have hp := cleanerr_query_prologue E env w self multiple operation hclean
    split
    · rw [(query_return_world _ _).1, (query_return_world _ _).2.1]
      exact Or.inl hp
    · rw [(query_return_world _ _).1, (query_return_world _ _).2.1]
      exact query_loop_rejection E env _ multiple _ sets _ hp

/-- C4, counterexample: execute with an empty tuple for a statement that needs one
parameter fails with the count error, and when the error is returned the cursor
still holds the statement with its `in_use` flag set: it has not been reset. -/
theorem count_mismatch_leaves_statement_in_use :
    (cursor_execute scripted env64 (World.fresh { Script.idle with param_names := [none] })
      Cursor.fresh "SELECT ?" (some (Params.seq []))).2.2 = none ∧
    (cursor_execute scripted env64 (World.fresh { Script.idle with param_names := [none] })
      Cursor.fresh "SELECT ?" (some (Params.seq []))).1.err = some (PyErr.binding_count 1 0) ∧
    (cursor_execute scripted env64 (World.fresh { Script.idle with param_names := [none] })
      Cursor.fresh "SELECT ?" (some (Params.seq []))).2.1.statement = some 0 ∧
    ((cursor_execute scripted env64 (World.fresh { Script.idle with param_names := [none] })
      Cursor.fresh "SELECT ?" (some (Params.seq []))).1.stmt 0).in_use = true := by
  refine ⟨by decide, by decide, by decide, by decide⟩

/-- Closing a cursor, or starting its next execute, resets the statement it holds. -/
theorem held_statement_reset_later (E : Engine σ) (w : World σ) (self : Cursor) (id : Nat)
    (hs : self.statement = some id) :
    ((reset_active E w self).stmt id).in_use = false ∧
    ((check_thread_and_connection w).2 = true →
      ((cursor_close E w self).1.stmt id).in_use = false ∧
      (cursor_close E w self).2.1.statement = none) := by
  constructor
  · simp only [reset_active, hs]
    exact (statement_reset_facts E w id).2.1
  · intro hc
    simp only [cursor_close, hc, check_pass w hc, hs, Bool.not_true, Bool.false_eq_true, if_false]
    exact ⟨(statement_reset_facts E w id).2.1, trivial⟩

/-- C4, amended: when execute or executemany, entered with no exception pending,
fails with a binding error (wrong count, unnamed placeholder with a mapping, missing
named value, rejected value), the cursor still holds the statement with `in_use`
set when the error is returned; when it fails because a row came back in batch mode,
the cursor still holds the statement and the row-returning step is the last engine
call traced (no reset after it).  In both cases the statement is reset only later:
by the release that opens the cursor's next execute / executemany, or by close. -/
theorem failed_binding_keeps_statement (E : Engine σ) (env : Env) (w : World σ) (self : Cursor)
    (multiple : Bool) (operation : String) (sets : List Params)
    (r : World σ × Cursor × Option PyObj)
    (hr : r = _query_execute E env w self multiple operation sets)
    (hclean : w.err = none) (e : PyErr) (he : r.1.err = some e)
    (hkind : e.is_binding_error = true ∨ e = PyErr.executemany_row) :
    r.2.2 = none ∧
    ∃ id, r.2.1.statement = some id ∧
      (e.is_binding_error = true → (r.1.stmt id).in_use = true) ∧
      (e = PyErr.executemany_row → EndsWithRow r.1) ∧
      ((reset_active E r.1 r.2.1).stmt id).in_use = false ∧
      ((check_thread_and_connection r.1).2 = true →
        ((cursor_close E r.1 r.2.1).1.stmt id).in_use = false ∧
        (cursor_close E r.1 r.2.1).2.1.statement = none) := by
  subst hr
  refine ⟨(query_execute_null_iff E env w self multiple operation sets).mpr (by rw [he]; rfl), ?_⟩
  rcases query_execute_rejection E env w self multiple operation sets hclean with
    h | ⟨e', he', hbe, id, hid, huse⟩ | ⟨he', ⟨id, hid⟩, hrow⟩
  · exfalso
    have := h e he
    rcases hkind with hk | hk
    · rw [this.1] at hk; cases hk
    · exact this.2 hk
  · rw [he] at he'
    cases he'
    refine ⟨id, hid, fun _ => huse, fun hx => ?_, held_statement_reset_later E _ _ id hid⟩
    rw [hx] at hbe
    cases hbe
  · rw [he] at he'
    cases he'
    refine ⟨id, hid, fun hx => ?_, fun _ => hrow, held_statement_reset_later E _ _ id hid⟩
    simp [PyErr.is_binding_error] at hx

/-- C4, witness: executemany of a statement whose step returns a row. -/
theorem failed_binding_keeps_statement_witness :
    (World.fresh { Script.idle with steps := [SQLITE_DONE, SQLITE_ROW] }).err = none ∧
    (cursor_executemany scripted env64
      (World.fresh { Script.idle with steps := [SQLITE_DONE, SQLITE_ROW] }) Cursor.fresh
      "INSERT INTO t VALUES (1) RETURNING x" [Params.seq []]).1.err =
      some PyErr.executemany_row ∧
    (cursor_executemany scripted env64
      (World.fresh { Script.idle with steps := [SQLITE_DONE, SQLITE_ROW] }) Cursor.fresh
      "INSERT INTO t VALUES (1) RETURNING x" [Params.seq []]).2.2 = none :=
  ⟨rfl, by decide,
    (failed_binding_keeps_statement scripted env64
      (World.fresh { Script.idle with steps := [SQLITE_DONE, SQLITE_ROW] }) Cursor.fresh true
      "INSERT INTO t VALUES (1) RETURNING x" [Params.seq []] _ rfl rfl
      PyErr.executemany_row (by decide) (Or.inr rfl)).1⟩

/-! ## Execute from the point of the first step, and iteration -/

/-- From the ready state on, `execute` is the step phase followed by the return. -/
theorem execute_from_ready (E : Engine σ) (env : Env) (w : World σ) (self : Cursor)
    (operation : String) (p : Params) (sb : LoopState σ) (id : Nat)
    (h : execute_ready E env w self operation p = some (sb, id)) :
    cursor_execute E env w self operation (some p) =
      query_return
        (step_phase E env (detect_statement_type operation) false id sb).1.w
        (step_phase E env (detect_statement_type operation) false id sb).1.self := by
  simp only [execute_ready] at h
  split at h
  · rename_i hc
    split at h
    · rename_i npn hp
      split at h
      · rename_i id' hb
        simp only [Option.some.injEq, Prod.mk.injEq] at h
        obtain ⟨h1, h2⟩ := h
        subst h2
        have hpro : query_prologue E env w self false operation =
            (((query_prologue E env w self false operation).1.1,
              (query_prologue E env w self false operation).1.2), some npn) :=
          Prod.ext rfl hp
        rw [cursor_execute, query_execute_unfold E env w self false operation _ _ _ npn hc hpro,
          Option.getD_some, query_loop_single]
        simp only [query_body, hb, h1]
      · cases h
    · cases h
  · cases h

/-- The entry checks pass exactly when the thread is the creating one (or the check
is off) and the connection is open. -/
theorem check_iff (w : World σ) :
    (check_thread_and_connection w).2 = true ↔
      (w.conn.check_same_thread = true → w.thread = w.conn.thread_ident) ∧
      w.conn.db = true := by
  simp only [check_thread_and_connection, check_thread, check_connection]
  by_cases h1 : w.conn.check_same_thread = true <;> by_cases h2 : w.thread = w.conn.thread_ident <;>
    by_cases h3 : w.conn.db = true <;> simp [h1, h2, h3, World.raise]

/-- The entry checks depend only on the connection's settings and the running
thread. -/
theorem check_of_frame {w w' : World σ} (hf : Frame w w')
    (h : (check_thread_and_connection w).2 = true) :
    (check_thread_and_connection w').2 = true := by
  obtain ⟨⟨h1, _, _, h4, h5, _, _⟩, _, h9⟩ := hf
  rw [check_iff] at h ⊢
  rw [h1, h4, h5, h9]
  exact h

theorem frame_connection_begin (E : Engine σ) (w : World σ) :
    Frame w (_connection_begin E w).1 := by
  have hc : Frame w (check_thread w).1 := by
    simp only [check_thread]
    repeat' split
    all_goals exact Frame.same w
  simp only [_connection_begin]
  repeat' split
  all_goals exact hc

theorem frame_connection_commit (E : Engine σ) (w : World σ) :
    Frame w (connection_commit E w).1 := by
  have hc : Frame w (check_thread w).1 := by
    simp only [check_thread]
    repeat' split
    all_goals exact Frame.same w
  simp only [connection_commit]
  repeat' split
  all_goals exact hc

theorem frame_implicit_transaction (E : Engine σ) (w : World σ) (k : StatementKind)
    (multiple : Bool) : Frame w (implicit_transaction E w k multiple).1 := by
  simp only [implicit_transaction]
  repeat' split
  all_goals first
    | exact Frame.same w
    | exact frame_connection_begin E w
    | exact frame_connection_commit E w

/-- The prologue changes neither the settings, the registry nor the thread; of the
cursor it changes only the statement, the look-ahead buffer (emptied), description
and rowcount. -/
theorem query_prologue_frame (E : Engine σ) (env : Env) (w : World σ) (self : Cursor)
    (multiple : Bool) (operation : String) :
    Frame w (query_prologue E env w self multiple operation).1.1 ∧
    (query_prologue E env w self multiple operation).1.2.next_row = none ∧
    (query_prologue E env w self multiple operation).1.2.row_factory = self.row_factory ∧
    (query_prologue E env w self multiple operation).1.2.row_cast_map = self.row_cast_map ∧
    (query_prologue E env w self multiple operation).1.2.lastrowid = self.lastrowid := by
  have hr : Frame w (reset_active E w self) := (calm_reset_active E w self).1
  have ht := hr.chain (frame_implicit_transaction E (reset_active E w self)
    (detect_statement_type operation) multiple)
  have ha := ht.chain (calm_acquire_statement E env
    (implicit_transaction E (reset_active E w self) (detect_statement_type operation) multiple).1
    { self with next_row := none, description := none, rowcount := -1 } operation).1
  have hcur : ∀ w1 : World σ,
      (acquire_statement E env w1
        { self with next_row := none, description := none, rowcount := -1 } operation).2.1.next_row
        = none ∧
      (acquire_statement E env w1
        { self with next_row := none, description := none, rowcount := -1 }
        operation).2.1.row_factory = self.row_factory ∧
      (acquire_statement E env w1
        { self with next_row := none, description := none, rowcount := -1 }
        operation).2.1.row_cast_map = self.row_cast_map ∧
      (acquire_statement E env w1
        { self with next_row := none, description := none, rowcount := -1 }
        operation).2.1.lastrowid = self.lastrowid := by
    intro w1
    simp only [acquire_statement]
    repeat' split
    all_goals exact ⟨rfl, rfl, rfl, rfl⟩
  simp only [query_prologue, reset_active_next_row]
  split
  · exact ⟨ht, rfl, rfl, rfl, rfl⟩
  · split
    · exact ⟨ha, hcur _⟩
    · split
      · exact ⟨ha, hcur _⟩
      · refine ⟨?_, hcur _⟩
        exact ha.chain ((calm_statement_reset E _ _).andThen (calm_mark_dirty _ _)).1

/-- Facts about the ready state: the cursor holds the statement about to be stepped,
marked in use; its look-ahead buffer is empty; the row factory is the caller's; and
the entry checks pass in that world. -/
theorem execute_ready_facts (E : Engine σ) (env : Env) (w : World σ) (self : Cursor)
    (operation : String) (p : Params) (sb : LoopState σ) (id : Nat)
    (h : execute_ready E env w self operation p = some (sb, id)) :
    sb.self.statement = some id ∧ sb.self.next_row = none ∧
    sb.self.row_factory = self.row_factory ∧ (sb.w.stmt id).in_use = true ∧
    (check_thread_and_connection sb.w).2 = true := by
  simp only [execute_ready] at h
  split at h
  · rename_i hc
    split at h
    · rename_i npn hp
      have hq := query_prologue_frame E env w self false operation
      split at h
      · rename_i id' hb
        simp only [Option.some.injEq, Prod.mk.injEq] at h
        obtain ⟨h1, h2⟩ := h
        subst h2
        subst h1
        simp only [bind_phase] at hb ⊢
        split
        · rename_i hs
          simp [hs] at hb
        · rename_i id0 hs
          simp only [hs] at hb
          split
          · rename_i hbf
            rw [if_pos hbf] at hb
            cases hb
          · rename_i hbf
            rw [if_neg hbf] at hb
            simp only [Option.some.injEq] at hb
            subst hb
            have hbo := bindonly_bind_parameters E env
              (statement_mark_dirty (query_prologue E env w self false operation).1.1 id0) id0
              npn p
            have hcalm := (calm_mark_dirty (query_prologue E env w self false operation).1.1
              id0).andThen (calm_bind_parameters E env
                (statement_mark_dirty (query_prologue E env w self false operation).1.1 id0)
                id0 npn p)
            refine ⟨?_, ?_, ?_, ?_, ?_⟩
            · simp only [(build_row_cast_map_statement E env _ _ id0).1, hs]
            · simp only [(build_row_cast_map_statement E env _ _ id0).2.1, hq.2.1]
            · simp only [(build_row_cast_map_statement E env _ _ id0).2.2.1, hq.2.2.1]
            · simp only [World.stmt, hbo.1]
              simp [statement_mark_dirty, heap_set]
            · exact check_of_frame (hq.1.chain hcalm.1) hc
      · cases h
    · cases h
  · cases h

theorem fetch_cell_congr (E : Engine σ) (env : Env) (conn : Connection) (self self' : Cursor)
    (eng : σ) (st : Nat) (err : Option PyErr) (i : Nat)
    (h : self'.row_cast_map = self.row_cast_map) :
    fetch_cell E env conn self' eng st err i = fetch_cell E env conn self eng st err i := by
  simp only [fetch_cell, cell_converter, h]

theorem fetch_cells_congr (E : Engine σ) (env : Env) (conn : Connection) (self self' : Cursor)
    (eng : σ) (st : Nat) (cols : List Nat) (err : Option PyErr) (row : Row)
    (h : self'.row_cast_map = self.row_cast_map) :
    fetch_cells E env conn self' eng st cols err row =
      fetch_cells E env conn self eng st cols err row := by
  induction cols generalizing err row with
  | nil => rfl
  | cons i rest ih =>
    simp only [fetch_cells, fetch_cell_congr E env conn self self' eng st _ i h]
    exact ih _ _

/-- Decoding a row reads of the cursor only its converter map. -/
theorem decode_row_congr (E : Engine σ) (env : Env) (conn : Connection) (self self' : Cursor)
    (eng : σ) (st : Nat) (err : Option PyErr) (h : self'.row_cast_map = self.row_cast_map) :
    decode_row E env conn self' eng st err = decode_row E env conn self eng st err := by
  simp only [decode_row, fetch_cells_congr E env conn self self' eng st _ _ _ h]

/-- A decoded row comes with no exception pending. -/
theorem decode_row_some (E : Engine σ) (env : Env) (conn : Connection) (self : Cursor)
    (eng : σ) (st : Nat) (err : Option PyErr) (row : Row)
    (h : (decode_row E env conn self eng st err).2 = some row) :
    (decode_row E env conn self eng st err).1 = none := by
  simp only [decode_row] at h ⊢
  split at h
  · cases h
  · rename_i hn
    split
    · rename_i hs; exact absurd hs hn
    · simpa using hn

theorem update_counters_self (E : Engine σ) (env : Env) (k : StatementKind) (s : LoopState σ) :
    (update_counters E env k s).self.statement = s.self.statement ∧
    (update_counters E env k s).self.next_row = s.self.next_row ∧
    (update_counters E env k s).self.row_factory = s.self.row_factory ∧
    (update_counters E env k s).self.row_cast_map = s.self.row_cast_map := by
  simp only [update_counters]
  split <;> split <;> exact ⟨rfl, rfl, rfl, rfl⟩

/-- `execute` (single mode) when the first step returns Done: the statement is reset
and released, the look-ahead buffer is as before, nothing is raised. -/
theorem step_phase_done (E : Engine σ) (env : Env) (k : StatementKind) (id : Nat)
    (s : LoopState σ) (h : (E.step s.w.eng (s.w.stmt id).st).2 = SQLITE_DONE) :
    (step_phase E env k false id s).1.self.statement = none ∧
    (step_phase E env k false id s).1.self.next_row = s.self.next_row ∧
    (step_phase E env k false id s).1.self.row_factory = s.self.row_factory ∧
    (step_phase E env k false id s).1.w.err = s.w.err ∧
    ((step_phase E env k false id s).1.w.stmt id).in_use = false ∧
    Frame s.w (step_phase E env k false id s).1.w ∧
    (step_phase E env k false id s).1.w.log = s.w.log ++
      [Event.step Site.execute (s.w.stmt id).st SQLITE_DONE s.w.conn.inTransaction
        (E.changes (E.step s.w.eng (s.w.stmt id).st).1),
       Event.reset (s.w.stmt id).st
        (E.reset (E.step s.w.eng (s.w.stmt id).st).1 (s.w.stmt id).st).2] := by
  have hsr : step_with_schema_retry E s.w id =
      ((eng_step E Site.execute s.w (s.w.stmt id).st).1, some SQLITE_DONE) := by
    simp only [step_with_schema_retry, eng_step, h]
    simp
  have hfr := (calm_step_phase E env k false id s).1
  simp only [step_phase, hsr, finish_step] at hfr ⊢
  have hne : ¬ (SQLITE_DONE = SQLITE_ROW) := by decide
  simp only [hne, false_and, if_false, true_and, and_self, if_true, Bool.false_eq_true] at hfr ⊢
  have hu := update_counters_self E env k
    ({ w := (statement_reset E (eng_step E Site.execute s.w (s.w.stmt id).st).1 id).1,
       self := { build_description E (eng_step E Site.execute s.w (s.w.stmt id).st).1 s.self id
                  SQLITE_DONE k with statement := none },
       rowcount := s.rowcount } : LoopState σ)
  refine ⟨hu.1, ?_, ?_, ?_, ?_, hfr, ?_⟩
  · rw [hu.2.1]; exact (build_description_statement E _ _ id _ k).2.1
  · rw [hu.2.2.1]; exact (build_description_statement E _ _ id _ k).2.2.1
  · simp only [update_counters_w, (statement_reset_facts E _ id).1]; rfl
  · simp only [update_counters_w]; exact (statement_reset_facts E _ id).2.1
  · simp only [update_counters_w, (statement_reset_facts E _ id).2.2.2.2]
    simp [eng_step, World.stmt]
    exact h

/-- `execute` (single mode) when the first step returns Row: the row is decoded into
the look-ahead buffer and the statement stays with the cursor, not reset. -/
theorem step_phase_row (E : Engine σ) (env : Env) (k : StatementKind) (id : Nat)
    (s : LoopState σ) (h : (E.step s.w.eng (s.w.stmt id).st).2 = SQLITE_ROW) :
    (step_phase E env k false id s).1.self.statement = s.self.statement ∧
    (step_phase E env k false id s).1.self.next_row =
      (decode_row E env s.w.conn s.self (E.step s.w.eng (s.w.stmt id).st).1 (s.w.stmt id).st
        s.w.err).2 ∧
    (step_phase E env k false id s).1.self.row_factory = s.self.row_factory ∧
    (step_phase E env k false id s).1.self.row_cast_map = s.self.row_cast_map ∧
    (step_phase E env k false id s).1.w.err =
      (decode_row E env s.w.conn s.self (E.step s.w.eng (s.w.stmt id).st).1 (s.w.stmt id).st
        s.w.err).1 ∧
    (step_phase E env k false id s).1.w.eng = (E.step s.w.eng (s.w.stmt id).st).1 ∧
    (step_phase E env k false id s).1.w.conn = s.w.conn ∧
    (step_phase E env k false id s).1.w.thread = s.w.thread ∧
    (step_phase E env k false id s).1.w.heap = s.w.heap := by
  have hsr : step_with_schema_retry E s.w id =
      ((eng_step E Site.execute s.w (s.w.stmt id).st).1, some SQLITE_ROW) := by
    simp only [step_with_schema_retry, eng_step, h]
    simp
  simp only [step_phase, hsr, finish_step]
  simp only [Bool.false_eq_true, and_false, if_false, if_true]
  have hu := update_counters_self E env k
    ({ w := (_fetch_one_row E env (eng_step E Site.execute s.w (s.w.stmt id).st).1
          (build_description E (eng_step E Site.execute s.w (s.w.stmt id).st).1 s.self id
            SQLITE_ROW k) id).1,
       self := { build_description E (eng_step E Site.execute s.w (s.w.stmt id).st).1 s.self id
                  SQLITE_ROW k with
                 next_row := (_fetch_one_row E env (eng_step E Site.execute s.w (s.w.stmt id).st).1
                    (build_description E (eng_step E Site.execute s.w (s.w.stmt id).st).1 s.self
                      id SQLITE_ROW k) id).2 },
       rowcount := s.rowcount } : LoopState σ)
  have hd := build_description_statement E (eng_step E Site.execute s.w (s.w.stmt id).st).1 s.self
    id SQLITE_ROW k
  have hdec := decode_row_congr E env s.w.conn s.self
    (build_description E (eng_step E Site.execute s.w (s.w.stmt id).st).1 s.self id SQLITE_ROW k)
    (E.step s.w.eng (s.w.stmt id).st).1 (s.w.stmt id).st s.w.err hd.2.2.2.2.2
  refine ⟨?_, ?_, ?_, ?_, ?_, ?_, ?_, ?_, ?_⟩
  · rw [hu.1]; exact hd.1
  · rw [hu.2.1]
    simp only [_fetch_one_row]
    exact congrArg Prod.snd hdec
  · rw [hu.2.2.1]; exact hd.2.2.1
  · rw [hu.2.2.2]; exact hd.2.2.2.2.2
  · simp only [update_counters_w, _fetch_one_row]
    exact congrArg Prod.fst hdec
  · simp only [update_counters_w]; rfl
  · simp only [update_counters_w]; rfl
  · simp only [update_counters_w]; rfl
  · simp only [update_counters_w]; rfl

/-! ### `next` case by case -/

/-- `next` with an empty buffer and no statement: exhaustion, nothing changes. -/
theorem iternext_idle (E : Engine σ) (env : Env) (w : World σ) (self : Cursor)
    (hc : (check_thread_and_connection w).2 = true) (hn : self.next_row = none)
    (hs : self.statement = none) : cursor_iternext E env w self = (w, self, none) := by
  simp only [cursor_iternext, hc, check_pass w hc, hn, hs, Bool.not_true, Bool.false_eq_true,
    if_false]

/-- `next` with an empty buffer and a statement: exhaustion; the statement is reset
and released. -/
theorem iternext_release (E : Engine σ) (env : Env) (w : World σ) (self : Cursor) (id : Nat)
    (hc : (check_thread_and_connection w).2 = true) (hn : self.next_row = none)
    (hs : self.statement = some id) :
    cursor_iternext E env w self =
      ((statement_reset E w id).1, { self with statement := none }, none) := by
  simp only [cursor_iternext, hc, check_pass w hc, hn, hs, Bool.not_true, Bool.false_eq_true,
    if_false]

/-- `next` with a buffered row when the refill step returns Done: the row is handed
out, the buffer is left empty, and the statement stays with the cursor, not reset. -/
theorem iternext_last (E : Engine σ) (env : Env) (w : World σ) (self : Cursor) (id : Nat)
    (t : Row) (hc : (check_thread_and_connection w).2 = true) (hn : self.next_row = some t)
    (hs : self.statement = some id) (hf : self.row_factory = none)
    (hd : (E.step w.eng (w.stmt id).st).2 = SQLITE_DONE) :
    cursor_iternext E env w self =
      ((eng_step E Site.iternext w (w.stmt id).st).1, { self with next_row := none },
        some (NextResult.row t)) := by
  have hne : ¬ (SQLITE_DONE = SQLITE_ROW) := by decide
  simp only [cursor_iternext, hc, check_pass w hc, hn, hs, hf, Bool.not_true, Bool.false_eq_true,
    if_false, eng_step, hd, ne_eq, not_true_eq_false, false_and, hne]

/-- `next` with a buffered row when the refill step returns Row: the buffered row is
handed out and the new row is decoded into the buffer. -/
theorem iternext_more (E : Engine σ) (env : Env) (w : World σ) (self : Cursor) (id : Nat)
    (t : Row) (hc : (check_thread_and_connection w).2 = true) (hn : self.next_row = some t)
    (hs : self.statement = some id) (hf : self.row_factory = none)
    (hd : (E.step w.eng (w.stmt id).st).2 = SQLITE_ROW) :
    cursor_iternext E env w self =
      ((_fetch_one_row E env (eng_step E Site.iternext w (w.stmt id).st).1
          { self with next_row := none } id).1,
        { self with next_row := (_fetch_one_row E env (eng_step E Site.iternext w (w.stmt id).st).1
          { self with next_row := none } id).2 },
        some (NextResult.row t)) := by
  have hne : ¬ (SQLITE_ROW = SQLITE_DONE) := by decide
  simp only [cursor_iternext, hc, check_pass w hc, hn, hs, hf, Bool.not_true, Bool.false_eq_true,
    if_false, eng_step, hd, ne_eq, not_true_eq_false, and_false, hne, if_true]

theorem row_stream_congr (E : Engine σ) (env : Env) (conn : Connection) (self self' : Cursor)
    (st : Nat) (eng : σ) (rows : List Row) (h : self'.row_cast_map = self.row_cast_map) :
    row_stream E env conn self' st eng rows = row_stream E env conn self st eng rows := by
  induction rows generalizing eng with
  | nil => rfl
  | cons r rest ih =>
    simp only [row_stream, decode_row_congr E env conn self self' _ st none h, ih]

/-- Once the buffer is empty every further `next` signals exhaustion: it returns NULL
with no exception pending, and the fault flag is left as it was. -/
theorem iterate_exhausted (E : Engine σ) (env : Env) (k : Nat) (w : World σ) (self : Cursor)
    (hc : (check_thread_and_connection w).2 = true) (hn : self.next_row = none)
    (he : w.err = none) :
    iterate_next E env k w self = List.replicate k (none, none, w.fault) := by
  induction k generalizing w self with
  | zero => rfl
  | succ k ih =>
    simp only [iterate_next, List.replicate_succ]
    cases hs : self.statement with
    | none =>
      rw [iternext_idle E env w self hc hn hs]
      simp only [ih w self hc hn he, he]
    | some id =>
      rw [iternext_release E env w self id hc hn hs]
      have hc' : (check_thread_and_connection (statement_reset E w id).1).2 = true :=
        check_of_frame (calm_statement_reset E w id).1 hc
      have he' : (statement_reset E w id).1.err = none := he
      have hf' : (statement_reset E w id).1.fault = w.fault := rfl
      rw [ih (statement_reset E w id).1 { self with statement := none } hc' hn he', he', hf']

/-- With a row in the buffer and the engine still to deliver `rest`, successive `next`
calls hand out the buffered row, then the rows of `rest` in order, then signal
exhaustion for ever; no call leaves an exception pending or sets the fault flag. -/
theorem iterate_buffered (E : Engine σ) (env : Env) (id : Nat) (rest : List Row) (k : Nat)
    (w : World σ) (self : Cursor) (t : Row)
    (hc : (check_thread_and_connection w).2 = true) (hn : self.next_row = some t)
    (hs : self.statement = some id) (hf : self.row_factory = none) (he : w.err = none)
    (hrows : row_stream E env w.conn self (w.stmt id).st w.eng rest = true) :
    iterate_next E env (rest.length + k + 1) w self =
      (some (NextResult.row t), none, w.fault) ::
        (rest.map (fun r => (some (NextResult.row r), none, w.fault)) ++
          List.replicate k (none, none, w.fault)) := by
  induction rest generalizing w self t with
  | nil =>
    simp only [row_stream, decide_eq_true_eq] at hrows
    simp only [iterate_next, List.length_nil, Nat.zero_add, List.map_nil, List.nil_append]
    rw [iternext_last E env w self id t hc hn hs hf hrows]
    have hc' : (check_thread_and_connection (eng_step E Site.iternext w (w.stmt id).st).1).2
        = true := check_of_frame (calm_eng_step E _ w _ (Or.inr (Or.inr rfl))).1 hc
    have he' : (eng_step E Site.iternext w (w.stmt id).st).1.err = none := he
    have hf' : (eng_step E Site.iternext w (w.stmt id).st).1.fault = w.fault := rfl
    rw [iterate_exhausted E env k (eng_step E Site.iternext w (w.stmt id).st).1
      { self with next_row := none } hc' rfl he', he', hf']
  | cons r rest ih =>
    simp only [row_stream, Bool.and_eq_true, decide_eq_true_eq] at hrows
    obtain ⟨⟨hrow, hdec⟩, hrest⟩ := hrows
    have hlen : (r :: rest).length + k + 1 = (rest.length + k + 1) + 1 := by
      simp only [List.length_cons]; omega
    rw [hlen]
    simp only [iterate_next, List.map_cons, List.cons_append]
    rw [iternext_more E env w self id t hc hn hs hf hrow]
    have hdec' : decode_row E env w.conn { self with next_row := none }
        (E.step w.eng (w.stmt id).st).1 (w.stmt id).st w.err =
        decode_row E env w.conn self (E.step w.eng (w.stmt id).st).1 (w.stmt id).st none := by
      rw [he]; exact decode_row_congr E env w.conn self _ _ _ none rfl
    have hfetch : _fetch_one_row E env (eng_step E Site.iternext w (w.stmt id).st).1
        { self with next_row := none } id =
        ({ (eng_step E Site.iternext w (w.stmt id).st).1 with err := none }, some r) := by
      simp only [_fetch_one_row]
      have h1 : decode_row E env (eng_step E Site.iternext w (w.stmt id).st).1.conn
          { self with next_row := none } (eng_step E Site.iternext w (w.stmt id).st).1.eng
          (((eng_step E Site.iternext w (w.stmt id).st).1).stmt id).st
          (eng_step E Site.iternext w (w.stmt id).st).1.err =
          decode_row E env w.conn self (E.step w.eng (w.stmt id).st).1 (w.stmt id).st none :=
        hdec'
      rw [h1, hdec, decode_row_some E env w.conn self _ _ none r hdec]
    rw [hfetch]
    have hc' : (check_thread_and_connection
        ({ (eng_step E Site.iternext w (w.stmt id).st).1 with err := none } : World σ)).2 = true :=
      (check_iff _).mpr ((check_iff w).mp hc)
    have hi := ih ({ (eng_step E Site.iternext w (w.stmt id).st).1 with err := none } : World σ)
      { self with next_row := some r } r hc' rfl hs hf rfl
      (by
        rw [row_stream_congr E env _ self { self with next_row := some r } _ _ _ rfl]
        exact hrest)
    have hf' : ({ (eng_step E Site.iternext w (w.stmt id).st).1 with err := none } :
        World σ).fault = w.fault := rfl
    rw [hf'] at hi
    exact congrArg (List.cons (some (NextResult.row t), none, w.fault)) hi

/-- C6: let execute reach the first step of its statement with no exception pending
and no row factory set, and let the engine's row stream from there be r1..rn (every
step succeeding, each row decoding).  Then execute succeeds, and the following
`next` calls return r1, ..., rn in that order, each exactly once and with no
exception pending; the (n+1)-th and every later call signals exhaustion: it returns
NULL with no exception pending.  No call sets the fault flag. -/
theorem rows_come_in_order_once (E : Engine σ) (env : Env) (w : World σ) (self : Cursor)
    (operation : String) (p : Params) (sb : LoopState σ) (id : Nat) (rows : List Row)
    (r : World σ × Cursor × Option PyObj)
    (hr : r = cursor_execute E env w self operation (some p))
    (hready : execute_ready E env w self operation p = some (sb, id))
    (herr : sb.w.err = none) (hfactory : self.row_factory = none)
    (hrows : row_stream E env sb.w.conn sb.self (sb.w.stmt id).st sb.w.eng rows = true) :
    r.2.2 = some PyObj.none ∧
    r.1.err = none ∧
    ∀ k, iterate_next E env (rows.length + k) r.1 r.2.1 =
      rows.map (fun row => (some (NextResult.row row), none, r.1.fault)) ++
        List.replicate k (none, none, r.1.fault) := by
  obtain ⟨hst, hnext, hfac, _, hchk⟩ := execute_ready_facts E env w self operation p sb id hready
  rw [hfactory] at hfac
  rw [hr, execute_from_ready E env w self operation p sb id hready]
  have hq := query_return_world
    (step_phase E env (detect_statement_type operation) false id sb).1.w
    (step_phase E env (detect_statement_type operation) false id sb).1.self
  rw [hq.1, hq.2.1]
  cases rows with
  | nil =>
    simp only [row_stream, decide_eq_true_eq] at hrows
    obtain ⟨h1, h2, h3, h4, _, h6, _⟩ :=
      step_phase_done E env (detect_statement_type operation) id sb hrows
    refine ⟨?_, ?_, ?_⟩
    · cases hx : (query_return
          (step_phase E env (detect_statement_type operation) false id sb).1.w
          (step_phase E env (detect_statement_type operation) false id sb).1.self).2.2 with
      | none =>
        have := hq.2.2.mp hx
        rw [h4, herr] at this
        simp at this
      | some v =>
        simp only [query_return] at hx
        split at hx
        · cases hx
        · simp only [Option.some.injEq] at hx
          rw [← hx]
    · rw [h4, herr]
    · intro k
      simp only [List.length_nil, Nat.zero_add, List.map_nil, List.nil_append]
      exact iterate_exhausted E env k _ _ (check_of_frame h6 hchk) (by rw [h2, hnext])
        (by rw [h4, herr])
  | cons t rest =>
    simp only [row_stream, Bool.and_eq_true, decide_eq_true_eq] at hrows
    obtain ⟨⟨hrow, hdec⟩, hrest⟩ := hrows
    obtain ⟨h1, h2, h3, h4, h5, h6, h7, h8, h9⟩ :=
      step_phase_row E env (detect_statement_type operation) id sb hrow
    rw [herr] at h2 h5
    rw [hdec] at h2
    rw [decode_row_some E env _ _ _ _ none t hdec] at h5
    refine ⟨?_, ?_, ?_⟩
    · cases hx : (query_return
          (step_phase E env (detect_statement_type operation) false id sb).1.w
          (step_phase E env (detect_statement_type operation) false id sb).1.self).2.2 with
      | none =>
        have := hq.2.2.mp hx
        rw [h5] at this
        simp at this
      | some v =>
        simp only [query_return] at hx
        split at hx
        · cases hx
        · simp only [Option.some.injEq] at hx
          rw [← hx]
    · exact h5
    · intro k
      have hlen : (t :: rest).length + k = rest.length + k + 1 := by
        simp only [List.length_cons]; omega
      rw [hlen, List.map_cons, List.cons_append]
      have hc' : (check_thread_and_connection
          (step_phase E env (detect_statement_type operation) false id sb).1.w).2 = true := by
        rw [check_iff] at hchk ⊢
        rw [h7, h8]; exact hchk
      apply iterate_buffered E env id rest k _ _ t hc' h2 (by rw [h1, hst])
        (by rw [h3, hfac]) h5
      have hstmt : ((step_phase E env (detect_statement_type operation) false id sb).1.w.stmt id)
          = sb.w.stmt id := by
        simp only [World.stmt, h9]
      rw [hstmt, h6, h7, row_stream_congr E env _ sb.self _ _ _ _ h4]
      exact hrest

/-- C6, witness: a SELECT whose engine stream is the rows (1,) and (2,); three `next`
calls after execute give (1,), (2,) and exhaustion, none with an exception pending
or a fault. -/
theorem rows_come_in_order_once_witness :
    (execute_ready scripted env64 (World.fresh Script.two_rows) Cursor.fresh "SELECT x FROM t"
      (Params.seq [])).isSome = true ∧
    (cursor_execute scripted env64 (World.fresh Script.two_rows) Cursor.fresh "SELECT x FROM t"
        (some (Params.seq []))).1.fault = false ∧
    iterate_next scripted env64 3
      (cursor_execute scripted env64 (World.fresh Script.two_rows) Cursor.fresh "SELECT x FROM t"
        (some (Params.seq []))).1
      (cursor_execute scripted env64 (World.fresh Script.two_rows) Cursor.fresh "SELECT x FROM t"
        (some (Params.seq []))).2.1 =
      [(some (NextResult.row [some (PyObj.int 1)]), none, false),
       (some (NextResult.row [some (PyObj.int 2)]), none, false),
       (none, none, false)] :=
  ⟨by decide, by decide,
    ((rows_come_in_order_once scripted env64 (World.fresh Script.two_rows) Cursor.fresh
      "SELECT x FROM t" (Params.seq [])
      ((execute_ready scripted env64 (World.fresh Script.two_rows) Cursor.fresh "SELECT x FROM t"
        (Params.seq [])).get (by decide)).1
      ((execute_ready scripted env64 (World.fresh Script.two_rows) Cursor.fresh "SELECT x FROM t"
        (Params.seq [])).get (by decide)).2
      [[some (PyObj.int 1)], [some (PyObj.int 2)]] _ rfl
      (Option.some_get (by decide)).symm (by decide) rfl (by decide)).2.2 1).trans
      (by decide)⟩

/-- C7, counterexample: a SELECT with one row.  The `next` call that hands out the
row makes the refill step, which returns Done; when that call returns the cursor
still holds the statement and its `in_use` flag is set: it has not been reset. -/
theorem done_in_next_does_not_release :
    (cursor_iternext scripted env64
      (cursor_execute scripted env64 (World.fresh Script.one_row) Cursor.fresh "SELECT x FROM t"
        none).1
      (cursor_execute scripted env64 (World.fresh Script.one_row) Cursor.fresh "SELECT x FROM t"
        none).2.1).2.2 = some (NextResult.row [some (PyObj.int 1)]) ∧
    (cursor_iternext scripted env64
      (cursor_execute scripted env64 (World.fresh Script.one_row) Cursor.fresh "SELECT x FROM t"
        none).1
      (cursor_execute scripted env64 (World.fresh Script.one_row) Cursor.fresh "SELECT x FROM t"
        none).2.1).1.log =
      [Event.prepare Site.execute "SELECT x FROM t" SQLITE_OK,
       Event.reset 0 SQLITE_OK,
       Event.step Site.execute 0 SQLITE_ROW false 0,
       Event.step Site.iternext 0 SQLITE_DONE false 0] ∧
    (cursor_iternext scripted env64
      (cursor_execute scripted env64 (World.fresh Script.one_row) Cursor.fresh "SELECT x FROM t"
        none).1
      (cursor_execute scripted env64 (World.fresh Script.one_row) Cursor.fresh "SELECT x FROM t"
        none).2.1).2.1.statement = some 0 ∧
    ((cursor_iternext scripted env64
      (cursor_execute scripted env64 (World.fresh Script.one_row) Cursor.fresh "SELECT x FROM t"
        none).1
      (cursor_execute scripted env64 (World.fresh Script.one_row) Cursor.fresh "SELECT x FROM t"
        none).2.1).1.stmt 0).in_use = true := by
  refine ⟨by decide, by decide, by decide, by decide⟩

/-- `next` with a buffered row when the refill step returns Done, whatever the row
factory: the statement stays with the cursor and no statement object is touched;
the buffer is left empty and the only engine call traced is that step. -/
theorem iternext_done_keeps (E : Engine σ) (env : Env) (w : World σ) (self : Cursor) (id : Nat)
    (t : Row) (hc : (check_thread_and_connection w).2 = true) (hn : self.next_row = some t)
    (hs : self.statement = some id) (hd : (E.step w.eng (w.stmt id).st).2 = SQLITE_DONE) :
    (cursor_iternext E env w self).2.1.statement = some id ∧
    (cursor_iternext E env w self).2.1.next_row = none ∧
    (cursor_iternext E env w self).1.heap = w.heap ∧
    (cursor_iternext E env w self).1.conn = w.conn ∧
    (cursor_iternext E env w self).1.thread = w.thread ∧
    (cursor_iternext E env w self).1.log = w.log ++
      [Event.step Site.iternext (w.stmt id).st SQLITE_DONE w.conn.inTransaction
        (E.changes (E.step w.eng (w.stmt id).st).1)] := by
  have hne : ¬ (SQLITE_DONE = SQLITE_ROW) := by decide
  simp only [cursor_iternext, hc, check_pass w hc, hn, hs, Bool.not_true, Bool.false_eq_true,
    if_false]
  cases hf : self.row_factory with
  | none =>
    simp only [eng_step, hd, ne_eq, not_true_eq_false, false_and, hne, if_false]
    exact ⟨trivial, trivial, trivial, trivial, trivial, trivial⟩
  | some f =>
    simp only []
    cases hft : f t with
    | none =>
      have hd' : (E.step (w.raise PyErr.callable_raised).eng
          ((w.raise PyErr.callable_raised).stmt id).st).2 = SQLITE_DONE := hd
      simp only [eng_step, hd', ne_eq, not_true_eq_false, false_and, hne, if_false]
      exact ⟨trivial, trivial, rfl, rfl, rfl, rfl⟩
    | some o =>
      simp only [eng_step, hd, ne_eq, not_true_eq_false, false_and, hne, if_false]
      exact ⟨trivial, trivial, trivial, trivial, trivial, trivial⟩

/-- C7, amended: in single-execute mode, when the engine signals Done on the first
step inside execute, the statement is reset and the cursor holds no statement when
execute returns; when the engine signals Done on the refill step inside `next`, the
statement is still held by the cursor, not reset, when that call returns, and it is
the following `next` call (the one that signals exhaustion) that resets and releases
it. -/
theorem done_releases_statement :
    (∀ (E : Engine σ) (env : Env) (w : World σ) (self : Cursor) (operation : String)
        (p : Params) (sb : LoopState σ) (id : Nat),
      execute_ready E env w self operation p = some (sb, id) →
      (E.step sb.w.eng (sb.w.stmt id).st).2 = SQLITE_DONE →
      (cursor_execute E env w self operation (some p)).2.1.statement = none ∧
      ((cursor_execute E env w self operation (some p)).1.stmt id).in_use = false ∧
      (cursor_execute E env w self operation (some p)).1.log = sb.w.log ++
        [Event.step Site.execute (sb.w.stmt id).st SQLITE_DONE sb.w.conn.inTransaction
          (E.changes (E.step sb.w.eng (sb.w.stmt id).st).1),
         Event.reset (sb.w.stmt id).st
          (E.reset (E.step sb.w.eng (sb.w.stmt id).st).1 (sb.w.stmt id).st).2]) ∧
    (∀ (E : Engine σ) (env : Env) (w : World σ) (self : Cursor) (id : Nat) (t : Row),
      (check_thread_and_connection w).2 = true → self.next_row = some t →
      self.statement = some id → (E.step w.eng (w.stmt id).st).2 = SQLITE_DONE →
      (cursor_iternext E env w self).2.1.statement = some id ∧
      (cursor_iternext E env w self).1.heap = w.heap ∧
      (cursor_iternext E env w self).1.log = w.log ++
        [Event.step Site.iternext (w.stmt id).st SQLITE_DONE w.conn.inTransaction
          (E.changes (E.step w.eng (w.stmt id).st).1)] ∧
      (cursor_iternext E env (cursor_iternext E env w self).1
        (cursor_iternext E env w self).2.1).2.2 = none ∧
      (cursor_iternext E env (cursor_iternext E env w self).1
        (cursor_iternext E env w self).2.1).2.1.statement = none ∧
      ((cursor_iternext E env (cursor_iternext E env w self).1
        (cursor_iternext E env w self).2.1).1.stmt id).in_use = false) := by
  constructor
  · intro E env w self operation p sb id hready hdone
    rw [execute_from_ready E env w self operation p sb id hready,
      (query_return_world _ _).1, (query_return_world _ _).2.1]
    obtain ⟨h1, _, _, _, h5, _, h7⟩ :=
      step_phase_done E env (detect_statement_type operation) id sb hdone
    exact ⟨h1, h5, h7⟩
  · intro E env w self id t hc hn hs hd
    obtain ⟨h1, h2, h3, h4, h5, h6⟩ := iternext_done_keeps E env w self id t hc hn hs hd
    have hc' : (check_thread_and_connection (cursor_iternext E env w self).1).2 = true := by
      rw [check_iff] at hc ⊢
      rw [h4, h5]; exact hc
    refine ⟨h1, h3, h6, ?_⟩
    rw [iternext_release E env _ _ id hc' h2 h1]
    exact ⟨rfl, rfl, (statement_reset_facts E _ id).2.1⟩

/-- C7, witness: execute of a statement whose first step returns Done, and the two
`next` calls that end the iteration over a one-row SELECT. -/
theorem done_releases_statement_witness :
    (cursor_execute scripted env64 (World.fresh Script.idle) Cursor.fresh "CREATE TABLE t(x)"
      (some (Params.seq []))).2.1.statement = none ∧
    (cursor_iternext scripted env64
      (cursor_iternext scripted env64
        (cursor_execute scripted env64 (World.fresh Script.one_row) Cursor.fresh
          "SELECT x FROM t" none).1
        (cursor_execute scripted env64 (World.fresh Script.one_row) Cursor.fresh
          "SELECT x FROM t" none).2.1).1
      (cursor_iternext scripted env64
        (cursor_execute scripted env64 (World.fresh Script.one_row) Cursor.fresh
          "SELECT x FROM t" none).1
        (cursor_execute scripted env64 (World.fresh Script.one_row) Cursor.fresh
          "SELECT x FROM t" none).2.1).2.1).2.1.statement = none :=
  ⟨(done_releases_statement.1 scripted env64 (World.fresh Script.idle) Cursor.fresh
      "CREATE TABLE t(x)" (Params.seq [])
      ((execute_ready scripted env64 (World.fresh Script.idle) Cursor.fresh "CREATE TABLE t(x)"
        (Params.seq [])).get (by decide)).1
      ((execute_ready scripted env64 (World.fresh Script.idle) Cursor.fresh "CREATE TABLE t(x)"
        (Params.seq [])).get (by decide)).2
      (Option.some_get (by decide)).symm (by decide)).1,
   (done_releases_statement.2 scripted env64
      (cursor_execute scripted env64 (World.fresh Script.one_row) Cursor.fresh
        "SELECT x FROM t" none).1
      (cursor_execute scripted env64 (World.fresh Script.one_row) Cursor.fresh
        "SELECT x FROM t" none).2.1 0 [some (PyObj.int 1)]
      (by decide) (by decide) (by decide) (by decide)).2.2.2.2.1⟩

/-! ## lastrowid -/

theorem update_counters_lastrowid (E : Engine σ) (env : Env) (k : StatementKind)
    (s : LoopState σ) :
    (update_counters E env k s).self.lastrowid =
      if k = STATEMENT_INSERT then
        some (wrap_long env.LONG_BIT (E.last_insert_rowid s.w.eng))
      else none := by
  simp only [update_counters]
  split <;> split <;> rfl

/-- What a successful execute leaves in lastrowid: for an INSERT the engine's
last_insert_rowid cast to a C long, for every other kind None, whatever it was
before. -/
theorem lastrowid_after_execute (E : Engine σ) (env : Env) (w : World σ) (self : Cursor)
    (operation : String) (second_argument : Option Params)
    (hok : (cursor_execute E env w self operation second_argument).2.2 ≠ none) :
    (cursor_execute E env w self operation second_argument).2.1.lastrowid =
      if detect_statement_type operation = STATEMENT_INSERT then
        some (wrap_long env.LONG_BIT (E.last_insert_rowid
          (cursor_execute E env w self operation second_argument).1.eng))
      else none := by
  simp only [cursor_execute] at hok ⊢
  have hnull := query_execute_null_iff E env w self false operation
    [second_argument.getD (Params.seq [])]
  have herr : (_query_execute E env w self false operation
      [second_argument.getD (Params.seq [])]).1.err = none := by
    cases h : (_query_execute E env w self false operation
        [second_argument.getD (Params.seq [])]).1.err
    · rfl
    · exact absurd (hnull.mpr (by rw [h]; rfl)) hok
  by_cases hchk : (check_thread_and_connection w).2 = true
  · cases hp : (query_prologue E env w self false operation).2
    · exfalso
      have hfacts := (query_prologue_facts E env w self false operation).1 hp
      have : (_query_execute E env w self false operation
          [second_argument.getD (Params.seq [])]).1 =
          (query_prologue E env w self false operation).1.1 := by
        simp only [_query_execute, hchk, check_pass w hchk, hp, Bool.not_true,
          Bool.false_eq_true, if_false]
        exact (query_return_world _ _).1
      rw [this] at herr
      rw [herr] at hfacts
      simp at hfacts
    · rename_i npn
      have hpro : query_prologue E env w self false operation =
          (((query_prologue E env w self false operation).1.1,
            (query_prologue E env w self false operation).1.2), some npn) :=
        Prod.ext rfl hp
      obtain ⟨id, hid⟩ := query_prologue_statement E env w self false operation _ _ npn hpro
      have hunf := query_execute_unfold E env w self false operation
        [second_argument.getD (Params.seq [])] _ _ npn hchk hpro
      rw [hunf, (query_return_world _ _).1, query_loop_single] at herr
      rw [hunf, (query_return_world _ _).1, (query_return_world _ _).2.1, query_loop_single]
      cases hb : (bind_parameters E env
          (statement_mark_dirty (query_prologue E env w self false operation).1.1 id) id npn
          (second_argument.getD (Params.seq []))).2
      · exfalso
        have hq := query_body_bind_fail E env (detect_statement_type operation) false npn _
          { w := (query_prologue E env w self false operation).1.1,
            self := (query_prologue E env w self false operation).1.2, rowcount := 0 } id hid hb
        rw [hq] at herr
        have := bind_parameters_fail_err E env _ id npn _ hb
        simp only at herr
        rw [herr] at this
        simp at this
      · have hq := query_body_bind_ok E env (detect_statement_type operation) false npn _
          { w := (query_prologue E env w self false operation).1.1,
            self := (query_prologue E env w self false operation).1.2, rowcount := 0 } id hid hb
        rw [hq] at herr ⊢
        simp only [step_phase] at herr ⊢
        rcases step_with_schema_retry_cases E
          (bind_parameters E env
            (statement_mark_dirty (query_prologue E env w self false operation).1.1 id) id npn
            (second_argument.getD (Params.seq []))).1 id with ⟨hn, he⟩ | ⟨rc, hrc, _, _⟩
        · exfalso
          simp only [hn] at herr
          rw [herr] at he
          simp at he
        · simp only [hrc, finish_step, Bool.false_eq_true, and_false, if_false]
          simp only [update_counters_lastrowid, update_counters_w]
  · exfalso
    have hc : (check_thread_and_connection w).2 = false := by simpa using hchk
    have herr2 := check_fail_err w hc
    have : (_query_execute E env w self false operation
        [second_argument.getD (Params.seq [])]).1 = (check_thread_and_connection w).1 := by
      simp only [_query_execute, hc, Bool.not_false, if_true]
    rw [this] at herr
    rw [herr] at herr2
    simp at herr2

/-- The cast to a 64-bit long keeps every signed 64-bit value. -/
theorem wrap_long_64 (v : Int) (h1 : -(2 : Int) ^ 63 ≤ v) (h2 : v < (2 : Int) ^ 63) :
    wrap_long 64 v = v := by
  simp only [wrap_long]
  have h : (v + 2 ^ (64 - 1)) % 2 ^ 64 = v + 2 ^ 63 := by
    apply Int.emod_eq_of_lt <;> norm_num <;> omega
  rw [h]
  norm_num

/-! ## Statement classification -/

theorem skip_whitespace_eq (cs : List Char) : skip_whitespace cs = cs.dropWhile is_space := by
  induction cs with
  | nil => rfl
  | cons c cs ih =>
    simp only [skip_whitespace, List.dropWhile]
    split <;> simp_all

theorem copy_keyword_eq (n : Nat) (src : List Char) :
    copy_keyword n src = ((src.takeWhile Char.isAlpha).map Char.toLower).take n := by
  induction n generalizing src with
  | zero => cases src <;> simp [copy_keyword]
  | succ n ih =>
    cases src with
    | nil => simp [copy_keyword]
    | cons c cs =>
      simp only [copy_keyword, List.takeWhile]
      split <;> simp_all

/-- A buffer of 18 letters tells a keyword of fewer letters from everything else. -/
theorem keyword_within_buffer (k : List Char) (kw : String) (h : kw.length < 18) :
    (String.mk (k.take 18) = kw) = (String.mk k = kw) := by
  apply propext
  have hk : kw.data.length < 18 := h
  constructor
  · intro e
    have e2 : k.take 18 = kw.data := by rw [← e]
    have hl : (k.take 18).length < 18 := by rw [e2]; exact hk
    have hlen : k.length < 18 := by
      rw [List.length_take] at hl
      omega
    rw [List.take_of_length_le (by omega)] at e
    exact e
  · intro e
    have e2 : k = kw.data := by rw [← e]
    rw [List.take_of_length_le (by rw [e2]; omega)]
    exact e

theorem detect_statement_type_eq_spec (s : String) :
    detect_statement_type s = detect_statement_type_spec (c_chars s) := by
  simp only [detect_statement_type, detect_statement_type_spec, skip_whitespace_eq,
    copy_keyword_eq]
  cases h : List.dropWhile is_space (c_chars s) with
  | nil => simp
  | cons c cs =>
    simp only [keyword_within_buffer _ "select" (by decide),
      keyword_within_buffer _ "insert" (by decide),
      keyword_within_buffer _ "update" (by decide),
      keyword_within_buffer _ "delete" (by decide),
      keyword_within_buffer _ "replace" (by decide)]
    simp


theorem toLower_facts (c : Char) :
    is_space c.toLower = is_space c ∧ c.toLower.isAlpha = c.isAlpha ∧
    c.toLower.toLower = c.toLower ∧ ((c.toLower != Char.ofNat 0) = (c != Char.ofNat 0)) := by
  by_cases h : 65 ≤ c.toNat ∧ c.toNat ≤ 90
  · obtain ⟨h1, h2⟩ := h
    have hc : c = Char.ofNat c.toNat := (Char.ofNat_toNat c).symm
    generalize c.toNat = n at h1 h2 hc
    subst hc
    interval_cases n <;> decide
  · have : c.toLower = c := by
      simp only [Char.toLower]
      rw [if_neg]
      exact h
    rw [this]
    exact ⟨rfl, rfl, this, rfl⟩

theorem dropWhile_space_lower (text : List Char) :
    (text.map Char.toLower).dropWhile is_space = (text.dropWhile is_space).map Char.toLower := by
  induction text with
  | nil => rfl
  | cons c cs ih =>
    simp only [List.map, List.dropWhile, (toLower_facts c).1]
    split
    · exact ih
    · rfl

theorem takeWhile_alpha_lower (text : List Char) :
    (text.map Char.toLower).takeWhile Char.isAlpha =
      (text.takeWhile Char.isAlpha).map Char.toLower := by
  induction text with
  | nil => rfl
  | cons c cs ih =>
    simp only [List.map, List.takeWhile, (toLower_facts c).2.1]
    split
    · simp [ih]
    · rfl

theorem map_lower_lower (text : List Char) :
    (text.map Char.toLower).map Char.toLower = text.map Char.toLower := by
  induction text with
  | nil => rfl
  | cons c cs ih =>
    simp only [List.map, (toLower_facts c).2.2.1]
    exact congrArg (List.cons _) ih

theorem c_chars_lower (l : List Char) :
    (l.map Char.toLower).takeWhile (fun c => c != Char.ofNat 0) =
      (l.takeWhile (fun c => c != Char.ofNat 0)).map Char.toLower := by
  induction l with
  | nil => rfl
  | cons c cs ih =>
    simp only [List.map, List.takeWhile, (toLower_facts c).2.2.2]
    split
    · simp [ih]
    · rfl

/-- The classification of the specification looks at the text only up to letter
case. -/
theorem spec_lower (text : List Char) :
    detect_statement_type_spec (text.map Char.toLower) = detect_statement_type_spec text := by
  simp only [detect_statement_type_spec, dropWhile_space_lower, takeWhile_alpha_lower,
    map_lower_lower, List.map_eq_nil_iff]

/-- Leading whitespace does not change the classification of the specification. -/
theorem spec_whitespace (ws text : List Char) (h : ∀ c ∈ ws, is_space c = true) :
    detect_statement_type_spec (ws ++ text) = detect_statement_type_spec text := by
  have : (ws ++ text).dropWhile is_space = text.dropWhile is_space := by
    induction ws with
    | nil => rfl
    | cons c cs ih =>
      simp only [List.cons_append, List.dropWhile, h c (List.mem_cons_self _ _)]
      exact ih (fun x hx => h x (List.mem_cons_of_mem _ hx))
  simp only [detect_statement_type_spec, this]

theorem c_chars_whitespace (ws text : List Char) (h : ∀ c ∈ ws, is_space c = true) :
    (ws ++ text).takeWhile (fun c => c != Char.ofNat 0) =
      ws ++ text.takeWhile (fun c => c != Char.ofNat 0) := by
  induction ws with
  | nil => rfl
  | cons c cs ih =>
    have hc : is_space c = true := h c (List.mem_cons_self _ _)
    have hn : (c != Char.ofNat 0) = true := by
      simp only [is_space, Bool.or_eq_true, beq_iff_eq] at hc
      rcases hc with ((hc | hc) | hc) | hc <;> subst hc <;> decide
    simp only [List.cons_append, List.takeWhile, hn]
    exact congrArg (List.cons c) (ih (fun x hx => h x (List.mem_cons_of_mem _ hx)))

/-- The outcomes of the classification of the specification, one by one. -/
theorem spec_outcomes (text : List Char) :
    (detect_statement_type_spec text = STATEMENT_INVALID ↔ text.dropWhile is_space = []) ∧
    (detect_statement_type_spec text = STATEMENT_SELECT ↔
      String.mk (((text.dropWhile is_space).takeWhile Char.isAlpha).map Char.toLower) =
        "select") ∧
    (detect_statement_type_spec text = STATEMENT_INSERT ↔
      String.mk (((text.dropWhile is_space).takeWhile Char.isAlpha).map Char.toLower) =
        "insert") ∧
    (detect_statement_type_spec text = STATEMENT_UPDATE ↔
      String.mk (((text.dropWhile is_space).takeWhile Char.isAlpha).map Char.toLower) =
        "update") ∧
    (detect_statement_type_spec text = STATEMENT_DELETE ↔
      String.mk (((text.dropWhile is_space).takeWhile Char.isAlpha).map Char.toLower) =
        "delete") ∧
    (detect_statement_type_spec text = STATEMENT_REPLACE ↔
      String.mk (((text.dropWhile is_space).takeWhile Char.isAlpha).map Char.toLower) =
        "replace") := by
  simp only [detect_statement_type_spec]
  cases h : List.dropWhile is_space text with
  | nil => simp
  | cons c cs =>
    generalize String.mk (List.map Char.toLower (List.takeWhile Char.isAlpha (c :: cs))) = k
    by_cases h1 : k = "select"
    · subst h1; simp
    by_cases h2 : k = "insert"
    · subst h2; simp
    by_cases h3 : k = "update"
    · subst h3; simp
    by_cases h4 : k = "delete"
    · subst h4; simp
    by_cases h5 : k = "replace"
    · subst h5; simp
    simp [h1, h2, h3, h4, h5]


/-- C11: for every SQL text (the C string handed to detect_statement_type, that is
the characters before the first NUL), with `rest` the text after its leading spaces,
tabs, carriage returns and newlines and `keyword` the lower-cased longest prefix of
`rest` made of letters: the result is the classification of the specification,
which knows no buffer limit; it is INVALID iff `rest` is empty; it is SELECT,
INSERT, UPDATE, DELETE or REPLACE iff `keyword` is that keyword (and OTHER in every
other case); two texts that differ only in letter case are classified alike; and
whitespace put in front of a text does not change its classification. -/
theorem classification_by_leading_keyword (s : String) :
    detect_statement_type s = detect_statement_type_spec (c_chars s) ∧
    (detect_statement_type s = STATEMENT_INVALID ↔ (c_chars s).dropWhile is_space = []) ∧
    (∀ kind keyword,
      (kind, keyword) ∈ [(STATEMENT_SELECT, "select"), (STATEMENT_INSERT, "insert"),
        (STATEMENT_UPDATE, "update"), (STATEMENT_DELETE, "delete"),
        (STATEMENT_REPLACE, "replace")] →
      (detect_statement_type s = kind ↔
        String.mk ((((c_chars s).dropWhile is_space).takeWhile Char.isAlpha).map Char.toLower) =
          keyword)) ∧
    (detect_statement_type s = STATEMENT_OTHER ↔
      (c_chars s).dropWhile is_space ≠ [] ∧
      String.mk ((((c_chars s).dropWhile is_space).takeWhile Char.isAlpha).map Char.toLower) ∉
        ["select", "insert", "update", "delete", "replace"]) ∧
    (∀ t : String, s.toList.map Char.toLower = t.toList.map Char.toLower →
      detect_statement_type t = detect_statement_type s) ∧
    (∀ ws : List Char, (∀ c ∈ ws, is_space c = true) →
      detect_statement_type (String.mk (ws ++ s.toList)) = detect_statement_type s) := by
  have hs := detect_statement_type_eq_spec s
  obtain ⟨o1, o2, o3, o4, o5, o6⟩ := spec_outcomes (c_chars s)
  refine ⟨hs, ?_, ?_, ?_, ?_, ?_⟩
  · rw [hs]; exact o1
  · intro kind keyword hmem
    rw [hs]
    simp only [List.mem_cons, Prod.mk.injEq, List.mem_singleton, List.not_mem_nil,
      or_false] at hmem
    rcases hmem with ⟨rfl, rfl⟩ | ⟨rfl, rfl⟩ | ⟨rfl, rfl⟩ | ⟨rfl, rfl⟩ | ⟨rfl, rfl⟩
    · exact o2
    · exact o3
    · exact o4
    · exact o5
    · exact o6
  · rw [hs]
    simp only [List.mem_cons, List.mem_singleton, List.not_mem_nil, or_false, not_or, ne_eq]
    rw [← o1, ← o2, ← o3, ← o4, ← o5, ← o6]
    cases detect_statement_type_spec (c_chars s) <;> simp
  · intro t ht
    rw [detect_statement_type_eq_spec t, hs, ← spec_lower (c_chars t), ← spec_lower (c_chars s)]
    simp only [c_chars]
    rw [← c_chars_lower, ← c_chars_lower, ht]
  · intro ws hws
    rw [detect_statement_type_eq_spec, hs]
    simp only [c_chars]
    have : (String.mk (ws ++ s.toList)).toList = ws ++ s.toList := rfl
    rw [this, c_chars_whitespace ws _ hws]
    exact spec_whitespace ws _ hws

/-! ## Round trip of bound values -/

/-- The cast to a long of at least 32 bits keeps every 32-bit value. -/
theorem wrap_long_int32 (bits : Nat) (v : Int) (hb : 32 ≤ bits) (h1 : INT32_MIN ≤ v)
    (h2 : v ≤ INT32_MAX) : wrap_long bits v = v := by
  simp only [wrap_long]
  simp only [INT32_MIN, INT32_MAX] at h1 h2
  obtain ⟨k, rfl⟩ : ∃ k, bits = k + 32 := ⟨bits - 32, by omega⟩
  have hp : (2 : Int) ^ (k + 32 - 1) = 2 ^ k * 2147483648 := by
    rw [show k + 32 - 1 = k + 31 by omega, pow_add]; norm_num
  have hq : (2 : Int) ^ (k + 32) = 2 ^ k * 4294967296 := by
    rw [pow_add]; norm_num
  have hk : (1 : Int) ≤ 2 ^ k := one_le_pow₀ (by norm_num)
  rw [hp, hq]
  have h : (v + 2 ^ k * 2147483648) % (2 ^ k * 4294967296) = v + 2 ^ k * 2147483648 := by
    apply Int.emod_eq_of_lt <;> nlinarith
  rw [h]
  ring

theorem last_bound_eng_bind (E : Engine σ) (w : World σ) (st pos : Nat) (x : SqlValue) :
    last_bound (eng_bind E w st pos x).1.log = some x := by
  simp [last_bound, eng_bind, Event.bound]

/-- The row fetched from a statement with one column. -/
theorem fetch_one_row_single (E : Engine σ) (env : Env) (w : World σ) (self : Cursor) (id : Nat)
    (hone : E.data_count w.eng (w.stmt id).st = 1) :
    _fetch_one_row E env w self id =
      ({ w with err := (fetch_cell E env w.conn self w.eng (w.stmt id).st w.err 0).1 },
        if (fetch_cell E env w.conn self w.eng (w.stmt id).st w.err 0).1.isSome then none
        else some [(fetch_cell E env w.conn self w.eng (w.stmt id).st w.err 0).2]) := by
  have hr : List.range 1 = [0] := rfl
  simp only [_fetch_one_row, decode_row, hone, hr, fetch_cells, List.nil_append]
  split <;> rfl

/-- C12, counterexample: the byte string `a\0b` is bound as the text `a` (the bind
call passes length -1, so the engine reads up to the first NUL), and the row read
back from the engine that stores exactly what was bound holds `a`, which is not
equal to the value bound. -/
theorem text_with_nul_reads_back_truncated :
    (_bind_parameter echo World.echo 0 1 (PyObj.str [97, 0, 98])).2 = SQLITE_OK ∧
    last_bound (_bind_parameter echo World.echo 0 1 (PyObj.str [97, 0, 98])).1.log =
      some (echo.column_value
        (_bind_parameter echo World.echo 0 1 (PyObj.str [97, 0, 98])).1.eng 0 0) ∧
    (_fetch_one_row echo env64
      (_bind_parameter echo World.echo 0 1 (PyObj.str [97, 0, 98])).1 Cursor.fresh 0).2 =
      some [some (PyObj.str [97])] ∧
    (PyObj.str [97, 0, 98]).same_value (PyObj.str [97]) = false := by
  decide

/-- C12, amended: let `v` be null, a machine integer, a long integer inside the
signed 64-bit range, a double, a readable buffer, or a text without NUL byte read
back under a text policy that returns its own type (`round_trips`), on a platform
whose long has at least 32 bits.  If the one column of a row holds exactly the value
that `_bind_parameter` handed to the engine for `v`, has no converter, and no
exception is pending, then `_fetch_one_row` returns a row whose cell is equal to
`v` (integers by numerical value, whichever integer type holds them) and leaves no
exception pending. -/
theorem bound_value_reads_back (E : Engine σ) (env : Env) (w : World σ) (id pos : Nat)
    (v : PyObj) (w2 : World σ) (self : Cursor) (id2 : Nat)
    (hlong : 32 ≤ env.LONG_BIT)
    (hv : round_trips env w2.conn v)
    (herr : w2.err = none)
    (hone : E.data_count w2.eng (w2.stmt id2).st = 1)
    (hconv : cell_converter w2.conn self none 0 = (none, none))
    (hstored : last_bound (_bind_parameter E w id pos v).1.log =
      some (E.column_value w2.eng (w2.stmt id2).st 0)) :
    ∃ v', (_fetch_one_row E env w2 self id2).2 = some [some v'] ∧
      (_fetch_one_row E env w2 self id2).1.err = none ∧ v.same_value v' = true := by
  rw [fetch_one_row_single E env w2 self id2 hone, herr]
  cases v with
  | none =>
    simp only [_bind_parameter, last_bound_eng_bind, Option.some.injEq] at hstored
    refine ⟨PyObj.none, ?_, ?_, rfl⟩ <;> simp [fetch_cell, hconv, ← hstored]
  | int a =>
    simp only [_bind_parameter, last_bound_eng_bind, Option.some.injEq] at hstored
    by_cases hr : a < INT32_MIN ∨ a > INT32_MAX
    · refine ⟨PyObj.long a, ?_, ?_, by simp [PyObj.same_value]⟩ <;>
        simp [fetch_cell, hconv, ← hstored, hr]
    · have h1 : INT32_MIN ≤ a := by omega
      have h2 : a ≤ INT32_MAX := by omega
      refine ⟨PyObj.int a, ?_, ?_, by simp [PyObj.same_value]⟩ <;>
        simp [fetch_cell, hconv, ← hstored, hr, wrap_long_int32 _ a hlong h1 h2]
  | long a =>
    simp only [round_trips] at hv
    simp only [_bind_parameter, hv, if_true, last_bound_eng_bind, Option.some.injEq] at hstored
    by_cases hr : a < INT32_MIN ∨ a > INT32_MAX
    · refine ⟨PyObj.long a, ?_, ?_, by simp [PyObj.same_value]⟩ <;>
        simp [fetch_cell, hconv, ← hstored, hr]
    · have h1 : INT32_MIN ≤ a := by omega
      have h2 : a ≤ INT32_MAX := by omega
      refine ⟨PyObj.int a, ?_, ?_, by simp [PyObj.same_value]⟩ <;>
        simp [fetch_cell, hconv, ← hstored, hr, wrap_long_int32 _ a hlong h1 h2]
  | float b =>
    simp only [_bind_parameter, last_bound_eng_bind, Option.some.injEq] at hstored
    refine ⟨PyObj.float b, ?_, ?_, by simp [PyObj.same_value]⟩ <;>
      simp [fetch_cell, hconv, ← hstored]
  | buffer bytes readable =>
    simp only [round_trips] at hv
    subst hv
    simp only [_bind_parameter, if_true, last_bound_eng_bind, Option.some.injEq] at hstored
    refine ⟨PyObj.buffer bytes true, ?_, ?_, by simp [PyObj.same_value]⟩ <;>
      simp [fetch_cell, hconv, ← hstored]
  | str bytes =>
    simp only [round_trips] at hv
    obtain ⟨hnul, hpol⟩ := hv
    simp only [_bind_parameter, last_bound_eng_bind, Option.some.injEq, hnul] at hstored
    refine ⟨PyObj.str bytes, ?_, ?_, by simp [PyObj.same_value]⟩
    all_goals
      simp only [fetch_cell, hconv, ← hstored]
      cases htf : w2.conn.text_factory <;> rewrite [htf] at hpol <;> simp only at hpol
      · simp only [all_ascii] at hpol
        simp [unicode_from_string, hnul, hpol]
      · simp [hnul]
  | unicode s =>
    simp only [round_trips] at hv
    obtain ⟨hnul, hdec, hpol⟩ := hv
    simp only [_bind_parameter, last_bound_eng_bind, Option.some.injEq, hnul] at hstored
    refine ⟨PyObj.unicode s, ?_, ?_, by simp [PyObj.same_value]⟩
    all_goals
      simp only [fetch_cell, hconv, ← hstored]
      cases htf : w2.conn.text_factory <;> rewrite [htf] at hpol <;> simp only at hpol
      · simp [unicode_from_string, hnul, hdec]
      · simp only [all_ascii] at hpol
        simp [unicode_from_string, hnul, hpol, hdec]
  | other t => exact absurd hv (fun h => h)

/-- C12, witness: the long integer 5000000000 through the engine that stores what
was bound. -/
theorem bound_value_reads_back_witness :
    ∃ v', (_fetch_one_row echo env64
        (_bind_parameter echo World.echo 0 1 (PyObj.long 5000000000)).1 Cursor.fresh 0).2 =
        some [some v'] ∧
      (_fetch_one_row echo env64
        (_bind_parameter echo World.echo 0 1 (PyObj.long 5000000000)).1 Cursor.fresh 0).1.err =
        none ∧
      (PyObj.long 5000000000).same_value v' = true :=
  bound_value_reads_back echo env64 World.echo 0 1 (PyObj.long 5000000000)
    (_bind_parameter echo World.echo 0 1 (PyObj.long 5000000000)).1 Cursor.fresh 0
    (by decide) (by decide : fits_int64 5000000000 = true) rfl (by decide) rfl (by decide)

/-! ## The converter map -/

/-- A column name without a closing bracket yields no converter by name, whatever
`type_start` was left over. -/
theorem scan_colname_no_close (env : Env) (converters : List (String × Converter)) (i : Nat)
    (name : List Char) (cs : List Char) (pos : Nat) (ts : Option (Nat × Nat))
    (h : ']' ∉ cs) : (scan_colname env converters i name pos cs ts).2 = none := by
  induction cs generalizing pos ts with
  | nil => rfl
  | cons c cs ih =>
    have hc : c ≠ ']' := fun e => h (e ▸ List.mem_cons_self _ _)
    have hcs : ']' ∉ cs := fun m => h (List.mem_cons_of_mem _ m)
    simp only [scan_colname]
    split
    · exact ih _ _ hcs
    · exact ih _ _ hcs

/-- Inside a tag: once `type_start` points into this column, the scan runs to the
closing bracket and looks up the text between. -/
theorem scan_colname_in_tag (env : Env) (converters : List (String × Converter)) (i : Nat)
    (name : List Char) (t s : List Char) (pos q : Nat)
    (h1 : '[' ∉ t) (h2 : ']' ∉ t) :
    (scan_colname env converters i name pos (t ++ ']' :: s) (some (i, q))).2 =
      converters.lookup (String.mk ((name.drop q).take (pos + t.length - q))) := by
  induction t generalizing pos with
  | nil =>
    rw [List.nil_append, scan_colname]
    simp
  | cons c cs ih =>
    have hc1 : c ≠ '[' := fun e => h1 (e ▸ List.mem_cons_self _ _)
    have hc2 : c ≠ ']' := fun e => h2 (e ▸ List.mem_cons_self _ _)
    rw [List.cons_append, scan_colname, if_neg hc1, if_neg hc2]
    rw [ih (pos + 1) (fun m => h1 (List.mem_cons_of_mem _ m))
      (fun m => h2 (List.mem_cons_of_mem _ m))]
    rw [List.length_cons, show pos + 1 + cs.length = pos + (cs.length + 1) by omega]

/-- Up to the tag: a prefix without closing bracket is skipped, whatever
`type_start` was left over. -/
theorem scan_colname_to_tag (env : Env) (converters : List (String × Converter)) (i : Nat)
    (name : List Char) (p t s : List Char) (pos : Nat) (ts : Option (Nat × Nat))
    (hp : ']' ∉ p) (h1 : '[' ∉ t) (h2 : ']' ∉ t) :
    (scan_colname env converters i name pos (p ++ '[' :: (t ++ ']' :: s)) ts).2 =
      converters.lookup
        (String.mk ((name.drop (pos + p.length + 1)).take t.length)) := by
  induction p generalizing pos ts with
  | nil =>
    rw [List.nil_append]
    simp only [scan_colname, if_true]
    rw [scan_colname_in_tag env converters i name t s (pos + 1) (pos + 1) h1 h2]
    simp
  | cons c cs ih =>
    have hc : c ≠ ']' := fun e => hp (e ▸ List.mem_cons_self _ _)
    have hcs : ']' ∉ cs := fun m => hp (List.mem_cons_of_mem _ m)
    have hlen : pos + 1 + cs.length + 1 = pos + (cs.length + 1) + 1 := by omega
    rw [List.cons_append]
    simp only [scan_colname]
    split
    · rw [ih (pos + 1) (some (i, pos + 1)) hcs, List.length_cons, hlen]
    · rw [ih (pos + 1) ts hcs, List.length_cons, hlen]

/-- The scan of a column name that carries a bracketed tag looks up the tag, whatever
`type_start` was left over. -/
theorem scan_colname_tagged (env : Env) (converters : List (String × Converter)) (i : Nat)
    (p t s : List Char) (ts : Option (Nat × Nat))
    (hp : ']' ∉ p) (h1 : '[' ∉ t) (h2 : ']' ∉ t) :
    (scan_colname env converters i (p ++ '[' :: (t ++ ']' :: s)) 0
      (p ++ '[' :: (t ++ ']' :: s)) ts).2 = converters.lookup (String.mk t) := by
  rw [scan_colname_to_tag env converters i _ p t s 0 ts hp h1 h2]
  congr 2
  rw [show p ++ '[' :: (t ++ ']' :: s) = (p ++ ['[']) ++ (t ++ ']' :: s) by simp]
  rw [List.drop_left' (by simp)]
  simp

/-- A bitwise OR with a non-zero left operand is non-zero: the C conditions
`detect_types | PARSE_COLNAMES` and `detect_types | PARSE_DECLTYPES` hold whenever the
map is built at all. -/
theorem lor_ne_zero (a b : Nat) (h : a ≠ 0) : a ||| b ≠ 0 := by
  obtain ⟨i, hi⟩ := Nat.ne_zero_implies_bit_true h
  intro e
  have := Nat.testBit_or a b i
  rw [e, hi] at this
  simp at this

/-- What the column loop appends: one entry per column, each the converter found by
`column_converter` under some left-over `type_start`. -/
theorem cast_map_loop_entries (E : Engine σ) (env : Env) (w : World σ) (st : Nat)
    (cols : List Nat) (ts : Option (Nat × Nat)) (acc : List (Option Converter)) :
    ∃ tail, build_row_cast_map_loop E env w st cols ts acc = acc ++ tail ∧
      tail.length = cols.length ∧
      ∀ k (hk : k < cols.length), ∃ ts',
        tail.get? k = some (column_converter E env w st (cols.get ⟨k, hk⟩) ts').2 := by
  induction cols generalizing ts acc with
  | nil => exact ⟨[], by simp [build_row_cast_map_loop], rfl, fun k hk => absurd hk (by simp)⟩
  | cons i rest ih =>
    obtain ⟨tail, h1, h2, h3⟩ := ih (column_converter E env w st i ts).1
      (acc ++ [(column_converter E env w st i ts).2])
    refine ⟨(column_converter E env w st i ts).2 :: tail, ?_, ?_, ?_⟩
    · simp only [build_row_cast_map_loop, h1, List.append_assoc, List.singleton_append]
    · simp [h2]
    · intro k hk
      cases k with
      | zero => exact ⟨ts, rfl⟩
      | succ k =>
        obtain ⟨ts', h⟩ := h3 k (by simpa using hk)
        exact ⟨ts', by simpa using h⟩

/-- The entry of the converter map for column `i`, once the map has been built. -/
theorem row_cast_map_entry (E : Engine σ) (env : Env) (w : World σ) (self : Cursor) (id i : Nat)
    (hdetect : w.conn.detect_types ≠ 0) (hi : i < E.column_count w.eng (w.stmt id).st) :
    ∃ ts', (build_row_cast_map E env w self id).row_cast_map.get? i =
      some (column_converter E env w (w.stmt id).st i ts').2 := by
  obtain ⟨tail, h1, _, h3⟩ := cast_map_loop_entries E env w (w.stmt id).st
    (List.range (E.column_count w.eng (w.stmt id).st)) none []
  obtain ⟨ts', h⟩ := h3 i (by simpa using hi)
  refine ⟨ts', ?_⟩
  simp only [build_row_cast_map, if_neg hdetect, h1, List.nil_append, h]
  simp

theorem scan_decltype_eq (cs : List Char) :
    scan_decltype cs = cs.takeWhile (fun c => c != ' ') := by
  induction cs with
  | nil => rfl
  | cons c cs ih =>
    by_cases h : c = ' '
    · simp [scan_decltype, h]
    · simp [scan_decltype, h, ih]

/-- The key of the declared-type lookup is the first word of the declared type. -/
theorem decltype_key_eq_spec (decltype : String) :
    decltype_key decltype = first_word_spec (c_chars decltype) := by
  simp only [decltype_key, first_word_spec, scan_decltype_eq]

/-- The first word and what follows it make up the text; the first word has no
blank, and what follows is empty or starts with a blank. -/
theorem first_word_spec_facts (text : List Char) :
    ∃ rest, text = (first_word_spec text).toList ++ rest ∧
      ' ' ∉ (first_word_spec text).toList ∧ (rest = [] ∨ rest.head? = some ' ') := by
  refine ⟨text.dropWhile (fun c => c != ' '), ?_, ?_, ?_⟩
  · simp only [first_word_spec]
    exact (List.takeWhile_append_dropWhile _ _).symm
  · simp only [first_word_spec]
    intro hmem
    have := List.mem_takeWhile_imp hmem
    simp at this
  · induction text with
    | nil => left; rfl
    | cons c cs ih =>
      by_cases h : c = ' '
      · right; simp [List.dropWhile, h]
      · have hc : (c != ' ') = true := by simpa using h
        simp only [List.dropWhile_cons, hc, if_true]
        exact ih

/-- A closing bracket met while `type_start` still points into an earlier column:
the key looked up is read through that pointer. -/
theorem scan_colname_stale (env : Env) (converters : List (String × Converter)) (i : Nat)
    (name : List Char) (p s : List Char) (pos j q : Nat)
    (hj : j ≠ i) (h1 : '[' ∉ p) (h2 : ']' ∉ p) :
    (scan_colname env converters i name pos (p ++ ']' :: s) (some (j, q))).2 =
      converters.lookup (env.stale_key j q i (pos + p.length)) := by
  induction p generalizing pos with
  | nil =>
    rw [List.nil_append, scan_colname]
    simp [hj]
  | cons c cs ih =>
    have hc1 : c ≠ '[' := fun e => h1 (e ▸ List.mem_cons_self _ _)
    have hc2 : c ≠ ']' := fun e => h2 (e ▸ List.mem_cons_self _ _)
    rw [List.cons_append, scan_colname, if_neg hc1, if_neg hc2]
    rw [ih (pos + 1) (fun m => h1 (List.mem_cons_of_mem _ m))
      (fun m => h2 (List.mem_cons_of_mem _ m))]
    rw [List.length_cons, show pos + 1 + cs.length = pos + (cs.length + 1) by omega]

/-- The converter found for one column, by cases on its name. -/
theorem column_converter_cases (E : Engine σ) (env : Env) (w : World σ) (st i : Nat)
    (ts : Option (Nat × Nat)) (hdetect : w.conn.detect_types ≠ 0) :
    (∀ p t s, c_chars (E.column_name w.eng st i) = p ++ '[' :: (t ++ ']' :: s) →
      ']' ∉ p → '[' ∉ t → ']' ∉ t →
      (column_converter E env w st i ts).2 =
        match w.converters.lookup (String.mk t) with
        | some c => some c
        | none =>
          match E.column_decltype w.eng st i with
          | some decltype => w.converters.lookup (first_word_spec (c_chars decltype))
          | none => none) ∧
    (']' ∉ c_chars (E.column_name w.eng st i) →
      (column_converter E env w st i ts).2 =
        match E.column_decltype w.eng st i with
        | some decltype => w.converters.lookup (first_word_spec (c_chars decltype))
        | none => none) := by
  have h1 := lor_ne_zero _ env.PARSE_COLNAMES hdetect
  have h2 := lor_ne_zero _ env.PARSE_DECLTYPES hdetect
  constructor
  · intro p t s hname hp ht1 ht2
    simp only [column_converter, if_pos h1, if_pos h2, hname,
      scan_colname_tagged env w.converters i p t s ts hp ht1 ht2, decltype_key_eq_spec]
  · intro hno
    simp only [column_converter, if_pos h1, if_pos h2,
      scan_colname_no_close env w.converters i _ _ 0 ts hno, decltype_key_eq_spec]

/-- While the converter map is built (type detection on), for every result
column `i`: if its name carries a bracketed tag (`p[t]s`, the first closing bracket
of the name closing the tag `t`), the entry of the map is the converter registered
for `t` if there is one, even when the declared type has a converter too, and
otherwise the converter registered for the first word of the declared type, if
any; if its name has no closing bracket at all, the entry is the converter
registered for the first word of the declared type, if any; an entry without
converter is None, so the column is typed natively. -/
theorem converter_precedence (E : Engine σ) (env : Env) (w : World σ) (self : Cursor)
    (id i : Nat) (hdetect : w.conn.detect_types ≠ 0)
    (hi : i < E.column_count w.eng (w.stmt id).st) :
    (∀ p t s, c_chars (E.column_name w.eng (w.stmt id).st i) = p ++ '[' :: (t ++ ']' :: s) →
      ']' ∉ p → '[' ∉ t → ']' ∉ t →
      (build_row_cast_map E env w self id).row_cast_map.get? i =
        some (match w.converters.lookup (String.mk t) with
          | some c => some c
          | none =>
            match E.column_decltype w.eng (w.stmt id).st i with
            | some decltype => w.converters.lookup (first_word_spec (c_chars decltype))
            | none => none)) ∧
    (']' ∉ c_chars (E.column_name w.eng (w.stmt id).st i) →
      (build_row_cast_map E env w self id).row_cast_map.get? i =
        some (match E.column_decltype w.eng (w.stmt id).st i with
          | some decltype => w.converters.lookup (first_word_spec (c_chars decltype))
          | none => none)) := by
  obtain ⟨ts, hts⟩ := row_cast_map_entry E env w self id i hdetect hi
  have hc := column_converter_cases E env w (w.stmt id).st i ts hdetect
  constructor
  · intro p t s hname hp h1 h2
    rewrite [hts, hc.1 p t s hname hp h1 h2]
    rfl
  · intro hno
    rewrite [hts, hc.2 hno]
    rfl

/-- The column `d [date]` with declared type `integer`, converters registered for
both `date` and `integer`: the converter of the tag is chosen. -/
theorem converter_precedence_witness :
    (build_row_cast_map (scripted_typed [some "integer"]) env64
      (World.typed 3 [("date", Converter.accepting), ("integer", Converter.raising)])
      Cursor.fresh 0).row_cast_map.get? 0 = some (some Converter.accepting) :=
  (converter_precedence (scripted_typed [some "integer"]) env64
    (World.typed 3 [("date", Converter.accepting), ("integer", Converter.raising)])
    Cursor.fresh 0 0 (by decide) (by decide)).1 ['d', ' '] ['d', 'a', 't', 'e'] []
    (by decide) (by decide) (by decide) (by decide)

/-- C14, failing input: with only the by-declared-type mode enabled, the column
`d [date]`, which has no declared type, gets the converter registered for its alias
tag `date`, and the fetched cell is that converter's result; with only the
by-column-alias mode enabled, the column `n` gets the converter registered for its
declared type `integer`. -/
theorem converter_selected_with_mode_off :
    env64.PARSE_DECLTYPES &&& env64.PARSE_COLNAMES = 0 ∧
    (build_row_cast_map (scripted_typed []) env64
      (World.typed env64.PARSE_DECLTYPES [("date", Converter.accepting)])
      Cursor.fresh 0).row_cast_map.map Option.isSome = [true, false] ∧
    (_fetch_one_row (scripted_typed []) env64
      (World.typed env64.PARSE_DECLTYPES [("date", Converter.accepting)])
      (build_row_cast_map (scripted_typed []) env64
        (World.typed env64.PARSE_DECLTYPES [("date", Converter.accepting)]) Cursor.fresh 0)
      0).2 = some [some (PyObj.other 7), some (PyObj.int 5)] ∧
    (build_row_cast_map (scripted_typed [none, some "integer"]) env64
      (World.typed env64.PARSE_COLNAMES [("integer", Converter.accepting)])
      Cursor.fresh 0).row_cast_map.map Option.isSome = [false, true] := by
  decide

/-! ## Cells of a fetched row -/

/-- The converter picked for a cell does not depend on the exception pending, which
is either passed on or replaced by the IndexError. -/
theorem cell_converter_shape (conn : Connection) (self : Cursor) (err : Option PyErr)
    (i : Nat) :
    (cell_converter conn self err i).2 = (cell_converter conn self none i).2 ∧
    ((cell_converter conn self err i).1 = (cell_converter conn self none i).1 ∨
      ((cell_converter conn self err i).1 = err ∧ (cell_converter conn self none i).1 = none)) := by
  simp only [cell_converter]
  split
  · split
    · exact ⟨rfl, Or.inr ⟨rfl, rfl⟩⟩
    · exact ⟨rfl, Or.inl rfl⟩
  · exact ⟨rfl, Or.inr ⟨rfl, rfl⟩⟩

/-- The object stored in a cell does not depend on the exception pending. -/
theorem fetch_cell_value (E : Engine σ) (env : Env) (conn : Connection) (self : Cursor)
    (eng : σ) (st : Nat) (err : Option PyErr) (i : Nat) :
    (fetch_cell E env conn self eng st err i).2 =
      (fetch_cell E env conn self eng st none i).2 := by
  have hs := (cell_converter_shape conn self err i).1
  simp only [fetch_cell]
  generalize cell_converter conn self err i = c at hs ⊢
  generalize cell_converter conn self none i = c0 at hs ⊢
  obtain ⟨c1, c2⟩ := c
  obtain ⟨d1, d2⟩ := c0
  simp only at hs
  subst hs
  repeat' split
  all_goals first | rfl | simp_all

/-- A cell either leaves behind what it leaves when nothing is pending, or passes
the pending exception on and leaves nothing when nothing is pending. -/
theorem fetch_cell_err (E : Engine σ) (env : Env) (conn : Connection) (self : Cursor)
    (eng : σ) (st : Nat) (err : Option PyErr) (i : Nat) :
    (fetch_cell E env conn self eng st err i).1 =
        (fetch_cell E env conn self eng st none i).1 ∨
    ((fetch_cell E env conn self eng st err i).1 = err ∧
      (fetch_cell E env conn self eng st none i).1 = none) := by
  obtain ⟨hs, he⟩ := cell_converter_shape conn self err i
  simp only [fetch_cell]
  generalize cell_converter conn self err i = c at hs he ⊢
  generalize cell_converter conn self none i = c0 at hs he ⊢
  obtain ⟨c1, c2⟩ := c
  obtain ⟨d1, d2⟩ := c0
  simp only at hs he
  subst hs
  rcases he with he | ⟨he, hn⟩
  · subst he
    left
    rfl
  · subst he hn
    repeat' split
    all_goals first | (left; rfl) | (right; exact ⟨rfl, rfl⟩) | simp_all

theorem fetch_cells_append (E : Engine σ) (env : Env) (conn : Connection) (self : Cursor)
    (eng : σ) (st : Nat) (a b : List Nat) (err : Option PyErr) (row : Row) :
    fetch_cells E env conn self eng st (a ++ b) err row =
      fetch_cells E env conn self eng st b
        (fetch_cells E env conn self eng st a err row).1
        (fetch_cells E env conn self eng st a err row).2 := by
  induction a generalizing err row with
  | nil => rfl
  | cons i rest ih =>
    rw [List.cons_append]
    simp only [fetch_cells]
    exact ih _ _

/-- The cells of the row, column by column. -/
theorem fetch_cells_row (E : Engine σ) (env : Env) (conn : Connection) (self : Cursor)
    (eng : σ) (st : Nat) (cols : List Nat) (err : Option PyErr) (row : Row) :
    (fetch_cells E env conn self eng st cols err row).2 =
      row ++ cols.map (fun j => (fetch_cell E env conn self eng st none j).2) := by
  induction cols generalizing err row with
  | nil => simp [fetch_cells]
  | cons i rest ih =>
    simp only [fetch_cells, ih, List.map, List.append_assoc, List.singleton_append]
    rw [fetch_cell_value]

/-- The exception left by the column loop does not depend on the row built so far. -/
theorem fetch_cells_err_row (E : Engine σ) (env : Env) (conn : Connection) (self : Cursor)
    (eng : σ) (st : Nat) (cols : List Nat) (err : Option PyErr) (row row' : Row) :
    (fetch_cells E env conn self eng st cols err row).1 =
      (fetch_cells E env conn self eng st cols err row').1 := by
  induction cols generalizing err row row' with
  | nil => rfl
  | cons i rest ih =>
    simp only [fetch_cells]
    exact ih _ _ _

/-- A column loop that ends without exception from some pending state also ends
without exception when nothing is pending. -/
theorem fetch_cells_clean (E : Engine σ) (env : Env) (conn : Connection) (self : Cursor)
    (eng : σ) (st : Nat) (cols : List Nat) (err : Option PyErr) (row row' : Row)
    (h : (fetch_cells E env conn self eng st cols err row).1 = none) :
    (fetch_cells E env conn self eng st cols none row').1 = none := by
  induction cols generalizing err row row' with
  | nil => rfl
  | cons i rest ih =>
    simp only [fetch_cells] at h ⊢
    rcases fetch_cell_err E env conn self eng st err i with he | ⟨he, hn⟩
    · rw [← he]
      rw [fetch_cells_err_row E env conn self eng st rest _ _ (row ++ [(fetch_cell E env conn self eng st err i).2])]
      exact h
    · rw [hn]
      rw [he] at h
      exact ih _ _ _ h

theorem range_split_at (n i : Nat) (h : i < n) :
    List.range n = List.range i ++ i :: List.range' (i + 1) (n - i - 1) := by
  have h1 := List.range'_append_1 0 i (n - i)
  have e1 : n - i + i = n := by omega
  have e2 : n - i = (n - i - 1) + 1 := by omega
  rw [e1, Nat.zero_add] at h1
  rw [List.range_eq_range', List.range_eq_range', ← h1]
  congr 1
  rw [e2, List.range'_succ]
  simp

/-- Replacing the converter of column `i` leaves the cells of the other columns as
they are. -/
theorem fetch_cell_other (E : Engine σ) (env : Env) (conn : Connection) (self : Cursor)
    (eng : σ) (st : Nat) (err : Option PyErr) (i j : Nat) (c : Option Converter)
    (h : j ≠ i) :
    fetch_cell E env conn { self with row_cast_map := self.row_cast_map.set i c } eng st err j =
      fetch_cell E env conn self eng st err j := by
  have hg : (self.row_cast_map.set i c).get? j = self.row_cast_map.get? j := by
    simp [List.getElem?_set_ne (Ne.symm h)]
  simp only [fetch_cell, cell_converter, hg]

theorem fetch_cells_other (E : Engine σ) (env : Env) (conn : Connection) (self : Cursor)
    (eng : σ) (st : Nat) (cols : List Nat) (err : Option PyErr) (row : Row) (i : Nat)
    (c : Option Converter) (h : ∀ j ∈ cols, j ≠ i) :
    fetch_cells E env conn { self with row_cast_map := self.row_cast_map.set i c } eng st cols
        err row =
      fetch_cells E env conn self eng st cols err row := by
  induction cols generalizing err row with
  | nil => rfl
  | cons j rest ih =>
    simp only [fetch_cells, fetch_cell_other E env conn self eng st err i j c
      (h j (List.mem_cons_self _ _))]
    exact ih _ _ (fun x hx => h x (List.mem_cons_of_mem _ hx))

/-- A row and a second one whose cells agree with it except in column `i`. -/
theorem map_range_set (n i : Nat) (f g : Nat → Option PyObj) (v : Option PyObj) (hi : i < n)
    (hf : f i = v) (hfg : ∀ j, j ≠ i → f j = g j) :
    (List.range n).map f = ((List.range n).map g).set i v := by
  apply List.ext_getElem?
  intro k
  by_cases hk : k < n
  · by_cases hki : k = i
    · subst hki
      simp [List.getElem?_set, hk, hf]
    · simp [List.getElem?_set, hk, hfg k hki, Ne.symm hki]
  · have hik : i ≠ k := by omega
    have hnone : (List.range n)[k]? = none := by
      rw [List.getElem?_eq_none_iff]
      simp only [List.length_range]
      omega
    simp [List.getElem?_set, hik, hnone]


/-- C15: let column `i` of the current row have a converter (type detection on)
that raises on the column's text.  If the row would have been returned had the
converter of column `i` not raised (the same fetch with a converter `conv'` that
accepts the text in its place returns `row'`), then `_fetch_one_row` returns a row
too: it has the full column count, cell `i` is None, every other cell is the cell of
`row'`, and no exception is pending afterwards. -/
theorem raising_converter_yields_null_cell (E : Engine σ) (env : Env) (w : World σ)
    (self : Cursor) (id i : Nat) (conv conv' : Converter) (text : List Nat) (y : PyObj)
    (row' : Row)
    (hdetect : w.conn.detect_types ≠ 0)
    (hmap : self.row_cast_map.get? i = some (some conv))
    (hcol : i < E.data_count w.eng (w.stmt id).st)
    (htext : E.column_text w.eng (w.stmt id).st i = some text)
    (hraise : conv (c_str text) = none)
    (hgood : conv' (c_str text) = some y)
    (hhyp : (_fetch_one_row E env w
      { self with row_cast_map := self.row_cast_map.set i (some conv') } id).2 = some row') :
    (_fetch_one_row E env w self id).2 = some (row'.set i (some PyObj.none)) ∧
    (_fetch_one_row E env w self id).1.err = none ∧
    (row'.set i (some PyObj.none)).length = E.data_count w.eng (w.stmt id).st ∧
    (row'.set i (some PyObj.none)).get? i = some (some PyObj.none) ∧
    ∀ j, j ≠ i → (row'.set i (some PyObj.none)).get? j = row'.get? j := by
  have hsplit := range_split_at (E.data_count w.eng (w.stmt id).st) i hcol
  have hlen : i < self.row_cast_map.length := by
    have := hmap
    simp only [List.get?_eq_getElem?] at this
    exact (List.getElem?_eq_some_iff.mp this).1
  have hpre : ∀ e r, fetch_cells E env w.conn
      { self with row_cast_map := self.row_cast_map.set i (some conv') } w.eng (w.stmt id).st
      (List.range i) e r = fetch_cells E env w.conn self w.eng (w.stmt id).st (List.range i) e r :=
    fun e r => fetch_cells_other E env w.conn self w.eng (w.stmt id).st _ e r i _
      (fun j hj => by simp only [List.mem_range] at hj; omega)
  have htail : ∀ e r, fetch_cells E env w.conn
      { self with row_cast_map := self.row_cast_map.set i (some conv') } w.eng (w.stmt id).st
      (List.range' (i + 1) (E.data_count w.eng (w.stmt id).st - i - 1)) e r =
      fetch_cells E env w.conn self w.eng (w.stmt id).st
        (List.range' (i + 1) (E.data_count w.eng (w.stmt id).st - i - 1)) e r :=
    fun e r => fetch_cells_other E env w.conn self w.eng (w.stmt id).st _ e r i _
      (fun j hj => by simp only [List.mem_range'_1] at hj; omega)
  have hact : ∀ e, fetch_cell E env w.conn self w.eng (w.stmt id).st e i =
      (none, some PyObj.none) := by
    intro e
    simp only [fetch_cell, cell_converter, if_pos hdetect, hmap, htext, hraise]
  have hhc : ∀ e, fetch_cell E env w.conn
      { self with row_cast_map := self.row_cast_map.set i (some conv') } w.eng (w.stmt id).st e i =
      (e, some y) := by
    intro e
    have hg : (self.row_cast_map.set i (some conv')).get? i = some (some conv') := by
      simp [List.getElem?_set, hlen]
    simp only [fetch_cell, cell_converter, if_pos hdetect, hg, htext, hgood]
  have H' : fetch_cells E env w.conn
      { self with row_cast_map := self.row_cast_map.set i (some conv') } w.eng (w.stmt id).st
      (List.range (E.data_count w.eng (w.stmt id).st)) w.err [] =
      fetch_cells E env w.conn self w.eng (w.stmt id).st
        (List.range' (i + 1) (E.data_count w.eng (w.stmt id).st - i - 1))
        (fetch_cells E env w.conn self w.eng (w.stmt id).st (List.range i) w.err []).1
        ((fetch_cells E env w.conn self w.eng (w.stmt id).st (List.range i) w.err []).2 ++
          [some y]) := by
    rw [hsplit, fetch_cells_append, hpre]
    simp only [fetch_cells, hhc]
    exact htail _ _
  have H : fetch_cells E env w.conn self w.eng (w.stmt id).st
      (List.range (E.data_count w.eng (w.stmt id).st)) w.err [] =
      fetch_cells E env w.conn self w.eng (w.stmt id).st
        (List.range' (i + 1) (E.data_count w.eng (w.stmt id).st - i - 1)) none
        ((fetch_cells E env w.conn self w.eng (w.stmt id).st (List.range i) w.err []).2 ++
          [some PyObj.none]) := by
    rw [hsplit, fetch_cells_append]
    simp only [fetch_cells, hact]
  simp only [_fetch_one_row, decode_row] at hhyp ⊢
  split at hhyp
  · cases hhyp
  · rename_i hnone
    have hrow' : row' = (List.range (E.data_count w.eng (w.stmt id).st)).map
        (fun j => (fetch_cell E env w.conn
          { self with row_cast_map := self.row_cast_map.set i (some conv') } w.eng
          (w.stmt id).st none j).2) := by
      have := fetch_cells_row E env w.conn
        { self with row_cast_map := self.row_cast_map.set i (some conv') } w.eng (w.stmt id).st
        (List.range (E.data_count w.eng (w.stmt id).st)) w.err []
      rw [List.nil_append] at this
      rw [← this]
      exact (Option.some.inj hhyp).symm
    have herr' : (fetch_cells E env w.conn self w.eng (w.stmt id).st
        (List.range' (i + 1) (E.data_count w.eng (w.stmt id).st - i - 1))
        (fetch_cells E env w.conn self w.eng (w.stmt id).st (List.range i) w.err []).1
        ((fetch_cells E env w.conn self w.eng (w.stmt id).st (List.range i) w.err []).2 ++
          [some y])).1 = none := by
      rw [← H']
      simpa using hnone
    have herr : (fetch_cells E env w.conn self w.eng (w.stmt id).st
        (List.range (E.data_count w.eng (w.stmt id).st)) w.err []).1 = none := by
      rw [H]
      exact fetch_cells_clean E env w.conn self w.eng (w.stmt id).st _ _ _ _ herr'
    have hrow : (fetch_cells E env w.conn self w.eng (w.stmt id).st
        (List.range (E.data_count w.eng (w.stmt id).st)) w.err []).2 =
        row'.set i (some PyObj.none) := by
      rw [fetch_cells_row, List.nil_append, hrow']
      apply map_range_set _ _ _ _ _ hcol
      · rw [hact]
      · intro j hj
        rw [fetch_cell_other E env w.conn self w.eng (w.stmt id).st none i j _ hj]
    have hl : row'.length = E.data_count w.eng (w.stmt id).st := by
      rw [hrow']; simp
    refine ⟨?_, ?_, ?_, ?_, ?_⟩
    · rw [herr]; simp [hrow]
    · rw [herr]; simp
    · simp [hl]
    · simp [List.getElem?_set, hl, hcol]
    · intro j hj
      simp [List.getElem?_set_ne (Ne.symm hj)]

/-- C15, witness: the column `d [date]` with a raising converter registered for
`date`; the row comes back as (None, 5). -/
theorem raising_converter_yields_null_cell_witness :
    (_fetch_one_row (scripted_typed []) env64 (World.typed 1 [])
      { Cursor.fresh with row_cast_map := [some Converter.raising, none] } 0).2 =
      some [some PyObj.none, some (PyObj.int 5)] ∧
    (_fetch_one_row (scripted_typed []) env64 (World.typed 1 [])
      { Cursor.fresh with row_cast_map := [some Converter.raising, none] } 0).1.err = none :=
  have h := raising_converter_yields_null_cell (scripted_typed []) env64 (World.typed 1 [])
    { Cursor.fresh with row_cast_map := [some Converter.raising, none] } 0 0
    Converter.raising Converter.accepting [50, 48, 48, 53, 45, 48, 49, 45, 48, 49]
    (PyObj.other 7) [some (PyObj.other 7), some (PyObj.int 5)]
    (by decide) rfl (by decide) (by decide) rfl rfl (by decide)
  ⟨h.1, h.2.1⟩

/-- C16: on a platform whose long has at least 32 bits, for every integer `v` held
in an INTEGER column without converter, the cell fetched for that column holds
exactly `v`: as the machine-native integer type when -2^31 <= v <= 2^31 - 1 and as
the arbitrary-precision integer type otherwise; both for the single cell and for
the cell of the row returned by `_fetch_one_row`. -/
theorem integer_cell_exact (E : Engine σ) (env : Env) (w : World σ) (self : Cursor)
    (id i : Nat) (v : Int)
    (hlong : 32 ≤ env.LONG_BIT)
    (hconv : (cell_converter w.conn self w.err i).2 = none)
    (hint : E.column_value w.eng (w.stmt id).st i = SqlValue.integer v) :
    (fetch_cell E env w.conn self w.eng (w.stmt id).st w.err i).2 =
      some (if -(2 : Int) ^ 31 ≤ v ∧ v ≤ 2 ^ 31 - 1 then PyObj.int v else PyObj.long v) ∧
    (∀ row, (_fetch_one_row E env w self id).2 = some row →
      i < E.data_count w.eng (w.stmt id).st →
      row.get? i =
        some (some (if -(2 : Int) ^ 31 ≤ v ∧ v ≤ 2 ^ 31 - 1 then PyObj.int v
          else PyObj.long v))) := by
  have hcell : ∀ e, (cell_converter w.conn self e i).2 = none := by
    intro e
    rw [(cell_converter_shape w.conn self e i).1, ← (cell_converter_shape w.conn self w.err i).1]
    exact hconv
  have hval : ∀ e, (fetch_cell E env w.conn self w.eng (w.stmt id).st e i).2 =
      some (if -(2 : Int) ^ 31 ≤ v ∧ v ≤ 2 ^ 31 - 1 then PyObj.int v else PyObj.long v) := by
    intro e
    simp only [fetch_cell, hcell e, hint]
    by_cases hr : v < INT32_MIN ∨ v > INT32_MAX
    · rw [if_pos hr, if_neg]
      simp only [INT32_MIN, INT32_MAX] at hr
      omega
    · have h1 : INT32_MIN ≤ v := by omega
      have h2 : v ≤ INT32_MAX := by omega
      rw [if_neg hr, wrap_long_int32 _ v hlong h1 h2, if_pos]
      simp only [INT32_MIN, INT32_MAX] at h1 h2
      omega
  refine ⟨hval _, ?_⟩
  intro row hrow hi
  simp only [_fetch_one_row, decode_row] at hrow
  split at hrow
  · cases hrow
  · have := fetch_cells_row E env w.conn self w.eng (w.stmt id).st
      (List.range (E.data_count w.eng (w.stmt id).st)) w.err []
    rw [List.nil_append] at this
    rw [← Option.some.inj hrow, this]
    simp [hi, hval none]

/-- C16, witness: the integer 5 in the second column of the dated row. -/
theorem integer_cell_exact_witness :
    (fetch_cell scripted env64 (World.fresh Script.dated_row).conn Cursor.fresh
      (World.fresh Script.dated_row).eng ((World.fresh Script.dated_row).stmt 0).st
      (World.fresh Script.dated_row).err 1).2 = some (PyObj.int 5) :=
  (integer_cell_exact scripted env64 (World.fresh Script.dated_row) Cursor.fresh 0 1 5
    (by decide) rfl (by decide)).1

/-! ## description -/

/-- The prologue leaves `description` reset to None. -/
theorem query_prologue_description (E : Engine σ) (env : Env) (w : World σ) (self : Cursor)
    (multiple : Bool) (operation : String) :
    (query_prologue E env w self multiple operation).1.2.description = none := by
  simp only [query_prologue, acquire_statement]
  repeat' split
  all_goals rfl

theorem bind_phase_description (E : Engine σ) (env : Env) (npn : Nat) (p : Params)
    (s : LoopState σ) : (bind_phase E env npn p s).1.self.description = s.self.description := by
  simp only [bind_phase, build_row_cast_map]
  repeat' split
  all_goals rfl

theorem update_counters_description (E : Engine σ) (env : Env) (k : StatementKind)
    (s : LoopState σ) : (update_counters E env k s).self.description = s.self.description := by
  simp only [update_counters]
  repeat' split
  all_goals rfl

theorem finish_step_description (E : Engine σ) (env : Env) (k : StatementKind) (multiple : Bool)
    (id : Nat) (rc : Int) (s : LoopState σ) :
    (finish_step E env k multiple id rc s).1.self.description = s.self.description := by
  simp only [finish_step]
  repeat' split
  all_goals first | rfl | simp only [update_counters_description]

/-- A successful execute has reached the step of its statement. -/
theorem execute_ready_of_success (E : Engine σ) (env : Env) (w : World σ) (self : Cursor)
    (operation : String) (p : Params)
    (hok : (cursor_execute E env w self operation (some p)).2.2 ≠ none) :
    ∃ sb id, execute_ready E env w self operation p = some (sb, id) := by
  have hnull := query_execute_null_iff E env w self false operation [p]
  have herr : (_query_execute E env w self false operation [p]).1.err = none := by
    cases h : (_query_execute E env w self false operation [p]).1.err
    · rfl
    · exact absurd (hnull.mpr (by rw [h]; rfl)) hok
  by_cases hchk : (check_thread_and_connection w).2 = true
  · cases hp : (query_prologue E env w self false operation).2
    · exfalso
      have hfacts := (query_prologue_facts E env w self false operation).1 hp
      have : (_query_execute E env w self false operation [p]).1 =
          (query_prologue E env w self false operation).1.1 := by
        simp only [_query_execute, hchk, check_pass w hchk, hp, Bool.not_true,
          Bool.false_eq_true, if_false]
        exact (query_return_world _ _).1
      rw [this] at herr
      rw [herr] at hfacts
      simp at hfacts
    · rename_i npn
      have hpro : query_prologue E env w self false operation =
          (((query_prologue E env w self false operation).1.1,
            (query_prologue E env w self false operation).1.2), some npn) :=
        Prod.ext rfl hp
      obtain ⟨id, hid⟩ := query_prologue_statement E env w self false operation _ _ npn hpro
      have hunf := query_execute_unfold E env w self false operation [p] _ _ npn hchk hpro
      rw [hunf, (query_return_world _ _).1, query_loop_single] at herr
      cases hb : (bind_parameters E env
          (statement_mark_dirty (query_prologue E env w self false operation).1.1 id) id npn p).2
      · exfalso
        have hq := query_body_bind_fail E env (detect_statement_type operation) false npn p
          { w := (query_prologue E env w self false operation).1.1,
            self := (query_prologue E env w self false operation).1.2, rowcount := 0 } id hid hb
        rw [hq] at herr
        have := bind_parameters_fail_err E env _ id npn p hb
        simp only at herr
        rw [herr] at this
        simp at this
      · cases he : execute_ready E env w self operation p with
        | some x => exact ⟨x.1, x.2, rfl⟩
        | none =>
          exfalso
          simp only [execute_ready, hchk, if_true, hp, bind_phase, hid, hb, Bool.not_true,
            Bool.false_eq_true, if_false] at he
          cases he
  · exfalso
    have hc : (check_thread_and_connection w).2 = false := by simpa using hchk
    have herr2 := check_fail_err w hc
    have : (_query_execute E env w self false operation [p]).1 =
        (check_thread_and_connection w).1 := by
      simp only [_query_execute, hc, Bool.not_false, if_true]
    rw [this] at herr
    rw [herr] at herr2
    simp at herr2

/-- In the state in which execute is about to step, `description` is None. -/
theorem execute_ready_description (E : Engine σ) (env : Env) (w : World σ) (self : Cursor)
    (operation : String) (p : Params) (sb : LoopState σ) (id : Nat)
    (h : execute_ready E env w self operation p = some (sb, id)) :
    sb.self.description = none := by
  simp only [execute_ready] at h
  split at h
  · split at h
    · split at h
      · simp only [Option.some.injEq, Prod.mk.injEq] at h
        rw [← h.1, bind_phase_description]
        exact query_prologue_description E env w self false operation
      · cases h
    · cases h
  · cases h

/-- C17: every successful execute has reached the step of its statement (`sb`, `id`:
the state just before, and the statement) and settled it with a result code `rc`;
with `settled` the world right after that: if the statement is classified SELECT
and `rc` is Row or Done, `description` afterwards holds exactly one entry per column
of the compiled statement, in column order (the column's name up to the first
blank); if the statement is not classified SELECT and `rc` is Done, `description`
is None. -/
theorem description_after_execute (E : Engine σ) (env : Env) (w : World σ) (self : Cursor)
    (operation : String) (second_argument : Option Params)
    (hok : (cursor_execute E env w self operation second_argument).2.2 ≠ none) :
    ∃ sb id rc,
      execute_ready E env w self operation (second_argument.getD (Params.seq [])) =
        some (sb, id) ∧
      (step_with_schema_retry E sb.w id).2 = some rc ∧
      (detect_statement_type operation = STATEMENT_SELECT →
        rc = SQLITE_ROW ∨ rc = SQLITE_DONE →
        (cursor_execute E env w self operation second_argument).2.1.description =
          some ((List.range (E.column_count (step_with_schema_retry E sb.w id).1.eng
              ((step_with_schema_retry E sb.w id).1.stmt id).st)).map
            (fun i => _build_column_name
              (E.column_name (step_with_schema_retry E sb.w id).1.eng
                ((step_with_schema_retry E sb.w id).1.stmt id).st i)))) ∧
      (detect_statement_type operation ≠ STATEMENT_SELECT → rc = SQLITE_DONE →
        (cursor_execute E env w self operation second_argument).2.1.description = none) := by
  have hsame : cursor_execute E env w self operation second_argument =
      cursor_execute E env w self operation (some (second_argument.getD (Params.seq []))) := rfl
  rw [hsame] at hok ⊢
  obtain ⟨sb, id, hready⟩ := execute_ready_of_success E env w self operation _ hok
  have hex := execute_from_ready E env w self operation _ sb id hready
  have hdesc := execute_ready_description E env w self operation _ sb id hready
  have hnull := query_execute_null_iff E env w self false operation
    [second_argument.getD (Params.seq [])]
  have herr : (cursor_execute E env w self operation
      (some (second_argument.getD (Params.seq [])))).1.err = none := by
    cases h : (cursor_execute E env w self operation
        (some (second_argument.getD (Params.seq [])))).1.err
    · rfl
    · exact absurd (hnull.mpr (by
        have : (_query_execute E env w self false operation
            [second_argument.getD (Params.seq [])]).1.err = _ := h
        rw [this]; rfl)) hok
  rw [hex, (query_return_world _ _).1] at herr
  rw [hex, (query_return_world _ _).2.1]
  simp only [step_phase] at herr ⊢
  rcases step_with_schema_retry_cases E sb.w id with ⟨hn, he⟩ | ⟨rc, hrc, _, _⟩
  · exfalso
    simp only [hn] at herr
    rw [herr] at he
    simp at he
  · refine ⟨sb, id, rc, hready, hrc, ?_, ?_⟩
    · intro hsel hrow
      simp only [hrc, finish_step_description, build_description, hdesc, hsel]
      rcases hrow with h | h <;> subst h <;> simp [SQLITE_ROW, SQLITE_DONE]
    · intro hsel hdone
      subst hdone
      simp only [hrc, finish_step_description, build_description, hdesc]
      simp [hsel, SQLITE_ROW, SQLITE_DONE, hdesc]

/-- C17, witness: a SELECT with one column `x` whose first step yields a row. -/
theorem description_after_execute_witness :
    (∃ sb id rc,
      execute_ready scripted env64 (World.fresh Script.one_row) Cursor.fresh "SELECT x FROM t"
        ((none : Option Params).getD (Params.seq [])) = some (sb, id) ∧
      (step_with_schema_retry scripted sb.w id).2 = some rc ∧
      (detect_statement_type "SELECT x FROM t" = STATEMENT_SELECT →
        rc = SQLITE_ROW ∨ rc = SQLITE_DONE →
        (cursor_execute scripted env64 (World.fresh Script.one_row) Cursor.fresh
          "SELECT x FROM t" none).2.1.description =
          some ((List.range (scripted.column_count (step_with_schema_retry scripted sb.w id).1.eng
              ((step_with_schema_retry scripted sb.w id).1.stmt id).st)).map
            (fun i => _build_column_name
              (scripted.column_name (step_with_schema_retry scripted sb.w id).1.eng
                ((step_with_schema_retry scripted sb.w id).1.stmt id).st i)))) ∧
      (detect_statement_type "SELECT x FROM t" ≠ STATEMENT_SELECT → rc = SQLITE_DONE →
        (cursor_execute scripted env64 (World.fresh Script.one_row) Cursor.fresh
          "SELECT x FROM t" none).2.1.description = none)) ∧
    (cursor_execute scripted env64 (World.fresh Script.one_row) Cursor.fresh
      "SELECT x FROM t" none).2.1.description = some ["x"] :=
  ⟨description_after_execute scripted env64 (World.fresh Script.one_row) Cursor.fresh
    "SELECT x FROM t" none (by decide), by decide⟩

/-! ## Statement reuse, thread checks, explicit begin -/

/-- C18, failing input: cursor A has run `executemany` of the shared SQL (the batch
path resets the statement after the last parameter set but keeps the pointer), then
cursor B's `execute` of the same SQL has failed on the parameter count and B holds
the cached statement, marked in use.  A's `execute` of the same SQL then resets the
cached statement through its stale pointer, gets it from the cache as free, and
binds and steps it: no statement is compiled, and the statement B holds is no
longer marked in use.  When A's call is itself rejected on the parameter count, A
and B both hold the same statement object, marked in use. -/
theorem cached_statement_taken_from_other_cursor :
    reuse_first.2.2 = some PyObj.none ∧ reuse_first.2.1.statement = some 0 ∧
    reuse_second.2.2 = none ∧ reuse_second.2.1.statement = some 0 ∧
    reuse_second.1.conn.statement_cache.lookup shared_sql = some 0 ∧
    (reuse_second.1.clear_err.stmt 0) = { st := 1, in_use := true } ∧
    reuse_third.2.2 = some PyObj.none ∧
    reuse_third.1.log = reuse_second.1.log ++
      [Event.reset 1 SQLITE_OK, Event.reset 1 SQLITE_OK, Event.reset 1 SQLITE_OK,
       Event.bind 1 1 (SqlValue.integer 2) SQLITE_OK,
       Event.step Site.execute 1 SQLITE_DONE true 0,
       Event.reset 1 SQLITE_OK] ∧
    reuse_third.1.heap_next = reuse_second.1.heap_next ∧
    (reuse_third.1.stmt 0).in_use = false ∧
    (cursor_execute scripted env64 reuse_second.1.clear_err reuse_first.2.1 shared_sql
      (some (Params.seq []))).2.1.statement = reuse_second.2.1.statement ∧
    ((cursor_execute scripted env64 reuse_second.1.clear_err reuse_first.2.1 shared_sql
      (some (Params.seq []))).1.stmt 0).in_use = true := by
  decide

/-- C19, failing input: on a connection created by thread 0 with thread checking
on, thread 1 calls `create_function` and `create_aggregate`: `check_thread` would
refuse, yet both calls reach the engine and return None with no exception pending.
The sibling `commit` is refused with the thread error before any engine call. -/
theorem create_function_from_foreign_thread :
    World.foreign_thread.conn.check_same_thread = true ∧
    World.foreign_thread.thread ≠ World.foreign_thread.conn.thread_ident ∧
    (check_thread World.foreign_thread).2 = false ∧
    (connection_create_function scripted World.foreign_thread "f" 1).2 = some PyObj.none ∧
    (connection_create_function scripted World.foreign_thread "f" 1).1.err = none ∧
    (connection_create_function scripted World.foreign_thread "f" 1).1.log =
      [Event.create_function "f" 1 SQLITE_OK] ∧
    (connection_create_aggregate scripted World.foreign_thread "g" 1).2 = some PyObj.none ∧
    (connection_create_aggregate scripted World.foreign_thread "g" 1).1.err = none ∧
    (connection_create_aggregate scripted World.foreign_thread "g" 1).1.log =
      [Event.create_function "g" 1 SQLITE_OK] ∧
    (connection_commit scripted World.foreign_thread).2 = none ∧
    (connection_commit scripted World.foreign_thread).1.err = some PyErr.wrong_thread ∧
    (connection_commit scripted World.foreign_thread).1.log = [] := by
  decide

/-- The operations that do call `check_thread` first: from a foreign thread, with
checking on, each of them returns NULL having only set the thread error, a
ProgrammingError; with checking off `check_thread` passes. -/
theorem wrong_thread_rejected (E : Engine σ) (env : Env) (w : World σ) (self : Cursor)
    (multiple : Bool) (operation : String) (sets : List Params) :
    (w.conn.check_same_thread = true → w.thread ≠ w.conn.thread_ident →
      _query_execute E env w self multiple operation sets =
        (w.raise PyErr.wrong_thread, self, none) ∧
      cursor_iternext E env w self = (w.raise PyErr.wrong_thread, self, none) ∧
      cursor_close E w self = (w.raise PyErr.wrong_thread, self, none) ∧
      _connection_begin E w = (w.raise PyErr.wrong_thread, none) ∧
      connection_commit E w = (w.raise PyErr.wrong_thread, none) ∧
      connection_rollback E w = (w.raise PyErr.wrong_thread, none) ∧
      PyErr.wrong_thread.cls = PyExcClass.ProgrammingError) ∧
    (w.conn.check_same_thread = false → check_thread w = (w, true)) := by
  constructor
  · intro h1 h2
    have hc : check_thread w = (w.raise PyErr.wrong_thread, false) := by
      simp only [check_thread, h1, if_true, if_pos h2]
    refine ⟨?_, ?_, ?_, ?_, ?_, ?_, rfl⟩
    · simp only [_query_execute, check_thread_and_connection, hc]
      rfl
    · simp only [cursor_iternext, check_thread_and_connection, hc]
      rfl
    · simp only [cursor_close, check_thread_and_connection, hc]
      rfl
    · simp only [_connection_begin, hc]
      rfl
    · simp only [connection_commit, hc]
      rfl
    · simp only [connection_rollback, hc]
      rfl
  · intro h
    simp [check_thread, h]

/-- C20: explicit begin() on a connection with implicit begin enabled
(`no_implicit_begin` unset) returns NULL with the ProgrammingError set and changes
nothing else: no engine call, flag unchanged.  On a connection with implicit begin
disabled, called from the owning thread, it compiles BEGIN; if compile, step and
finalize all succeed it returns None with the flag IN_TXN, having traced exactly
these three calls; otherwise it returns NULL with the engine's error set
(OperationalError), the flag unchanged, the trace starting with the compile and
holding the step only if the compile succeeded. -/
theorem explicit_begin (E : Engine σ) (w : World σ) :
    (w.conn.no_implicit_begin = false →
      connection_begin E w = (w.raise PyErr.begin_not_allowed, none) ∧
      (w.raise PyErr.begin_not_allowed).log = w.log ∧
      (w.raise PyErr.begin_not_allowed).conn = w.conn ∧
      (w.raise PyErr.begin_not_allowed).eng = w.eng ∧
      PyErr.begin_not_allowed.cls = PyExcClass.ProgrammingError) ∧
    (w.conn.no_implicit_begin = true → (check_thread w).2 = true →
      ((E.prepare w.eng "BEGIN").2.1 = SQLITE_OK ∧
        (E.step (E.prepare w.eng "BEGIN").1 (E.prepare w.eng "BEGIN").2.2).2 = SQLITE_DONE ∧
        (E.finalize (E.step (E.prepare w.eng "BEGIN").1 (E.prepare w.eng "BEGIN").2.2).1
          (E.prepare w.eng "BEGIN").2.2).2 = SQLITE_OK →
        (connection_begin E w).2 = some PyObj.none ∧
        (connection_begin E w).1.conn.inTransaction = true ∧
        (connection_begin E w).1.err = w.err ∧
        ∃ c, (connection_begin E w).1.log = w.log ++
          [Event.prepare Site.begin "BEGIN" SQLITE_OK,
           Event.step Site.begin (E.prepare w.eng "BEGIN").2.2 SQLITE_DONE
             w.conn.inTransaction c,
           Event.finalize Site.begin (E.prepare w.eng "BEGIN").2.2 SQLITE_OK]) ∧
      (¬((E.prepare w.eng "BEGIN").2.1 = SQLITE_OK ∧
        (E.step (E.prepare w.eng "BEGIN").1 (E.prepare w.eng "BEGIN").2.2).2 = SQLITE_DONE ∧
        (E.finalize (E.step (E.prepare w.eng "BEGIN").1 (E.prepare w.eng "BEGIN").2.2).1
          (E.prepare w.eng "BEGIN").2.2).2 = SQLITE_OK) →
        (connection_begin E w).2 = none ∧
        (connection_begin E w).1.err = some PyErr.engine_error ∧
        PyErr.engine_error.cls = PyExcClass.OperationalError ∧
        (connection_begin E w).1.conn.inTransaction = w.conn.inTransaction ∧
        ∃ rest, (connection_begin E w).1.log = w.log ++
          Event.prepare Site.begin "BEGIN" (E.prepare w.eng "BEGIN").2.1 :: rest ∧
          ((E.prepare w.eng "BEGIN").2.1 ≠ SQLITE_OK → rest = []) ∧
          ((E.prepare w.eng "BEGIN").2.1 = SQLITE_OK → ∃ c evs, rest =
            Event.step Site.begin (E.prepare w.eng "BEGIN").2.2
              (E.step (E.prepare w.eng "BEGIN").1 (E.prepare w.eng "BEGIN").2.2).2
              w.conn.inTransaction c :: evs))) := by
  constructor
  · intro h
    refine ⟨?_, rfl, rfl, rfl, rfl⟩
    simp [connection_begin, h]
  · intro h hc
    have hcw : check_thread w = (w, true) := by
      simp only [check_thread] at hc ⊢
      split
      · split
        · rename_i h1 h2
          simp [h1, h2] at hc
        · rfl
      · rfl
    have hb : connection_begin E w = _connection_begin E w := by
      simp [connection_begin, h]
    rw [hb]
    constructor
    · rintro ⟨h1, h2, h3⟩
      have hv : _connection_begin E w =
          ({ (eng_finalize E Site.begin
                (eng_step E Site.begin (eng_prepare E Site.begin w "BEGIN").1
                  (E.prepare w.eng "BEGIN").2.2).1 (E.prepare w.eng "BEGIN").2.2).1 with
              conn := { w.conn with inTransaction := true } }, some PyObj.none) := by
        simp [_connection_begin, hcw, eng_prepare, eng_step, eng_finalize, h1, h2, h3]
      rw [hv]
      refine ⟨rfl, rfl, rfl,
        E.changes (E.step (E.prepare w.eng "BEGIN").1 (E.prepare w.eng "BEGIN").2.2).1, ?_⟩
      simp only [eng_prepare, eng_step, eng_finalize, h1, h2, h3, List.append_assoc,
        List.singleton_append]
      rfl
    · intro hn
      by_cases h1 : (E.prepare w.eng "BEGIN").2.1 = SQLITE_OK
      · by_cases h2 : (E.step (E.prepare w.eng "BEGIN").1 (E.prepare w.eng "BEGIN").2.2).2 =
            SQLITE_DONE
        · have h3 : ¬ (E.finalize (E.step (E.prepare w.eng "BEGIN").1
              (E.prepare w.eng "BEGIN").2.2).1 (E.prepare w.eng "BEGIN").2.2).2 = SQLITE_OK :=
            fun h3 => hn ⟨h1, h2, h3⟩
          have hv : _connection_begin E w =
              (_seterror (eng_finalize E Site.begin
                (eng_step E Site.begin (eng_prepare E Site.begin w "BEGIN").1
                  (E.prepare w.eng "BEGIN").2.2).1 (E.prepare w.eng "BEGIN").2.2).1, none) := by
            simp [_connection_begin, hcw, eng_prepare, eng_step, eng_finalize, h1, h2, h3]
          rw [hv]
          refine ⟨rfl, rfl, rfl, rfl,
            [Event.step Site.begin (E.prepare w.eng "BEGIN").2.2
              (E.step (E.prepare w.eng "BEGIN").1 (E.prepare w.eng "BEGIN").2.2).2
              w.conn.inTransaction
              (E.changes (E.step (E.prepare w.eng "BEGIN").1 (E.prepare w.eng "BEGIN").2.2).1),
             Event.finalize Site.begin (E.prepare w.eng "BEGIN").2.2
              (E.finalize (E.step (E.prepare w.eng "BEGIN").1 (E.prepare w.eng "BEGIN").2.2).1
                (E.prepare w.eng "BEGIN").2.2).2],
            ?_, fun hx => absurd h1 hx, fun _ => ⟨_, _, rfl⟩⟩
          simp only [_seterror, World.raise, eng_prepare, eng_step, eng_finalize,
            List.append_assoc, List.singleton_append]
          try rfl
        · have hv : _connection_begin E w =
              (_seterror (eng_step E Site.begin (eng_prepare E Site.begin w "BEGIN").1
                  (E.prepare w.eng "BEGIN").2.2).1, none) := by
            simp [_connection_begin, hcw, eng_prepare, eng_step, h1, h2]
          rw [hv]
          refine ⟨rfl, rfl, rfl, rfl,
            [Event.step Site.begin (E.prepare w.eng "BEGIN").2.2
              (E.step (E.prepare w.eng "BEGIN").1 (E.prepare w.eng "BEGIN").2.2).2
              w.conn.inTransaction
              (E.changes (E.step (E.prepare w.eng "BEGIN").1 (E.prepare w.eng "BEGIN").2.2).1)],
            ?_, fun hx => absurd h1 hx, fun _ => ⟨_, _, rfl⟩⟩
          simp only [_seterror, World.raise, eng_prepare, eng_step,
            List.append_assoc, List.singleton_append]
          try rfl
      · have hv : _connection_begin E w =
            (_seterror (eng_prepare E Site.begin w "BEGIN").1, none) := by
          simp [_connection_begin, hcw, eng_prepare, h1]
        rw [hv]
        exact ⟨rfl, rfl, rfl, rfl, [], rfl, fun _ => rfl, fun hx => absurd hx h1⟩

/-- C20, witness: explicit begin on a scripted connection with implicit begin
switched off. -/
theorem explicit_begin_witness :
    (connection_begin scripted World.implicit_begin_off).2 = some PyObj.none ∧
    (connection_begin scripted World.implicit_begin_off).1.conn.inTransaction = true :=
  have h := ((explicit_begin scripted World.implicit_begin_off).2 (by decide) (by decide)).1
    (by decide)
  ⟨h.1, h.2.1⟩

/-! ## What the mode bits and the in-use test do decide -/

/-- The detect-types bits are consulted only for being zero or not: two worlds that
differ in the bits alone, both non-zero, get the same converter map. -/
theorem modes_not_consulted (E : Engine σ) (env : Env) (w : World σ) (self : Cursor) (id : Nat)
    (d : Nat) (hw : w.conn.detect_types ≠ 0) (hd : d ≠ 0) :
    (build_row_cast_map E env { w with conn := { w.conn with detect_types := d } } self
      id).row_cast_map = (build_row_cast_map E env w self id).row_cast_map := by
  have hcol : ∀ st i ts,
      column_converter E env { w with conn := { w.conn with detect_types := d } } st i ts =
        column_converter E env w st i ts := by
    intro st i ts
    simp only [column_converter, if_pos (lor_ne_zero _ env.PARSE_COLNAMES hw),
      if_pos (lor_ne_zero _ env.PARSE_DECLTYPES hw),
      if_pos (lor_ne_zero d env.PARSE_COLNAMES hd),
      if_pos (lor_ne_zero d env.PARSE_DECLTYPES hd)]
  have hloop : ∀ st cols ts acc,
      build_row_cast_map_loop E env { w with conn := { w.conn with detect_types := d } } st
        cols ts acc = build_row_cast_map_loop E env w st cols ts acc := by
    intro st cols
    induction cols with
    | nil => intro ts acc; rfl
    | cons i rest ih =>
      intro ts acc
      simp only [build_row_cast_map_loop, hcol]
      exact ih _ _
  simp only [build_row_cast_map, if_neg hw, if_neg hd, World.stmt]
  exact hloop _ _ _ _

/-- Lines 531-555 when the cursor's own statement is not the cached one: a cached
statement that is in use is left as it is and a statement compiled for this call, at
a new address, is taken instead; a cached statement that is free is taken itself. -/
theorem acquire_statement_unaliased (E : Engine σ) (env : Env) (w : World σ) (self : Cursor)
    (operation : String) (cached : Nat)
    (hhit : w.conn.statement_cache.lookup operation = some cached)
    (hown : self.statement ≠ some cached) (hwf : cached < w.heap_next) :
    ((w.stmt cached).in_use = true →
      (E.prepare (reset_active E w self).eng operation).2.1 = SQLITE_OK →
      (acquire_statement E env w self operation).2.1.statement = some w.heap_next ∧
      w.heap_next ≠ cached ∧
      (acquire_statement E env w self operation).1.stmt cached = w.stmt cached ∧
      (acquire_statement E env w self operation).2.2 = true) ∧
    ((w.stmt cached).in_use = false →
      (acquire_statement E env w self operation).2.1.statement = some cached ∧
      (acquire_statement E env w self operation).2.2 = true) := by
  have hr : (reset_active E w self).stmt cached = w.stmt cached ∧
      (reset_active E w self).conn = w.conn ∧
      (reset_active E w self).heap_next = w.heap_next := by
    simp only [reset_active]
    split
    · rename_i active ha
      have hne : cached ≠ active := fun e => hown (by rw [ha, e])
      simp [statement_reset, eng_reset, World.stmt, heap_set, hne]
    · exact ⟨rfl, rfl, rfl⟩
  obtain ⟨hr1, hr2, hr3⟩ := hr
  have hg : cache_get E env (reset_active E w self) operation =
      ({ reset_active E w self with conn := { (reset_active E w self).conn with
          statement_cache := (operation, cached) ::
            (reset_active E w self).conn.statement_cache.filter (fun p => p.1 != operation) } },
        some cached) := by
    simp only [cache_get, hr2, hhit]
  constructor
  · intro hin hprep
    have hin' : ((cache_get E env (reset_active E w self) operation).1.stmt cached).in_use =
        true := by
      rw [hg]
      exact hr1 ▸ hin
    simp only [acquire_statement, hg] at hin' ⊢
    simp only [World.stmt] at hin' hr1 ⊢
    simp only [hin', if_true, statement_create, eng_prepare, hprep, ne_eq, not_true_eq_false,
      if_false, hr3]
    refine ⟨trivial, by omega, ?_, trivial⟩
    simp only [heap_set]
    rw [if_neg (by omega)]
    exact hr1
  · intro hfree
    have hfree' : ((cache_get E env (reset_active E w self) operation).1.stmt cached).in_use =
        false := by
      rw [hg]
      exact hr1 ▸ hfree
    simp only [acquire_statement, hg] at hfree' ⊢
    simp only [hfree', Bool.false_eq_true, if_false]
    exact ⟨trivial, trivial⟩

/-! ## commit and rollback -/

theorem check_thread_world (w : World σ) (h : (check_thread w).2 = true) :
    check_thread w = (w, true) := by
  simp only [check_thread] at h ⊢
  split
  · split
    · rename_i h1 h2
      simp [h1, h2] at h
    · rfl
  · rfl

/-- C22: on a connection whose flag is NO_TXN, called from a thread that passes the
thread check, commit() and rollback() return None and leave the whole world as it
was: no engine call is traced, the engine state is the same, the flag is NO_TXN. -/
theorem commit_without_transaction (E : Engine σ) (w : World σ)
    (hthread : (check_thread w).2 = true) (hflag : w.conn.inTransaction = false) :
    connection_commit E w = (w, some PyObj.none) ∧
    connection_rollback E w = (w, some PyObj.none) ∧
    (connection_commit E w).1.log = w.log ∧ (connection_rollback E w).1.log = w.log ∧
    (connection_commit E w).1.conn.inTransaction = false ∧
    (connection_rollback E w).1.conn.inTransaction = false := by
  have hc := check_thread_world w hthread
  have h1 : connection_commit E w = (w, some PyObj.none) := by
    simp [connection_commit, hc, hflag]
  have h2 : connection_rollback E w = (w, some PyObj.none) := by
    simp [connection_rollback, hc, hflag]
  rw [h1, h2]
  exact ⟨rfl, rfl, rfl, rfl, hflag, hflag⟩

/-- C22, witness: commit and rollback on a fresh scripted connection. -/
theorem commit_without_transaction_witness :
    connection_commit scripted (World.fresh Script.idle) =
      (World.fresh Script.idle, some PyObj.none) ∧
    connection_rollback scripted (World.fresh Script.idle) =
      (World.fresh Script.idle, some PyObj.none) :=
  have h := commit_without_transaction scripted (World.fresh Script.idle) (by decide) (by decide)
  ⟨h.1, h.2.1⟩

/-- C21: commit() and rollback() called while the flag is IN_TXN, from a thread that
passes the thread check: if the engine's prepare, step and finalize of COMMIT
(ROLLBACK) all succeed, the call returns None and the flag is NO_TXN; if any of them
fails, the call returns NULL with the engine's error set (an OperationalError) and
the flag is still IN_TXN. -/
theorem commit_rollback_in_transaction (E : Engine σ) (w : World σ)
    (hthread : (check_thread w).2 = true) (hflag : w.conn.inTransaction = true) :
    (E.runs w.eng "COMMIT" = true →
      (connection_commit E w).2 = some PyObj.none ∧
      (connection_commit E w).1.conn.inTransaction = false ∧
      (connection_commit E w).1.err = w.err) ∧
    (E.runs w.eng "COMMIT" = false →
      (connection_commit E w).2 = none ∧
      (connection_commit E w).1.err = some PyErr.engine_error ∧
      (connection_commit E w).1.conn.inTransaction = true) ∧
    (E.runs w.eng "ROLLBACK" = true →
      (connection_rollback E w).2 = some PyObj.none ∧
      (connection_rollback E w).1.conn.inTransaction = false ∧
      (connection_rollback E w).1.err = w.err) ∧
    (E.runs w.eng "ROLLBACK" = false →
      (connection_rollback E w).2 = none ∧
      (connection_rollback E w).1.err = some PyErr.engine_error ∧
      (connection_rollback E w).1.conn.inTransaction = true) ∧
    PyErr.engine_error.cls = PyExcClass.OperationalError := by
  have hc := check_thread_world w hthread
  refine ⟨?_, ?_, ?_, ?_, rfl⟩
  · intro h
    simp only [Engine.runs, Bool.and_eq_true, decide_eq_true_eq] at h
    obtain ⟨⟨h1, h2⟩, h3⟩ := h
    simp [connection_commit, hc, hflag, eng_prepare, eng_step, eng_finalize, h1, h2, h3]
  · intro h
    simp only [connection_commit, hc, hflag, eng_prepare, eng_step, eng_finalize,
      Bool.not_true, Bool.false_eq_true, if_false, if_true]
    by_cases h1 : (E.prepare w.eng "COMMIT").2.1 = SQLITE_OK
    · by_cases h2 : (E.step (E.prepare w.eng "COMMIT").1 (E.prepare w.eng "COMMIT").2.2).2 =
          SQLITE_DONE
      · have h3 : ¬ (E.finalize (E.step (E.prepare w.eng "COMMIT").1
            (E.prepare w.eng "COMMIT").2.2).1 (E.prepare w.eng "COMMIT").2.2).2 = SQLITE_OK := by
          intro h3
          simp [Engine.runs, h1, h2, h3] at h
        simp [h1, h2, h3, _seterror, World.raise, hflag]
      · simp [h1, h2, _seterror, World.raise, hflag]
    · simp [h1, _seterror, World.raise, hflag]
  · intro h
    simp only [Engine.runs, Bool.and_eq_true, decide_eq_true_eq] at h
    obtain ⟨⟨h1, h2⟩, h3⟩ := h
    simp [connection_rollback, hc, hflag, eng_prepare, eng_step, eng_finalize, h1, h2, h3]
  · intro h
    simp only [connection_rollback, hc, hflag, eng_prepare, eng_step, eng_finalize,
      Bool.not_true, Bool.false_eq_true, if_false, if_true]
    by_cases h1 : (E.prepare w.eng "ROLLBACK").2.1 = SQLITE_OK
    · by_cases h2 : (E.step (E.prepare w.eng "ROLLBACK").1 (E.prepare w.eng "ROLLBACK").2.2).2 =
          SQLITE_DONE
      · have h3 : ¬ (E.finalize (E.step (E.prepare w.eng "ROLLBACK").1
            (E.prepare w.eng "ROLLBACK").2.2).1 (E.prepare w.eng "ROLLBACK").2.2).2 =
            SQLITE_OK := by
          intro h3
          simp [Engine.runs, h1, h2, h3] at h
        simp [h1, h2, h3, _seterror, World.raise, hflag]
      · simp [h1, h2, _seterror, World.raise, hflag]
    · simp [h1, _seterror, World.raise, hflag]

/-- C21, witness: commit on a scripted connection with a transaction open. -/
theorem commit_rollback_in_transaction_witness :
    (connection_commit scripted World.in_txn).2 = some PyObj.none ∧
    (connection_commit scripted World.in_txn).1.conn.inTransaction = false ∧
    (connection_commit scripted World.in_txn).1.err = World.in_txn.err :=
  (commit_rollback_in_transaction scripted World.in_txn (by decide) (by decide)).1 (by decide)

/-! ## SELECT and the transaction state -/

/-- C23: for every SQL text classified SELECT, in either mode and either
transaction state, execute returns with the transaction flag it found, and none of
the engine calls it makes is made on behalf of BEGIN, COMMIT or ROLLBACK. -/
theorem select_leaves_transaction_alone (E : Engine σ) (env : Env) (w : World σ)
    (self : Cursor) (operation : String) (second_argument : Option Params)
    (hkind : detect_statement_type operation = STATEMENT_SELECT) :
    (cursor_execute E env w self operation second_argument).1.conn.inTransaction =
      w.conn.inTransaction ∧
    ∃ evs, (cursor_execute E env w self operation second_argument).1.log = w.log ++ evs ∧
      ∀ e ∈ evs, e.is_transaction_call = false := by
  have htd : transaction_decision E w self false operation = (reset_active E w self, true) := by
    simp only [transaction_decision, implicit_transaction, hkind]
    split <;> simp
  rcases query_execute_shape E env w self false operation
    [second_argument.getD (Params.seq [])] with ⟨h1, h2, _⟩ | ⟨h1, _⟩ | ⟨_, h2⟩
  · refine ⟨?_, [], ?_, by simp⟩
    · simp only [cursor_execute, h2]
    · simp only [cursor_execute, h1, List.append_nil]
  · rw [htd] at h1
    cases h1
  · rw [htd] at h2
    obtain ⟨_, hflag, evs, hlog, hq⟩ := (calm_reset_active E w self).andThen h2
    exact ⟨hflag, evs, hlog, fun e he => (hq e he).1⟩

/-- C23, witness: a SELECT on a scripted connection with a transaction open. -/
theorem select_leaves_transaction_alone_witness :
    (cursor_execute scripted env64 World.in_txn Cursor.fresh "SELECT x FROM t"
      none).1.conn.inTransaction = World.in_txn.conn.inTransaction ∧
    ∃ evs, (cursor_execute scripted env64 World.in_txn Cursor.fresh "SELECT x FROM t"
        none).1.log = World.in_txn.log ++ evs ∧
      ∀ e ∈ evs, e.is_transaction_call = false :=
  select_leaves_transaction_alone scripted env64 World.in_txn Cursor.fresh "SELECT x FROM t"
    none (by decide)

/-! ## unicode_from_string -/

/-- The plain UTF-8 decoder gives ASCII bytes back as the same code points. -/
theorem utf8_decode_ascii (bytes : List Nat) (h : all_ascii bytes = true) :
    utf8_decode bytes = some (String.mk (bytes.map Char.ofNat)) := by
  have haux : utf8_decode_aux bytes 0 0 = some (bytes.map Char.ofNat) := by
    induction bytes with
    | nil => rfl
    | cons b rest ih =>
      simp only [all_ascii, List.all_cons, Bool.and_eq_true] at h
      have hrest : all_ascii rest = true := h.2
      simp only [utf8_decode_aux, h.1, if_true, ih hrest, Option.map_some', List.map_cons]
  simp only [utf8_decode, haux, Option.map_some']

/-- C24: for every NUL-terminated byte string `s` (its content is `c_str s`): with
the optimized policy `unicode_from_string` returns the content itself as a byte
string if no byte has its high bit set, and otherwise what the UTF-8 decoder makes
of it, a unicode object or a failure, never a byte string; with the non-optimized
policy it always returns what the decoder makes of it; and when no byte has its
high bit set and the decoder gives ASCII bytes back as the same code points, the
two policies yield the same sequence of characters. -/
theorem optimized_unicode_fast_path (env : Env) (s : List Nat) :
    (all_ascii (c_str s) = true →
      unicode_from_string env s true = some (PyObj.str (c_str s))) ∧
    (all_ascii (c_str s) = false →
      unicode_from_string env s true = (env.decode_utf8 (c_str s)).map PyObj.unicode ∧
      unicode_from_string env s true ≠ some (PyObj.str (c_str s))) ∧
    (unicode_from_string env s true = some (PyObj.str (c_str s)) ↔
      all_ascii (c_str s) = true) ∧
    unicode_from_string env s false = (env.decode_utf8 (c_str s)).map PyObj.unicode ∧
    (all_ascii (c_str s) = true →
      env.decode_utf8 (c_str s) = some (String.mk ((c_str s).map Char.ofNat)) →
      (unicode_from_string env s true).bind PyObj.characters =
        (unicode_from_string env s false).bind PyObj.characters ∧
      (unicode_from_string env s true).bind PyObj.characters =
        some ((c_str s).map Char.ofNat)) := by
  have hfalse : unicode_from_string env s false =
      (env.decode_utf8 (c_str s)).map PyObj.unicode := by
    simp [unicode_from_string]
  have hyes : all_ascii (c_str s) = true →
      unicode_from_string env s true = some (PyObj.str (c_str s)) := by
    intro h
    simp only [all_ascii] at h
    simp [unicode_from_string, h]
  have hno : all_ascii (c_str s) = false →
      unicode_from_string env s true = (env.decode_utf8 (c_str s)).map PyObj.unicode := by
    intro h
    simp only [all_ascii] at h
    simp [unicode_from_string, h]
  have hne : all_ascii (c_str s) = false →
      unicode_from_string env s true ≠ some (PyObj.str (c_str s)) := by
    intro h
    rw [hno h]
    cases env.decode_utf8 (c_str s) <;> simp
  refine ⟨hyes, fun h => ⟨hno h, hne h⟩, ⟨?_, hyes⟩, hfalse, ?_⟩
  · intro h
    cases ha : all_ascii (c_str s)
    · exact absurd h (hne ha)
    · rfl
  · intro h hdec
    rw [hyes h, hfalse, hdec]
    exact ⟨rfl, rfl⟩

/-- C24, witness: the text `ab` under both policies, with the plain UTF-8 decoder. -/
theorem optimized_unicode_fast_path_witness :
    unicode_from_string env_utf8 [97, 98, 0] true = some (PyObj.str [97, 98]) ∧
    unicode_from_string env_utf8 [97, 98, 0] false = some (PyObj.unicode "ab") ∧
    (unicode_from_string env_utf8 [97, 98, 0] true).bind PyObj.characters =
      (unicode_from_string env_utf8 [97, 98, 0] false).bind PyObj.characters :=
  have h := optimized_unicode_fast_path env_utf8 [97, 98, 0]
  ⟨h.1 (by decide), by rw [h.2.2.2.1]; decide,
    (h.2.2.2.2 (by decide) (utf8_decode_ascii (c_str [97, 98, 0]) (by decide))).1⟩

/-! ## The look-ahead buffer and the active statement -/

/-- C25, failing input: execute of a SELECT that delivers a row, then close: both
calls succeed, and the cursor is left with the row still buffered and no statement.
The next call of `next` hands the row to the refill step, which dereferences the
NULL statement. -/
theorem buffered_row_survives_close :
    (cursor_execute scripted env64 (World.fresh Script.one_row) Cursor.fresh
      "SELECT x FROM t" none).2.2 = some PyObj.none ∧
    (cursor_close scripted
      (cursor_execute scripted env64 (World.fresh Script.one_row) Cursor.fresh
        "SELECT x FROM t" none).1
      (cursor_execute scripted env64 (World.fresh Script.one_row) Cursor.fresh
        "SELECT x FROM t" none).2.1).2.2 = some PyObj.none ∧
    closed_with_row.2.next_row = some [some (PyObj.int 1)] ∧
    closed_with_row.2.statement = none ∧
    closed_with_row.1.err = none ∧
    closed_with_row.1.fault = false ∧
    (cursor_iternext scripted env64 closed_with_row.1 closed_with_row.2).1.fault = true := by
  decide

/-- `next` keeps the look-ahead invariant, and establishes it whenever the entry
checks pass. -/
theorem lookahead_ok_after_next (E : Engine σ) (env : Env) (w : World σ) (self : Cursor)
    (h : (check_thread_and_connection w).2 = true ∨ self.lookahead_ok) :
    (cursor_iternext E env w self).2.1.lookahead_ok := by
  simp only [cursor_iternext, Cursor.lookahead_ok]
  split
  · rename_i hc
    rcases h with h | h
    · simp [h] at hc
    · exact h
  · repeat' split
    all_goals simp_all

theorem finish_step_lookahead (E : Engine σ) (env : Env) (k : StatementKind) (multiple : Bool)
    (id : Nat) (rc : Int) (s : LoopState σ) (hs : s.self.statement = some id)
    (hn : s.self.next_row = none) :
    (finish_step E env k multiple id rc s).1.self.lookahead_ok ∧
    (multiple = true → (finish_step E env k multiple id rc s).1.self.next_row = none) := by
  simp only [finish_step, Cursor.lookahead_ok]
  split
  · simp [hn]
  · rename_i hrow
    split
    · rename_i hm
      simp only [(update_counters_self E env k _).1, (update_counters_self E env k _).2.1]
      split
      · rename_i hr
        exact absurd ⟨hr, hm⟩ hrow
      · split <;> simp [hn]
    · rename_i hm
      simp only [(update_counters_self E env k _).1, (update_counters_self E env k _).2.1]
      split
      · simp [hs, hm]
      · split <;> simp [hn, hm]

/-- One turn of the parameter loop, entered with an empty buffer, leaves a cursor
that satisfies the look-ahead invariant; in batch mode the buffer stays empty. -/
theorem query_body_lookahead (E : Engine σ) (env : Env) (k : StatementKind) (multiple : Bool)
    (npn : Nat) (p : Params) (s : LoopState σ) (hn : s.self.next_row = none) :
    (query_body E env k multiple npn p s).1.self.lookahead_ok ∧
    (multiple = true → (query_body E env k multiple npn p s).1.self.next_row = none) := by
  cases hs : s.self.statement with
  | none =>
    simp [query_body, bind_phase, hs, Cursor.lookahead_ok, hn]
  | some id =>
    cases hb : (bind_parameters E env (statement_mark_dirty s.w id) id npn p).2 with
    | false =>
      rw [query_body_bind_fail E env k multiple npn p s id hs hb]
      simp [Cursor.lookahead_ok, hn]
    | true =>
      rw [query_body_bind_ok E env k multiple npn p s id hs hb]
      simp only [step_phase]
      split
      · simp [Cursor.lookahead_ok, (build_row_cast_map_statement E env _ s.self id).2.1, hn]
      · apply finish_step_lookahead
        · simp [(build_description_statement E _ _ id _ k).1,
            (build_row_cast_map_statement E env _ s.self id).1, hs]
        · simp [(build_description_statement E _ _ id _ k).2.1,
            (build_row_cast_map_statement E env _ s.self id).2.1, hn]

theorem query_prologue_next_row (E : Engine σ) (env : Env) (w : World σ) (self : Cursor)
    (multiple : Bool) (operation : String) :
    (query_prologue E env w self multiple operation).1.2.next_row = none := by
  simp only [query_prologue, acquire_statement]
  repeat' split
  all_goals rfl

/-! ## Scripts -/

/-- Whenever the entry checks pass and `executescript` returns, it returns None:
the `error:` label is also the normal exit. -/
theorem executescript_result (E : Engine σ) (fuel : Nat) (w : World σ) (script : String)
    (r : World σ × Option PyObj) (hc : (check_thread_and_connection w).2 = true)
    (h : cursor_executescript E fuel w script = some r) : r.2 = some PyObj.none := by
  simp only [cursor_executescript, hc, Bool.not_true, Bool.false_eq_true, if_false] at h
  split at h
  · simp only [Option.some.injEq] at h
    rw [← h]
  · split at h
    · exact absurd h (by simp)
    · simp only [Option.some.injEq] at h
      rw [← h]

/-- A statement of the script that fails to compile ends the loop at once: the
failed prepare is the last engine call, and the engine error is left pending. -/
theorem script_loop_failed_prepare (E : Engine σ) (fuel : Nat) (w : World σ) (s : String)
    (hcomp : E.complete s = true) (hp : (E.prepare w.eng s).2.1 ≠ SQLITE_OK) :
    script_loop E (fuel + 1) w s = some (_seterror (eng_prepare E Site.script w s).1) ∧
    (_seterror (eng_prepare E Site.script w s).1).log =
      w.log ++ [Event.prepare Site.script s (E.prepare w.eng s).2.1] ∧
    (_seterror (eng_prepare E Site.script w s).1).err = some PyErr.engine_error := by
  refine ⟨?_, rfl, rfl⟩
  have hp' : (eng_prepare E Site.script w s).2.1 ≠ SQLITE_OK := hp
  simp only [script_loop, hcomp, Bool.not_true, Bool.false_eq_true, if_false, hp', ne_eq,
    not_false_eq_true, if_true]

/-- C26, failing input: a script of three statements whose second statement fails
to compile (the engine's prepare returns 1).  The call returns with fuel 2, the
first statement ran, the failed prepare is the last engine call (no later statement
is executed), an engine error is pending, and yet the value returned is None, the
value that the same script returns when all three statements succeed. -/
theorem failed_script_returns_success_value :
    (scripted.prepare (scripted.prepare Script.bad_second three_statements).1
      (scripted.tail three_statements)).2.1 = 1 ∧
    (cursor_executescript scripted 2 (World.fresh Script.bad_second) three_statements).map
      (fun r => r.2) = some (some PyObj.none) ∧
    (cursor_executescript scripted 2 (World.fresh Script.bad_second) three_statements).map
      (fun r => r.1.err) = some (some PyErr.engine_error) ∧
    (cursor_executescript scripted 2 (World.fresh Script.bad_second) three_statements).map
      (fun r => r.1.log) = some
        [Event.prepare Site.script three_statements SQLITE_OK,
         Event.step Site.script 0 SQLITE_DONE false 0,
         Event.finalize Site.script 0 SQLITE_OK,
         Event.prepare Site.script (scripted.tail three_statements) 1] ∧
    (cursor_executescript scripted 4 (World.fresh Script.idle) three_statements).map
      (fun r => (r.2, r.1.err)) = some (some PyObj.none, none) := by
  decide

/-! ## Integer parameters -/

/-- An integer parameter inside the signed 64-bit range is handed to the engine
unchanged: the bind event carries the value of the parameter. -/
theorem bind_integer_exact (E : Engine σ) (w : World σ) (id pos : Nat) (v : Int) :
    (_bind_parameter E w id pos (PyObj.int v)).1.log =
      w.log ++ [Event.bind (w.stmt id).st pos (SqlValue.integer v)
        (_bind_parameter E w id pos (PyObj.int v)).2] ∧
    (fits_int64 v = true →
      (_bind_parameter E w id pos (PyObj.long v)).1.log =
        w.log ++ [Event.bind (w.stmt id).st pos (SqlValue.integer v)
          (_bind_parameter E w id pos (PyObj.long v)).2]) := by
  constructor
  · simp only [_bind_parameter, eng_bind]
  · intro hv
    simp only [_bind_parameter, hv, if_true, eng_bind]

/-- C27, failing input: the arbitrary-precision integer 2^63 as the only parameter
of an INSERT.  `_bind_parameter` reports success (the engine's OK) having handed -1
to the engine, and `execute` then steps the statement with -1 bound before it
reports the overflow. -/
theorem overflowing_long_bound_as_minus_one :
    fits_int64 ((2 : Int) ^ 63) = false ∧
    (_bind_parameter scripted (World.fresh Script.one_param) 0 1
      (PyObj.long ((2 : Int) ^ 63))).2 = SQLITE_OK ∧
    (_bind_parameter scripted (World.fresh Script.one_param) 0 1
      (PyObj.long ((2 : Int) ^ 63))).1.log =
      [Event.bind ((World.fresh Script.one_param).stmt 0).st 1 (SqlValue.integer (-1))
        SQLITE_OK] ∧
    (cursor_execute scripted env64 (World.fresh Script.one_param) Cursor.fresh
      "INSERT INTO t VALUES (?)" (some (Params.seq [PyObj.long ((2 : Int) ^ 63)]))).1.log =
      [Event.prepare Site.begin "BEGIN" SQLITE_OK,
       Event.step Site.begin 0 SQLITE_DONE false 0,
       Event.finalize Site.begin 0 SQLITE_OK,
       Event.prepare Site.execute "INSERT INTO t VALUES (?)" SQLITE_OK,
       Event.reset 1 SQLITE_OK,
       Event.bind 1 1 (SqlValue.integer (-1)) SQLITE_OK,
       Event.step Site.execute 1 SQLITE_DONE true 0,
       Event.reset 1 SQLITE_OK] := by
  decide

/-- With a second parameter behind the overflowing one, the adaptation step of the
second parameter clears the pending overflow: the statement is stepped with -1
bound and `execute` returns success with no exception pending. -/
theorem overflow_cleared_by_next_parameter :
    (cursor_execute scripted env64 (World.fresh Script.two_params) Cursor.fresh
      "INSERT INTO t VALUES (?, ?)"
      (some (Params.seq [PyObj.long ((2 : Int) ^ 63), PyObj.int 5]))).2.2 = some PyObj.none ∧
    (cursor_execute scripted env64 (World.fresh Script.two_params) Cursor.fresh
      "INSERT INTO t VALUES (?, ?)"
      (some (Params.seq [PyObj.long ((2 : Int) ^ 63), PyObj.int 5]))).1.err = none ∧
    (cursor_execute scripted env64 (World.fresh Script.two_params) Cursor.fresh
      "INSERT INTO t VALUES (?, ?)"
      (some (Params.seq [PyObj.long ((2 : Int) ^ 63), PyObj.int 5]))).1.log =
      [Event.prepare Site.begin "BEGIN" SQLITE_OK,
       Event.step Site.begin 0 SQLITE_DONE false 0,
       Event.finalize Site.begin 0 SQLITE_OK,
       Event.prepare Site.execute "INSERT INTO t VALUES (?, ?)" SQLITE_OK,
       Event.reset 1 SQLITE_OK,
       Event.bind 1 1 (SqlValue.integer (-1)) SQLITE_OK,
       Event.bind 1 2 (SqlValue.integer 5) SQLITE_OK,
       Event.step Site.execute 1 SQLITE_DONE true 0,
       Event.reset 1 SQLITE_OK] := by
  decide

/-! ## fetchmany -/

/-- C28, failing input: `fetchmany(0)` on a cursor with two rows still to be
returned (one buffered, one to come from the engine).  The call returns with fuel
3 and hands out both rows instead of the min(0, 2) = 0 rows of an empty list; the
cursor is left exhausted.  With size 1 the same cursor yields the first row only and
keeps the second one buffered. -/
theorem fetchmany_zero_returns_all_rows :
    two_rows_pending.2.next_row = some [some (PyObj.int 1)] ∧
    two_rows_pending.1.err = none ∧
    (cursor_fetchmany scripted env64 3 two_rows_pending.1 two_rows_pending.2 (some 0)).map
      (fun r => r.2.2) =
      some (some [NextResult.row [some (PyObj.int 1)], NextResult.row [some (PyObj.int 2)]]) ∧
    (cursor_fetchmany scripted env64 3 two_rows_pending.1 two_rows_pending.2 (some 0)).map
      (fun r => r.2.1.next_row) = some none ∧
    (cursor_fetchmany scripted env64 3 two_rows_pending.1 two_rows_pending.2 (some 1)).map
      (fun r => (r.2.2, r.2.1.next_row)) =
      some (some [NextResult.row [some (PyObj.int 1)]], some [some (PyObj.int 2)]) := by
  decide

/-- `next` with a buffered row when the engine delivers a further row that decodes
to `r`: the buffered row is handed out and `r` takes its place. -/
theorem iternext_refill (E : Engine σ) (env : Env) (w : World σ) (self : Cursor) (id : Nat)
    (t r : Row) (hc : (check_thread_and_connection w).2 = true) (hn : self.next_row = some t)
    (hs : self.statement = some id) (hf : self.row_factory = none) (he : w.err = none)
    (hrow : (E.step w.eng (w.stmt id).st).2 = SQLITE_ROW)
    (hdec : (decode_row E env w.conn self (E.step w.eng (w.stmt id).st).1 (w.stmt id).st
      none).2 = some r) :
    cursor_iternext E env w self =
      (({ (eng_step E Site.iternext w (w.stmt id).st).1 with err := none } : World σ),
        { self with next_row := some r }, some (NextResult.row t)) := by
  rw [iternext_more E env w self id t hc hn hs hf hrow]
  have hdec' : decode_row E env w.conn { self with next_row := none }
      (E.step w.eng (w.stmt id).st).1 (w.stmt id).st w.err =
      decode_row E env w.conn self (E.step w.eng (w.stmt id).st).1 (w.stmt id).st none := by
    rw [he]; exact decode_row_congr E env w.conn self _ _ _ none rfl
  have hfetch : _fetch_one_row E env (eng_step E Site.iternext w (w.stmt id).st).1
      { self with next_row := none } id =
      ({ (eng_step E Site.iternext w (w.stmt id).st).1 with err := none }, some r) := by
    simp only [_fetch_one_row]
    have h1 : decode_row E env (eng_step E Site.iternext w (w.stmt id).st).1.conn
        { self with next_row := none } (eng_step E Site.iternext w (w.stmt id).st).1.eng
        (((eng_step E Site.iternext w (w.stmt id).st).1).stmt id).st
        (eng_step E Site.iternext w (w.stmt id).st).1.err =
        decode_row E env w.conn self (E.step w.eng (w.stmt id).st).1 (w.stmt id).st none :=
      hdec'
    rw [h1, hdec, decode_row_some E env w.conn self _ _ none r hdec]
  rw [hfetch]

/-- A turn of the loop of `fetchmany` in which `next` signals exhaustion. -/
theorem fetchmany_loop_stop (E : Engine σ) (env : Env) (maxrows : Int) (fuel : Nat)
    (w : World σ) (self : Cursor) (counter : Int) (list : List NextResult)
    (w1 : World σ) (self1 : Cursor)
    (h : cursor_iternext E env w self = (w1, self1, none)) :
    fetchmany_loop E env maxrows (fuel + 1) w self counter list = some (w1, self1, list) := by
  rw [fetchmany_loop, h]

/-- A turn of the loop of `fetchmany` in which `next` hands out a row. -/
theorem fetchmany_loop_turn (E : Engine σ) (env : Env) (maxrows : Int) (fuel : Nat)
    (w : World σ) (self : Cursor) (counter : Int) (list : List NextResult)
    (w1 : World σ) (self1 : Cursor) (row : NextResult)
    (h : cursor_iternext E env w self = (w1, self1, some row)) :
    fetchmany_loop E env maxrows (fuel + 1) w self counter list =
      if counter + 1 = maxrows then some (w1, self1, list ++ [row])
      else fetchmany_loop E env maxrows fuel w1 self1 (counter + 1) (list ++ [row]) := by
  rw [fetchmany_loop, h]

/-- The loop of `fetchmany` with a positive number `n + 1` of rows still to collect,
a row in the buffer and the engine still to deliver `rest`: the loop ends, having
collected the next min(n + 1, k) rows in order, no exception is pending, and the
buffer holds the row behind the last one collected, if there is one. -/
theorem fetchmany_loop_buffered (E : Engine σ) (env : Env) (id : Nat) (rest : List Row)
    (n : Nat) (w : World σ) (self : Cursor) (t : Row) (fuel : Nat) (counter : Int)
    (list : List NextResult)
    (hc : (check_thread_and_connection w).2 = true) (hn : self.next_row = some t)
    (hs : self.statement = some id) (hf : self.row_factory = none) (he : w.err = none)
    (hrows : row_stream E env w.conn self (w.stmt id).st w.eng rest = true)
    (hfuel : rest.length + 2 ≤ fuel) :
    ∃ w' self', fetchmany_loop E env (counter + ((n + 1 : Nat) : Int)) fuel w self counter list =
        some (w', self', list ++ ((t :: rest).take (n + 1)).map NextResult.row) ∧
      w'.err = none ∧ self'.next_row = (rest.drop n).head? := by
  induction rest generalizing w self t n fuel counter list with
  | nil =>
    simp only [row_stream, decide_eq_true_eq] at hrows
    obtain ⟨f, rfl⟩ : ∃ f, fuel = f + 2 := ⟨fuel - 2, by simp at hfuel; omega⟩
    rw [fetchmany_loop_turn E env _ _ w self counter list _ _ _
      (iternext_last E env w self id t hc hn hs hf hrows)]
    cases n with
    | zero =>
      refine ⟨(eng_step E Site.iternext w (w.stmt id).st).1, { self with next_row := none },
        ?_, he, rfl⟩
      simp
    | succ m =>
      have hne : ¬ (counter + 1 = counter + ((m + 1 + 1 : Nat) : Int)) := by
        push_cast; omega
      simp only [if_neg hne]
      have hc' : (check_thread_and_connection (eng_step E Site.iternext w (w.stmt id).st).1).2
          = true := check_of_frame (calm_eng_step E _ w _ (Or.inr (Or.inr rfl))).1 hc
      rw [fetchmany_loop_stop E env _ _ _ _ _ _ _ _
        (iternext_release E env (eng_step E Site.iternext w (w.stmt id).st).1
          { self with next_row := none } id hc' rfl hs)]
      refine ⟨(statement_reset E (eng_step E Site.iternext w (w.stmt id).st).1 id).1,
        { self with next_row := none, statement := none }, ?_, he, rfl⟩
      simp
  | cons r rest ih =>
    simp only [row_stream, Bool.and_eq_true, decide_eq_true_eq] at hrows
    obtain ⟨⟨hrow, hdec⟩, hrest⟩ := hrows
    obtain ⟨f, rfl⟩ : ∃ f, fuel = f + 1 := ⟨fuel - 1, by simp at hfuel; omega⟩
    rw [fetchmany_loop_turn E env _ _ w self counter list _ _ _
      (iternext_refill E env w self id t r hc hn hs hf he hrow hdec)]
    cases n with
    | zero =>
      refine ⟨({ (eng_step E Site.iternext w (w.stmt id).st).1 with err := none } : World σ),
        { self with next_row := some r }, ?_, rfl, rfl⟩
      simp
    | succ m =>
      have hne : ¬ (counter + 1 = counter + ((m + 1 + 1 : Nat) : Int)) := by
        push_cast; omega
      simp only [if_neg hne]
      have hmax : counter + ((m + 1 + 1 : Nat) : Int) = (counter + 1) + ((m + 1 : Nat) : Int) := by
        push_cast; ring
      have hc' : (check_thread_and_connection
          ({ (eng_step E Site.iternext w (w.stmt id).st).1 with err := none } : World σ)).2
          = true := (check_iff _).mpr ((check_iff w).mp hc)
      obtain ⟨w', self', h1, h2, h3⟩ := ih m
        ({ (eng_step E Site.iternext w (w.stmt id).st).1 with err := none } : World σ)
        { self with next_row := some r } r f (counter + 1) (list ++ [NextResult.row t])
        hc' rfl hs hf rfl
        (by
          rw [row_stream_congr E env _ self { self with next_row := some r } _ _ _ rfl]
          exact hrest)
        (by simp at hfuel ⊢; omega)
      refine ⟨w', self', ?_, h2, ?_⟩
      · rw [hmax, h1]
        simp
      · rw [h3]
        simp

/-- For a positive size `n`, `fetchmany(n)` on a cursor with a buffered row and the
rows `rest` still to come from the engine (every step succeeding, each row decoding)
returns the next min(n, k) rows in order and leaves the row behind them, if any, in
the buffer. -/
theorem fetchmany_positive (E : Engine σ) (env : Env) (id : Nat) (rest : List Row)
    (n : Nat) (w : World σ) (self : Cursor) (t : Row) (fuel : Nat)
    (hc : (check_thread_and_connection w).2 = true) (hn : self.next_row = some t)
    (hs : self.statement = some id) (hf : self.row_factory = none) (he : w.err = none)
    (hrows : row_stream E env w.conn self (w.stmt id).st w.eng rest = true)
    (hfuel : rest.length + 2 ≤ fuel) (hpos : 1 ≤ n) :
    ∃ w' self', cursor_fetchmany E env fuel w self (some (n : Int)) =
        some (w', self', some (((t :: rest).take n).map NextResult.row)) ∧
      self'.next_row = (rest.drop (n - 1)).head? := by
  obtain ⟨m, rfl⟩ : ∃ m, n = m + 1 := ⟨n - 1, by omega⟩
  obtain ⟨w', self', h1, h2, h3⟩ := fetchmany_loop_buffered E env id rest m w self t fuel 0 []
    hc hn hs hf he hrows hfuel
  refine ⟨w', self', ?_, ?_⟩
  · simp only [cursor_fetchmany, Option.getD_some]
    rw [Int.zero_add] at h1
    rw [h1]
    simp [h2]
  · simpa using h3

/-- `next` with a buffered row when the row factory raises and the refill step then
fails: the error branch releases the factory's result, which is NULL. -/
theorem iternext_factory_raised_step_failed (E : Engine σ) (env : Env) (w : World σ)
    (self : Cursor) (id : Nat) (t : Row) (factory : Row → Option PyObj)
    (hc : (check_thread_and_connection w).2 = true) (hn : self.next_row = some t)
    (hs : self.statement = some id) (hf : self.row_factory = some factory)
    (hraise : factory t = none)
    (h1 : (E.step w.eng (w.stmt id).st).2 ≠ SQLITE_DONE)
    (h2 : (E.step w.eng (w.stmt id).st).2 ≠ SQLITE_ROW) :
    (cursor_iternext E env w self).1.fault = true ∧
    (cursor_iternext E env w self).2.2 = none := by
  have h1' : (E.step w.eng (w.heap id).st).2 ≠ SQLITE_DONE := h1
  have h2' : (E.step w.eng (w.heap id).st).2 ≠ SQLITE_ROW := h2
  simp [cursor_iternext, hc, check_pass w hc, hn, hs, hf, hraise, eng_step, World.raise,
    World.stmt, h1', h2']

end Pysqlite
